import Mathlib

/-!
# rtpp_notify.c: timeout-notification queue, work-item pool and delivery

A shallow embedding of `src/rtpp_notify.c`.

* Work items live in a heap that only grows (the source never frees a work
  item); a pointer to a work item is its index in the heap and `NULL` is
  `none`.
* Timeout handlers live in a second heap of the same kind.
* The outcomes of `malloc`/`realloc` and of the system calls `socket`,
  `connect` and `send` are inputs of the model.
* `int` values are `Int`; a `char` is a `Nat` (its byte value).  The tag of a
  session is a protocol token, far shorter than `2^31` bytes, and the dropped
  counter is far below `2^31`, so no wrap-around is modelled for them.
* The mutexes and the condition variable are not modelled: each function
  body is one atomic step.
-/

namespace RtppNotify

/-! ## Data model -/

/-- The `struct rtpp_timeout_handler` of the source: `socket_name` is `NULL`
(`none`) or the bytes of a C string without its terminator. -/
structure rtpp_timeout_handler where
  socket_name : Option (List Nat)
  fd : Int
  connected : Int
  deriving DecidableEq, Repr

/-- The `struct rtpp_notify_wi` of the source.  `notify_buf` is `NULL` or an
allocated block, given by its bytes (the capacity is the length of the list);
`th` and `next` are pointers (indices into the handler heap and the work-item
heap). -/
structure rtpp_notify_wi where
  notify_buf : Option (List Nat)
  len : Int
  th : Option Nat
  glog : Nat
  next : Option Nat
  deriving DecidableEq, Repr

/-- The file-scope variables of the source, with the two heaps. -/
structure State where
  heap : List rtpp_notify_wi
  handlers : List rtpp_timeout_handler
  rtpp_notify_dropped_items : Int
  rtpp_notify_wi_free : Option Nat
  rtpp_notify_wi_queue : Option Nat
  rtpp_notify_wi_queue_tail : Option Nat
  deriving DecidableEq, Repr

/-- Ways in which the C program stops instead of returning. -/
inductive Fault where
  | null_deref
  | wild_pointer
  | assert_failed
  | use_after_free
  | invalid_free
  deriving DecidableEq, Repr

/-- Outcomes of the allocator during one call of `rtpp_notify_schedule`:
whether `malloc(sizeof(struct rtpp_notify_wi))` succeeds, whether the
`malloc`/`realloc` of the payload buffer succeeds, and the indeterminate
byte found at each offset of freshly allocated buffer memory. -/
structure Alloc where
  wi_ok : Bool
  buf_ok : Bool
  junk : Nat → Nat

/-- Modelled from the spec: the part of `struct rtpp_session` (declared in
`rtpp_session.h`, not among the sources) that `rtpp_notify_schedule` reads:
the notification handler and the optional tag of `timeout_data`. -/
structure rtpp_timeout_data where
  handler : Option Nat
  notify_tag : Option (List Nat)
  deriving DecidableEq, Repr

/-- Modelled from the spec: the session as `rtpp_notify_schedule` sees it:
the two ports `ports[0]`, `ports[1]` and `timeout_data`. -/
structure rtpp_session where
  ports0 : Int
  ports1 : Int
  timeout_data : rtpp_timeout_data
  deriving DecidableEq, Repr

/-- Modelled from the spec: the part of `struct cfg` (declared in
`rtpp_defines.h`, not among the sources) that is read: `cf->stable.glog`. -/
structure cfg where
  glog : Nat
  deriving DecidableEq, Repr

/-! ## Work-item pool and delivery queue -/

/-- A work item after `memset(wi, 0, sizeof(wi))`. -/
def wi_zero : rtpp_notify_wi :=
  { notify_buf := none, len := 0, th := none, glog := 0, next := none }

/-- Read through a work-item pointer. -/
def deref (heap : List rtpp_notify_wi) (p : Option Nat) : Except Fault rtpp_notify_wi :=
  match p with
  | none => .error .null_deref
  | some a =>
    match heap[a]? with
    | none => .error .wild_pointer
    | some w => .ok w

/-- The `rtpp_notify_queue_get_free_item` of the source (lines 74-98).  With
an empty free list a new item is allocated; when that `malloc` fails the
counter is incremented and the following `memset` writes through `NULL`. -/
def rtpp_notify_queue_get_free_item (st : State) (al : Alloc) :
    Except Fault (Option Nat × State) :=
  match st.rtpp_notify_wi_free with
  | none =>
    let wi : Option Nat := if al.wi_ok then some st.heap.length else none
    let st1 : State :=
      if wi = none then
        { st with rtpp_notify_dropped_items := st.rtpp_notify_dropped_items + 1 }
      else st
    match wi with
    | none => .error .null_deref
    | some p => .ok (some p, { st1 with heap := st1.heap ++ [wi_zero] })
  | some a =>
    match deref st.heap (some a) with
    | .error f => .error f
    | .ok w => .ok (some a, { st with rtpp_notify_wi_free := w.next })

/-- The `rtpp_notify_queue_return_free_item` of the source (lines 100-110). -/
def rtpp_notify_queue_return_free_item (st : State) (wi : Option Nat) : Except Fault State :=
  match wi with
  | none => .error .null_deref
  | some a =>
    match st.heap[a]? with
    | none => .error .wild_pointer
    | some w =>
      .ok { st with
        heap := st.heap.set a { w with next := st.rtpp_notify_wi_free }
        rtpp_notify_wi_free := some a }

/-- The `rtpp_notify_queue_put_item` of the source (lines 112-131). -/
def rtpp_notify_queue_put_item (st : State) (wi : Option Nat) : Except Fault State :=
  match wi with
  | none => .error .null_deref
  | some a =>
    match st.heap[a]? with
    | none => .error .wild_pointer
    | some w =>
      let heap1 := st.heap.set a { w with next := none }
      match st.rtpp_notify_wi_queue with
      | none =>
        .ok { st with
          heap := heap1
          rtpp_notify_wi_queue := some a
          rtpp_notify_wi_queue_tail := some a }
      | some _ =>
        match st.rtpp_notify_wi_queue_tail with
        | none => .error .null_deref
        | some t =>
          match heap1[t]? with
          | none => .error .wild_pointer
          | some tw =>
            .ok { st with
              heap := heap1.set t { tw with next := some a }
              rtpp_notify_wi_queue_tail := some a }

/-- The dequeue step of `rtpp_notify_queue_run` (lines 139-145): `none` while
the queue is empty (the worker waits on the condition variable), otherwise the
head item is taken and the head pointer moves to its `next`. -/
def rtpp_notify_queue_run_pop (st : State) : Option (Except Fault (Nat × State)) :=
  match st.rtpp_notify_wi_queue with
  | none => none
  | some a =>
    match st.heap[a]? with
    | none => some (.error .wild_pointer)
    | some w => some (.ok (a, { st with rtpp_notify_wi_queue := w.next }))

/-- The assignments of `rtpp_notify_init` (lines 159-163); the creation of the
worker thread and of the locks is not modelled. -/
def rtpp_notify_init (st : State) : State :=
  { st with
    rtpp_notify_wi_free := none
    rtpp_notify_wi_queue := none
    rtpp_notify_wi_queue_tail := none
    rtpp_notify_dropped_items := 0 }

/-! ## Scheduler -/

/-- The bytes of a string literal (ASCII). -/
def cstr (s : String) : List Nat := s.toList.map Char.toNat

/-- The text that the conversion `%d` of `printf` produces for an `int`. -/
def fmt_d (i : Int) : List Nat := cstr (toString i)

/-- The call `strlen(s)` on a C string given by its bytes before the terminator. -/
def strlen (s : List Nat) : Nat := s.length

/-- The call `snprintf(buf, size, fmt, ...)` where `text` is the expansion of
the format: at most `size - 1` bytes of `text` and a terminating NUL are
written at the start of `buf`, the rest of `buf` is untouched, and the length
of the whole `text` is returned.  At both call sites `size` is the capacity
with which the buffer was just allocated. -/
def snprintf (buf : List Nat) (size : Nat) (text : List Nat) : List Nat × Int :=
  if size = 0 then (buf, (text.length : Int))
  else
    let out := text.take (size - 1) ++ [0]
    (out ++ buf.drop out.length, (text.length : Int))

/-- The call `malloc(n)` for a payload buffer: `NULL` or `n` indeterminate bytes. -/
def malloc_buf (al : Alloc) (n : Nat) : Option (List Nat) :=
  if al.buf_ok then some ((List.range n).map al.junk) else none

/-- The call `realloc(old, n)`: `NULL`, or a block of `n` bytes that keeps the
old contents up to the smaller of the two sizes. -/
def realloc_buf (al : Alloc) (old : List Nat) (n : Nat) : Option (List Nat) :=
  if al.buf_ok then some ((List.range n).map fun i => old.getD i (al.junk i)) else none

/-- The allocation of lines 200-213: `malloc` when the item has no buffer yet,
`realloc` of its buffer otherwise. -/
def alloc_buf (al : Alloc) (old : Option (List Nat)) (n : Nat) : Option (List Nat) :=
  match old with
  | none => malloc_buf al n
  | some o => realloc_buf al o n

/-- The value of `len` computed at lines 193-199. -/
def notify_len (tag : Option (List Nat)) : Int :=
  match tag with
  | none => 5 + 5 + 3
  | some t => (strlen t : Int) + 2

/-- The expansion of the format string at lines 216-222: `"%d %d\n"` of the
two ports without a tag, `"%s\n"` of the tag otherwise. -/
def notify_text (sp : rtpp_session) : List Nat :=
  match sp.timeout_data.notify_tag with
  | none => fmt_d sp.ports0 ++ cstr " " ++ fmt_d sp.ports1 ++ cstr "\n"
  | some t => t ++ cstr "\n"

/-- The `rtpp_notify_schedule` of the source (lines 175-228): the return
value and the new state, or a fault. -/
def rtpp_notify_schedule (st : State) (al : Alloc) (cf : cfg) (sp : rtpp_session) :
    Except Fault (Int × State) :=
  match sp.timeout_data.handler with
  | none => .ok (0, st)
  | some th =>
    match rtpp_notify_queue_get_free_item st al with
    | .error f => .error f
    | .ok (none, st1) => .ok (-1, st1)
    | .ok (some wi, st1) =>
      match st1.heap[wi]? with
      | none => .error .wild_pointer
      | some w =>
        let w1 := { w with th := some th }
        let len := notify_len sp.timeout_data.notify_tag
        match alloc_buf al w1.notify_buf len.toNat with
        | none =>
          match rtpp_notify_queue_return_free_item
              { st1 with heap := st1.heap.set wi w1 } (some wi) with
          | .error f => .error f
          | .ok st2 => .ok (-1, st2)
        | some buf =>
          let w2 := { w1 with
            notify_buf := some (snprintf buf len.toNat (notify_text sp)).1
            len := len
            glog := cf.glog }
          match rtpp_notify_queue_put_item
              { st1 with heap := st1.heap.set wi w2 } (some wi) with
          | .error f => .error f
          | .ok st2 => .ok (0, st2)

/-! ## Connection handler and delivery -/

/-- The value of `EINTR`. -/
def EINTR : Int := 4

/-- What one call of `send` gives back: its return value and `errno`. -/
structure SendRet where
  result : Int
  errno : Int
  deriving DecidableEq, Repr

/-- The operating system as the delivery code meets it: the return values of
the successive calls of `socket`, `connect` and `send` still to come (index 0
is the next call). -/
structure OS where
  socket_ret : Nat → Int
  connect_ret : Nat → Int
  send_ret : Nat → SendRet

/-- The system after one more call of `socket`. -/
def OS.after_socket (os : OS) : OS := { os with socket_ret := fun i => os.socket_ret (i + 1) }

/-- The system after one more call of `connect`. -/
def OS.after_connect (os : OS) : OS := { os with connect_ret := fun i => os.connect_ret (i + 1) }

/-- The system after one more call of `send`. -/
def OS.after_send (os : OS) : OS := { os with send_ret := fun i => os.send_ret (i + 1) }

/-- The calls that the delivery code makes, in the order it makes them:
system calls with their arguments and return values, and log lines (`err`
tells error level from debug level).  The `path` of `connect` is the
`socket_name` of the handler, which the source copies into `sun_path`; `data`
of `send` is the first `n` bytes of the buffer. -/
inductive Event where
  | close (fd : Int)
  | socket (ret : Int)
  | connect (fd : Int) (path : List Nat) (ret : Int)
  | send (fd : Int) (data : List Nat) (n : Int) (ret : SendRet)
  | log (err : Bool) (msg : String)
  deriving DecidableEq, Repr

/-- The `reconnect_timeout_handler` of the source (lines 230-259): `none` when the
assertion of line 235 fails, otherwise the system, the handler and the calls made. -/
def reconnect_timeout_handler (os : OS) (th : rtpp_timeout_handler) :
    Option (OS × rtpp_timeout_handler × List Event) :=
  match th.socket_name with
  | none => none
  | some name =>
    if th.connected ≠ 0 then none
    else
      let ev0 : List Event :=
        if th.fd = -1 then [Event.log false "connecting timeout socket"]
        else [Event.log false "reconnecting timeout socket", Event.close th.fd]
      let fd := os.socket_ret 0
      let os1 := os.after_socket
      let th1 := { th with fd := fd }
      if fd = -1 then
        some (os1, th1, ev0 ++ [Event.socket fd, Event.log true "can't create timeout socket"])
      else
        let c := os1.connect_ret 0
        let os2 := os1.after_connect
        if c = -1 then
          some (os2, th1, ev0 ++ [Event.socket fd, Event.connect fd name c,
            Event.log true "can't connect to timeout socket"])
        else
          some (os2, { th1 with connected := 1 },
            ev0 ++ [Event.socket fd, Event.connect fd name c])

/-- The loop of lines 276-278: `send` is called, and called again as long as it
returns -1 with `errno == EINTR`.  The body runs at least once; `fuel` bounds
the number of restarts, and the result is `none` when a further restart would
exceed it. -/
def send_loop (fd : Int) (buf : Option (List Nat)) (n : Int) :
    Nat → OS → Option SendRet × OS × List Event
  | fuel, os =>
    let r := os.send_ret 0
    let os1 := os.after_send
    let ev := Event.send fd ((buf.getD []).take n.toNat) n r
    if r.result = -1 ∧ r.errno = EINTR then
      match fuel with
      | 0 => (none, os1, [ev])
      | f + 1 =>
        let rest := send_loop fd buf n f os1
        (rest.1, rest.2.1, ev :: rest.2.2)
    else (some r, os1, [ev])

/-- How a call of `do_timeout_notification` ends: it returns, the assertion in
`reconnect_timeout_handler` aborts the process, or the send loop is still
being restarted when the fuel is used up. -/
inductive Exit where
  | returned
  | aborted
  | spinning
  deriving DecidableEq, Repr

/-- The result of a call of `do_timeout_notification`. -/
structure Run where
  exit : Exit
  os : OS
  th : rtpp_timeout_handler
  events : List Event

/-- The `do_timeout_notification` of the source (lines 261-286), on the handler
`*wi->th` and the work item `*wi`. -/
def do_timeout_notification (fuel : Nat) (os : OS) (th : rtpp_timeout_handler)
    (wi : rtpp_notify_wi) (retries : Int) : Run :=
  -- lines 266-267: the handler is reconnected only when it is not connected
  let pre : Option (OS × rtpp_timeout_handler × List Event) :=
    if th.connected = 0 then reconnect_timeout_handler os th else some (os, th, [])
  match pre with
  | none => { exit := .aborted, os := os, th := th, events := [] }
  | some (os1, th1, ev1) =>
    if th.connected = 0 ∧ th1.connected = 0 then
      { exit := .returned, os := os1, th := th1,
        events := ev1 ++ [Event.log true "unable to send timeout notification"] }
    else
      match send_loop th1.fd wi.notify_buf (wi.len - 1) fuel os1 with
      | (none, os2, ev2) => { exit := .spinning, os := os2, th := th1, events := ev1 ++ ev2 }
      | (some r, os2, ev2) =>
        if r.result < 0 then
          let th2 := { th1 with connected := 0 }
          let ev3 := ev1 ++ ev2 ++ [Event.log true "failed to send timeout notification"]
          if retries > 0 then
            let rest := do_timeout_notification fuel os2 th2 wi (retries - 1)
            { rest with events := ev3 ++ rest.events }
          else { exit := .returned, os := os2, th := th2, events := ev3 }
        else { exit := .returned, os := os2, th := th1, events := ev1 ++ ev2 }
termination_by retries.toNat
decreasing_by omega

/-- How one iteration of the loop of `rtpp_notify_queue_run` ends. -/
inductive Iter where
  | waiting
  | fault (f : Fault)
  | spinning
  | done (st : State) (os : OS) (events : List Event)

/-- One iteration of the loop of `rtpp_notify_queue_run` (lines 138-152): the
head item is taken, `do_timeout_notification(wi, 1)` runs on it and on the
handler it points to, and the item goes back to the free list. -/
def rtpp_notify_queue_run_iter (fuel : Nat) (os : OS) (st : State) : Iter :=
  match rtpp_notify_queue_run_pop st with
  | none => .waiting
  | some (.error f) => .fault f
  | some (.ok (wi, st1)) =>
    match st1.heap[wi]? with
    | none => .fault .wild_pointer
    | some w =>
      match w.th with
      | none => .fault .null_deref
      | some t =>
        match st1.handlers[t]? with
        | none => .fault .wild_pointer
        | some th =>
          let run := do_timeout_notification fuel os th w 1
          match run.exit with
          | .aborted => .fault .assert_failed
          | .spinning => .spinning
          | .returned =>
            match rtpp_notify_queue_return_free_item
                { st1 with handlers := st1.handlers.set t run.th } (some wi) with
            | .error f => .fault f
            | .ok st2 => .done st2 run.os run.events

/-! ## Vocabulary of the statements -/

/-- An operation on the delivery queue: `rtpp_notify_queue_put_item(wi)` or the
dequeue step of the worker. -/
inductive QOp where
  | put (wi : Nat)
  | pop
  deriving DecidableEq, Repr

/-- The items put by a sequence of operations, in order. -/
def QOp.puts : List QOp → List Nat
  | [] => []
  | .put wi :: ops => wi :: QOp.puts ops
  | .pop :: ops => QOp.puts ops

/-- The number of dequeue steps in a sequence of operations. -/
def QOp.pops : List QOp → Nat
  | [] => 0
  | .put _ :: ops => QOp.pops ops
  | .pop :: ops => QOp.pops ops + 1

/-- Runs a sequence of queue operations on the code: the items dequeued, in
order, and the final state; `none` when an operation faults or a dequeue step
meets an empty queue. -/
def run_queue : State → List QOp → Option (List Nat × State)
  | st, [] => some ([], st)
  | st, .put wi :: ops =>
    match rtpp_notify_queue_put_item st (some wi) with
    | .error _ => none
    | .ok st1 => run_queue st1 ops
  | st, .pop :: ops =>
    match rtpp_notify_queue_run_pop st with
    | some (.ok (a, st1)) =>
      match run_queue st1 ops with
      | none => none
      | some (out, st2) => some (a :: out, st2)
    | _ => none

/-- A sequence of queue operations that respects the calling discipline, given
the `n` allocated work items and the items `pending` (put and not yet
dequeued): an item that is put is allocated and not pending, and a dequeue
step is taken only while an item is pending. -/
def admissible (n : Nat) : List Nat → List QOp → Bool
  | _, [] => true
  | pending, .put wi :: ops =>
    decide (wi < n) && !pending.contains wi && admissible n (pending ++ [wi]) ops
  | pending, .pop :: ops => !pending.isEmpty && admissible n pending.tail ops

/-- The linked list that starts at pointer `h` visits exactly the items `ps`
and ends with `NULL`. -/
def Chain (heap : List rtpp_notify_wi) : Option Nat → List Nat → Prop
  | h, [] => h = none
  | h, p :: ps => h = some p ∧ ∃ w, heap[p]? = some w ∧ Chain heap w.next ps

/-- The delivery queue of the state holds exactly the items `pending`, each
once, and the tail pointer is on the last of them. -/
def QueueIs (st : State) (pending : List Nat) : Prop :=
  Chain st.heap st.rtpp_notify_wi_queue pending ∧ pending.Nodup ∧
    ∀ t ∈ pending.getLast?, st.rtpp_notify_wi_queue_tail = some t

/-- The number of send attempts in a sequence of calls: every call of `send`
counts, except a restart, that is a call of `send` made when the previous call
of `send` returned -1 with `errno == EINTR` (`restart` tells whether the
previous call was interrupted so). -/
def send_attempts_from (restart : Bool) : List Event → Nat
  | [] => 0
  | .send _ _ _ r :: evs =>
    (if restart then 0 else 1) + send_attempts_from (decide (r.result = -1 ∧ r.errno = EINTR)) evs
  | _ :: evs => send_attempts_from restart evs

/-- The number of send attempts in a sequence of calls that starts with no
interrupted `send` before it. -/
def send_attempts (evs : List Event) : Nat := send_attempts_from false evs

/-- Whether a call is a call of `send`. -/
def Event.is_send : Event → Bool
  | .send _ _ _ _ => true
  | _ => false

/-- Whether a call is a call of `socket`, `connect` or `close`. -/
def Event.is_connection_call : Event → Bool
  | .socket _ => true
  | .connect _ _ _ => true
  | .close _ => true
  | _ => false

/-- The calls of `send` in a sequence of calls. -/
def send_calls (evs : List Event) : List Event := evs.filter Event.is_send

/-- The calls of `socket` in a sequence of calls. -/
def socket_calls (evs : List Event) : List Event :=
  evs.filter fun e => match e with
    | .socket _ => true
    | _ => false

/-- The free list of the state holds exactly the items `free`, the delivery
queue exactly the items `pending`, and no item occurs twice in the two. -/
def Owns (st : State) (free pending : List Nat) : Prop :=
  Chain st.heap st.rtpp_notify_wi_free free ∧ QueueIs st pending ∧ (free ++ pending).Nodup

/-- The free list and the delivery queue are proper linked lists of allocated
items, with no item twice within or across them. -/
def WellFormed (st : State) : Prop := ∃ free pending, Owns st free pending

/-! ## Example inputs -/

/-- A handler that was never connected, as `rtpp_th_init(name, -1, 0)` makes it. -/
def ex_th_new : rtpp_timeout_handler :=
  { socket_name := some (cstr "/var/run/notify.sock"), fd := -1, connected := 0 }

/-- A handler with an open connection on descriptor 3. -/
def ex_th_connected : rtpp_timeout_handler :=
  { socket_name := some (cstr "/var/run/notify.sock"), fd := 3, connected := 1 }

/-- The state before any work item is allocated. -/
def ex_empty : State :=
  { heap := [], handlers := [ex_th_new], rtpp_notify_dropped_items := 0,
    rtpp_notify_wi_free := none, rtpp_notify_wi_queue := none,
    rtpp_notify_wi_queue_tail := none }

/-- A state with three allocated work items. -/
def ex_three : State := { ex_empty with heap := [wi_zero, wi_zero, wi_zero] }

/-- Two items are put and dequeued, the queue is empty, and it is refilled. -/
def ex_ops : List QOp := [.put 0, .put 1, .pop, .pop, .put 1, .put 2, .pop]

/-- An allocator that succeeds and hands out memory filled with `0xAA`. -/
def ex_alloc : Alloc := { wi_ok := true, buf_ok := true, junk := fun _ => 170 }

/-- An allocator that cannot allocate a work item. -/
def ex_alloc_no_wi : Alloc := { wi_ok := false, buf_ok := true, junk := fun _ => 170 }

/-- An allocator that allocates the work item and not the payload buffer. -/
def ex_alloc_no_buf : Alloc := { wi_ok := true, buf_ok := false, junk := fun _ => 170 }

/-- A configuration with log handle 1. -/
def ex_cfg : cfg := { glog := 1 }

/-- A session without a tag, with ports 5004 and 5006. -/
def ex_session_ports : rtpp_session :=
  { ports0 := 5004, ports1 := 5006, timeout_data := { handler := some 0, notify_tag := none } }

/-- A session with the tag `foo`. -/
def ex_session_foo : rtpp_session :=
  { ports0 := 5004, ports1 := 5006,
    timeout_data := { handler := some 0, notify_tag := some (cstr "foo") } }

/-- A session without a notification handler. -/
def ex_session_no_handler : rtpp_session :=
  { ports0 := 5004, ports1 := 5006, timeout_data := { handler := none, notify_tag := none } }

/-- The work item that `rtpp_notify_schedule` fills for the tag `foo`. -/
def ex_wi_foo : rtpp_notify_wi :=
  { notify_buf := some (cstr "foo\n" ++ [0]), len := 5, th := some 0, glog := 1, next := none }

/-- A system on which every `send` succeeds in full, `socket` gives descriptor
4 and `connect` succeeds. -/
def ex_os_up : OS :=
  { socket_ret := fun _ => 4, connect_ret := fun _ => 0, send_ret := fun _ => ⟨4, 0⟩ }

/-- A system whose peer is gone: every `send` fails with `EPIPE` and every
`connect` fails, while `socket` gives descriptor 4. -/
def ex_os_down : OS :=
  { socket_ret := fun _ => 4, connect_ret := fun _ => -1, send_ret := fun _ => ⟨-1, 32⟩ }

/-- A system whose first `send` is interrupted, whose second `send` fails with
`EPIPE`, and on which everything succeeds afterwards. -/
def ex_os_flaky : OS :=
  { socket_ret := fun _ => 4, connect_ret := fun _ => 0,
    send_ret := fun i => if i = 0 then ⟨-1, 4⟩ else if i = 1 then ⟨-1, 32⟩ else ⟨4, 0⟩ }

/-! ## Handler construction and accessors -/

/-- The `rtpp_th_init` of the source (lines 288-301), on the handler by value,
the name being the string that the pointer given points to: `NULL` when
`malloc` fails, otherwise a handler with the three fields as given.  The
function on pointers is `Mem.rtpp_th_init`. -/
def rtpp_th_init (malloc_ok : Bool) (socket_name : Option (List Nat)) (fd : Int)
    (connected : Int) : Option rtpp_timeout_handler :=
  if malloc_ok then some { socket_name := socket_name, fd := fd, connected := connected }
  else none

/-- A block of memory that a `char *` can point to: a block from the
allocator that holds a string, a block from the allocator that has been freed,
or storage that does not come from the allocator (a string literal, a stack
buffer, an argument of the program). -/
inductive StrBlock where
  | heap (s : List Nat)
  | freed
  | foreign (s : List Nat)
  deriving DecidableEq, Repr

namespace Mem

/-- The `struct rtpp_timeout_handler` of the source as it lies in memory:
`socket_name` is a pointer, `NULL` or the address of a block of the string
memory (the index of the block). -/
structure rtpp_timeout_handler where
  socket_name : Option Nat
  fd : Int
  connected : Int
  deriving DecidableEq, Repr

/-- Reading the string at a pointer: a fault when the block has been freed or
the address is no block. -/
def read (mem : List StrBlock) (p : Nat) : Except Fault (List Nat) :=
  match mem[p]? with
  | none => .error .wild_pointer
  | some (.heap s) => .ok s
  | some (.foreign s) => .ok s
  | some .freed => .error .use_after_free

/-- The call `free(p)` for a pointer that is not `NULL`: the block must come
from the allocator and be live. -/
def free (mem : List StrBlock) (p : Nat) : Except Fault (List StrBlock) :=
  match mem[p]? with
  | none => .error .wild_pointer
  | some (.heap _) => .ok (mem.set p .freed)
  | some (.foreign _) => .error .invalid_free
  | some .freed => .error .invalid_free

/-- The call `strdup(p)`: the string at `p` is read and copied into a new
block, or `NULL` is returned when the allocation fails. -/
def strdup (ok : Bool) (mem : List StrBlock) (p : Option Nat) :
    Except Fault (Option Nat × List StrBlock) :=
  match p with
  | none => .error .null_deref
  | some a =>
    match read mem a with
    | .error f => .error f
    | .ok s => if ok then .ok (some mem.length, mem ++ [.heap s]) else .ok (none, mem)

/-- The `rtpp_th_init` of the source (lines 288-301): `NULL` when `malloc`
fails, otherwise a handler that stores the pointer given, without a copy. -/
def rtpp_th_init (malloc_ok : Bool) (socket_name : Option Nat) (fd : Int) (connected : Int) :
    Option rtpp_timeout_handler :=
  if malloc_ok then some { socket_name := socket_name, fd := fd, connected := connected }
  else none

/-- The `rtpp_th_set_sn` of the source (lines 303-311): the old name, when
not `NULL`, is freed, then the argument is duplicated and the result stored;
the handler after the call, the pointer returned and the string memory. -/
def rtpp_th_set_sn (strdup_ok : Bool) (mem : List StrBlock) (th : rtpp_timeout_handler)
    (socket_name : Option Nat) :
    Except Fault (rtpp_timeout_handler × Option Nat × List StrBlock) :=
  let freed : Except Fault (List StrBlock) :=
    match th.socket_name with
    | none => .ok mem
    | some a => free mem a
  match freed with
  | .error f => .error f
  | .ok mem1 =>
    match strdup strdup_ok mem1 socket_name with
    | .error f => .error f
    | .ok (q, mem2) => .ok ({ th with socket_name := q }, q, mem2)

/-- The `rtpp_th_get_sn` of the source (lines 313-318). -/
def rtpp_th_get_sn (th : rtpp_timeout_handler) : Option Nat := th.socket_name

/-- The handler by value: its name is read through the pointer. -/
def view (mem : List StrBlock) (th : rtpp_timeout_handler) :
    Except Fault RtppNotify.rtpp_timeout_handler :=
  match th.socket_name with
  | none => .ok { socket_name := none, fd := th.fd, connected := th.connected }
  | some a =>
    match read mem a with
    | .error f => .error f
    | .ok s => .ok { socket_name := some s, fd := th.fd, connected := th.connected }

end Mem

/-- The handler states that can be reached from `rtpp_th_init(name, -1, 0)` by
calls of `reconnect_timeout_handler` that return and by calls of
`do_timeout_notification`, with any outcomes of the system calls. -/
inductive HandlerReachable (name : Option (List Nat)) : rtpp_timeout_handler → Prop where
  | init {th : rtpp_timeout_handler} :
      rtpp_th_init true name (-1) 0 = some th → HandlerReachable name th
  | reconnect {th th1 : rtpp_timeout_handler} {os os1 : OS} {ev : List Event} :
      HandlerReachable name th → reconnect_timeout_handler os th = some (os1, th1, ev) →
      HandlerReachable name th1
  | notify {th : rtpp_timeout_handler} (fuel : Nat) (os : OS) (wi : rtpp_notify_wi)
      (retries : Int) :
      HandlerReachable name th →
      HandlerReachable name (do_timeout_notification fuel os th wi retries).th

/-! ## The whole system -/

/-- The second part of an iteration of the loop of `rtpp_notify_queue_run`
(lines 147-151), on the item `wi` that the worker has taken from the queue:
`do_timeout_notification(wi, 1)`, then the item goes back to the free list. -/
def rtpp_notify_queue_run_finish (fuel : Nat) (os : OS) (st : State) (wi : Nat) : Iter :=
  match st.heap[wi]? with
  | none => .fault .wild_pointer
  | some w =>
    match w.th with
    | none => .fault .null_deref
    | some t =>
      match st.handlers[t]? with
      | none => .fault .wild_pointer
      | some th =>
        let run := do_timeout_notification fuel os th w 1
        match run.exit with
        | .aborted => .fault .assert_failed
        | .spinning => .spinning
        | .returned =>
          match rtpp_notify_queue_return_free_item
              { st with handlers := st.handlers.set t run.th } (some wi) with
          | .error f => .fault f
          | .ok st2 => .done st2 run.os run.events

/-- The variables of the module together with the item that the worker holds
between its dequeue step and the return of the item to the free list. -/
structure Sys where
  st : State
  inflight : Option Nat

/-- The states that the module reaches from `rtpp_notify_init`, called before
any work item exists, by calls of `rtpp_notify_schedule` that return, by the
dequeue step of the worker and by the rest of its iteration; each is one
atomic step, and calls of `rtpp_notify_schedule` may fall between the two
steps of the worker. -/
inductive SysReachable : Sys → Prop where
  | init (st0 : State) : st0.heap = [] → SysReachable ⟨rtpp_notify_init st0, none⟩
  | schedule {s : Sys} (al : Alloc) (cf : cfg) (sp : rtpp_session) (rc : Int) (st1 : State) :
      SysReachable s → rtpp_notify_schedule s.st al cf sp = .ok (rc, st1) →
      SysReachable ⟨st1, s.inflight⟩
  | pop {s : Sys} (wi : Nat) (st1 : State) :
      SysReachable s → s.inflight = none →
      rtpp_notify_queue_run_pop s.st = some (.ok (wi, st1)) →
      SysReachable ⟨st1, some wi⟩
  | finish {s : Sys} (fuel : Nat) (os os1 : OS) (wi : Nat) (st1 : State) (ev : List Event) :
      SysReachable s → s.inflight = some wi →
      rtpp_notify_queue_run_finish fuel os s.st wi = .done st1 os1 ev →
      SysReachable ⟨st1, none⟩

/-- The state after `rtpp_notify_schedule` of the session with tag `foo` on
the state before any allocation: the one item is in the queue. -/
def ex_foo_queued : State :=
  { rtpp_notify_init ex_empty with
    heap := [ex_wi_foo]
    rtpp_notify_wi_queue := some 0
    rtpp_notify_wi_queue_tail := some 0 }

/-- The state after the dequeue step on `ex_foo_queued`: the queue is empty
and the tail pointer is still on item 0. -/
def ex_foo_taken : State := { ex_foo_queued with rtpp_notify_wi_queue := none }

/-! ## The pool as the specification describes it -/

/-- An operation on the pool: `rtpp_notify_queue_get_free_item()` or
`rtpp_notify_queue_return_free_item(wi)`. -/
inductive POp where
  | get
  | release (wi : Nat)
  deriving DecidableEq, Repr

/-- Runs a sequence of pool operations on the code: the items that the
successive calls of `rtpp_notify_queue_get_free_item` return, and the final
state; `none` when a call faults or returns `NULL`. -/
def run_pool (al : Alloc) : State → List POp → Option (List Nat × State)
  | st, [] => some ([], st)
  | st, .get :: ops =>
    match rtpp_notify_queue_get_free_item st al with
    | .ok (some wi, st1) =>
      match run_pool al st1 ops with
      | none => none
      | some (out, st2) => some (wi :: out, st2)
    | _ => none
  | st, .release wi :: ops =>
    match rtpp_notify_queue_return_free_item st (some wi) with
    | .error _ => none
    | .ok st1 => run_pool al st1 ops

/-- The pool in the words of the specification: the idle items with the most
recently released first, the items that callers hold, the number of items
ever allocated and the largest number of items held at the same time. -/
structure PoolSpec where
  free : List Nat
  held : List Nat
  allocated : Nat
  high_water : Nat
  deriving DecidableEq, Repr

/-- The empty pool. -/
def PoolSpec.empty : PoolSpec := { free := [], held := [], allocated := 0, high_water := 0 }

/-- One operation in the words of the specification: `acquire` returns the
most recently released idle item, and allocates a new item (numbered by the
count of allocations) only when no item is idle; `release` pushes the item on
the idle items. -/
def PoolSpec.step (p : PoolSpec) : POp → PoolSpec × Option Nat
  | .get =>
    match p.free with
    | a :: fs =>
      ({ p with free := fs, held := a :: p.held,
                high_water := max p.high_water (p.held.length + 1) }, some a)
    | [] =>
      ({ p with held := p.allocated :: p.held, allocated := p.allocated + 1,
                high_water := max p.high_water (p.held.length + 1) }, some p.allocated)
  | .release wi => ({ p with free := wi :: p.free, held := p.held.erase wi }, none)

/-- A sequence of operations in the words of the specification: the items
acquired, in order, and the final pool. -/
def PoolSpec.run : PoolSpec → List POp → List Nat × PoolSpec
  | p, [] => ([], p)
  | p, op :: ops =>
    let r := PoolSpec.run (p.step op).1 ops
    ((p.step op).2.toList ++ r.1, r.2)

/-- Whether a sequence of pool operations releases only items that are held
when they are released. -/
def PoolSpec.admissible : PoolSpec → List POp → Bool
  | _, [] => true
  | p, .get :: ops => PoolSpec.admissible (p.step .get).1 ops
  | p, .release wi :: ops =>
    p.held.contains wi && PoolSpec.admissible (p.step (.release wi)).1 ops

/-- The code state `st` holds the pool `p`: the free list is the list of idle
items, every allocated item is idle or held, once, and the high-water mark
bounds the items held and the items allocated. -/
def PoolIs (st : State) (p : PoolSpec) : Prop :=
  Owns st p.free [] ∧ (p.free ++ p.held).Nodup ∧
    (∀ x ∈ p.free ++ p.held, x < st.heap.length) ∧
    st.heap.length = p.allocated ∧ p.free.length + p.held.length = p.allocated ∧
    p.allocated ≤ p.high_water

/-- Two items are acquired, both are released and acquired again. -/
def ex_pool_ops : List POp :=
  [.get, .get, .release 0, .get, .release 1, .release 0, .get, .get]

/-- A session with a tag of 20 bytes. -/
def ex_session_long : rtpp_session :=
  { ports0 := 5004, ports1 := 5006,
    timeout_data := { handler := some 0, notify_tag := some (cstr "call-0123456789-abcd") } }

/-- The work item that `rtpp_notify_schedule` fills for the tag of 20 bytes:
its buffer has 22 bytes. -/
def ex_wi_long : rtpp_notify_wi :=
  { notify_buf := some (cstr "call-0123456789-abcd\n" ++ [0]), len := 22, th := some 0,
    glog := 1, next := none }

/-- The state after the session with the long tag is scheduled. -/
def ex_long_queued : State :=
  { rtpp_notify_init ex_empty with
    heap := [ex_wi_long]
    rtpp_notify_wi_queue := some 0
    rtpp_notify_wi_queue_tail := some 0 }

/-- The state after the worker has taken that item from the queue. -/
def ex_long_taken : State := { ex_long_queued with rtpp_notify_wi_queue := none }

/-- The state after the worker has returned that item to the free list, with
its buffer of 22 bytes. -/
def ex_long_pooled : State := { ex_long_taken with rtpp_notify_wi_free := some 0 }

/-- Whether a return of `send` is an interruption: -1 with `errno == EINTR`. -/
def SendRet.interrupted (r : SendRet) : Bool := decide (r.result = -1 ∧ r.errno = EINTR)

/-- On this system no `send` is interrupted more than `fuel` times in a row:
from every call on, one of the next `fuel + 1` calls is not interrupted. -/
def OS.eintr_bounded (os : OS) (fuel : Nat) : Prop :=
  ∀ k, ∃ j, j ≤ fuel ∧ (os.send_ret (k + j)).interrupted = false

/-- Whether a call is a call of `send` that returned a non-negative count. -/
def Event.is_success : Event → Bool
  | .send _ _ _ r => decide (0 ≤ r.result)
  | _ => false

/-- Whether, in a sequence of calls, every call of `send` that returned a
non-negative count is the last call of the sequence. -/
def success_is_last : List Event → Bool
  | [] => true
  | e :: rest => (!e.is_success || rest.isEmpty) && success_is_last rest

/-- A system on which every `send` writes 2 bytes only. -/
def ex_os_short : OS :=
  { socket_ret := fun _ => 4, connect_ret := fun _ => 0, send_ret := fun _ => ⟨2, 0⟩ }

/-- A string memory with the name of a handler in a block from the allocator
and a path in storage that is not from the allocator. -/
def ex_mem : List StrBlock := [.heap (cstr "/tmp/old.sock"), .foreign (cstr "/var/run/notify.sock")]

/-- A connected handler whose name is block 0 of `ex_mem`. -/
def ex_th_mem : Mem.rtpp_timeout_handler := { socket_name := some 0, fd := 3, connected := 1 }

/-! ## Linked lists in the heap -/

theorem chain_set_of_not_mem {heap : List rtpp_notify_wi} {a : Nat} (w' : rtpp_notify_wi) :
    ∀ {ps : List Nat} {h : Option Nat}, a ∉ ps → Chain heap h ps → Chain (heap.set a w') h ps := by
  intro ps
  induction ps with
  | nil => intro h _ hc; exact hc
  | cons p ps ih =>
    intro h hm hc
    obtain ⟨hh, w, hw, hrest⟩ := hc
    have hne : a ≠ p := fun e => hm (by simp [e])
    refine ⟨hh, w, ?_, ih (fun hmem => hm (List.mem_cons_of_mem _ hmem)) hrest⟩
    rw [List.getElem?_set_ne hne]; exact hw

theorem chain_snoc {heap : List rtpp_notify_wi} {t a : Nat} {tw aw : rtpp_notify_wi}
    (ht : heap[t]? = some tw) (ha : heap[a]? = some aw) (hnext : aw.next = none) :
    ∀ {ps : List Nat} {h : Option Nat}, Chain heap h (ps ++ [t]) → (ps ++ [t]).Nodup →
      a ∉ ps ++ [t] → Chain (heap.set t { tw with next := some a }) h (ps ++ [t, a]) := by
  intro ps
  induction ps with
  | nil =>
    intro h hc _ hm
    obtain ⟨hh, w, hw, _⟩ := hc
    have hat : t ≠ a := fun e => hm (by simp [e])
    have hlt : t < heap.length := by
      by_contra hge
      rw [List.getElem?_eq_none (by omega)] at ht
      exact absurd ht (by simp)
    refine ⟨hh, _, List.getElem?_set_self hlt, rfl, aw, ?_, hnext⟩
    rw [List.getElem?_set_ne hat]; exact ha
  | cons p ps ih =>
    intro h hc hnd hm
    obtain ⟨hh, w, hw, hrest⟩ := hc
    have hnd' : (p :: (ps ++ [t])).Nodup := hnd
    rw [List.nodup_cons] at hnd'
    have hpt : t ≠ p := fun e => hnd'.1 (by simp [e])
    refine ⟨hh, w, ?_, ih hrest hnd'.2 (fun hmem => hm (List.mem_cons_of_mem _ hmem))⟩
    rw [List.getElem?_set_ne hpt]; exact hw

theorem chain_head_none {heap : List rtpp_notify_wi} {ps : List Nat}
    (hc : Chain heap none ps) : ps = [] := by
  cases ps with
  | nil => rfl
  | cons p ps => exact absurd hc.1 (by simp)

theorem chain_head_some {heap : List rtpp_notify_wi} {ps : List Nat} {a : Nat}
    (hc : Chain heap (some a) ps) :
    ∃ qs w, ps = a :: qs ∧ heap[a]? = some w ∧ Chain heap w.next qs := by
  cases ps with
  | nil => exact absurd hc (by simp [Chain])
  | cons p ps =>
    obtain ⟨hh, w, hw, hrest⟩ := hc
    have hap : a = p := by simpa using hh
    subst hap
    exact ⟨ps, w, rfl, hw, hrest⟩

theorem chain_mem_alloc {heap : List rtpp_notify_wi} :
    ∀ {ps : List Nat} {h : Option Nat}, Chain heap h ps → ∀ p ∈ ps, ∃ w, heap[p]? = some w := by
  intro ps
  induction ps with
  | nil => intro h _ p hp; exact absurd hp (by simp)
  | cons q qs ih =>
    intro h hc p hp
    obtain ⟨_, w, hw, hrest⟩ := hc
    rcases List.mem_cons.mp hp with e | hmem
    · subst e; exact ⟨w, hw⟩
    · exact ih hrest p hmem

/-! ## The delivery queue -/

theorem queueIs_init (st : State) : QueueIs (rtpp_notify_init st) [] := by
  refine ⟨rfl, List.nodup_nil, ?_⟩
  intro t ht
  simp at ht

theorem put_item_queueIs {st : State} {pending : List Nat} {a : Nat}
    (hq : QueueIs st pending) (ha : a < st.heap.length) (hm : a ∉ pending) :
    ∃ st1, rtpp_notify_queue_put_item st (some a) = .ok st1 ∧
      QueueIs st1 (pending ++ [a]) ∧ st1.heap.length = st.heap.length := by
  obtain ⟨hc, hnd, htail⟩ := hq
  have hget : st.heap[a]? = some (st.heap[a]) := List.getElem?_eq_getElem ha
  have hnd' : (pending ++ [a]).Nodup := by
    rw [List.nodup_append]
    refine ⟨hnd, List.nodup_singleton a, ?_⟩
    intro x hx hxa
    have : x = a := by simpa using hxa
    exact hm (this ▸ hx)
  rcases List.eq_nil_or_concat pending with hnil | ⟨ps, t, hpt⟩
  · subst hnil
    have hhead : st.rtpp_notify_wi_queue = none := hc
    simp only [rtpp_notify_queue_put_item, hget, hhead]
    refine ⟨_, rfl, ?_, by simp⟩
    refine ⟨?_, hnd', ?_⟩
    · refine ⟨rfl, _, List.getElem?_set_self ha, rfl⟩
    · intro t ht
      have : a = t := by simpa using ht
      subst this; rfl
  · rw [List.concat_eq_append] at hpt
    subst hpt
    have hta : st.rtpp_notify_wi_queue_tail = some t := htail t (by simp)
    have htne : a ≠ t := fun e => hm (by simp [e])
    obtain ⟨tw, htw⟩ := chain_mem_alloc hc t (by simp)
    have hhead : ∃ p, st.rtpp_notify_wi_queue = some p := by
      cases hq : st.rtpp_notify_wi_queue with
      | none =>
        rw [hq] at hc
        have := chain_head_none hc
        simp at this
      | some p => exact ⟨p, rfl⟩
    obtain ⟨p, hp⟩ := hhead
    have htw1 : (st.heap.set a { st.heap[a] with next := none })[t]? = some tw := by
      rw [List.getElem?_set_ne htne]; exact htw
    simp only [rtpp_notify_queue_put_item, hget, hp, hta, htw1]
    refine ⟨_, rfl, ?_, by simp⟩
    refine ⟨?_, hnd', ?_⟩
    · have h1 := chain_set_of_not_mem { st.heap[a] with next := none } hm hc
      have h2 := chain_snoc htw1 (List.getElem?_set_self ha) rfl h1 hnd hm
      simpa [hp] using h2
    · intro x hx
      have : a = x := by simpa using hx
      subst this; rfl

theorem run_pop_queueIs {st : State} {p : Nat} {ps : List Nat} (hq : QueueIs st (p :: ps)) :
    ∃ st1, rtpp_notify_queue_run_pop st = some (.ok (p, st1)) ∧
      QueueIs st1 ps ∧ st1.heap.length = st.heap.length := by
  obtain ⟨hc, hnd, htail⟩ := hq
  obtain ⟨hh, w, hw, hrest⟩ := hc
  simp only [rtpp_notify_queue_run_pop, hh, hw]
  refine ⟨_, rfl, ⟨hrest, (List.nodup_cons.mp hnd).2, ?_⟩, rfl⟩
  intro t ht
  apply htail t
  cases ps with
  | nil => simp at ht
  | cons q qs => simpa [List.getLast?_cons_cons] using ht

theorem run_queue_fifo_from :
    ∀ (ops : List QOp) (st : State) (pending : List Nat), QueueIs st pending →
      admissible st.heap.length pending ops = true →
      ∃ st1, run_queue st ops = some ((pending ++ QOp.puts ops).take (QOp.pops ops), st1) := by
  intro ops
  induction ops with
  | nil => intro st pending _ _; exact ⟨st, by simp [run_queue, QOp.pops]⟩
  | cons op ops ih =>
    intro st pending hq hadm
    cases op with
    | put wi =>
      simp [admissible] at hadm
      obtain ⟨⟨hlt, hmem⟩, hrest⟩ := hadm
      obtain ⟨st1, hput, hq1, hlen⟩ := put_item_queueIs hq hlt hmem
      obtain ⟨st2, h2⟩ := ih st1 (pending ++ [wi]) hq1 (hlen ▸ hrest)
      refine ⟨st2, ?_⟩
      simp only [run_queue, hput, h2, QOp.puts, QOp.pops, List.append_assoc, List.singleton_append]
    | pop =>
      cases pending with
      | nil => simp [admissible] at hadm
      | cons p ps =>
        simp only [admissible, List.isEmpty_cons, Bool.not_false, Bool.true_and, List.tail_cons] at hadm
        obtain ⟨st1, hpop, hq1, hlen⟩ := run_pop_queueIs hq
        obtain ⟨st2, h2⟩ := ih st1 ps hq1 (hlen ▸ hadm)
        refine ⟨st2, ?_⟩
        simp only [run_queue, hpop, h2, QOp.puts, QOp.pops, List.cons_append, List.take_succ_cons]

/-- C1: strict FIFO.  From the state set by `rtpp_notify_init`, every sequence
of `rtpp_notify_queue_put_item` calls and dequeue steps that respects the
calling discipline (an item is put only while it is not in the queue, a
dequeue step is taken only while the queue is not empty) runs without fault,
and the items dequeued are, in order, the first items put: the k-th dequeue
returns the k-th item put. -/
theorem queue_strict_fifo (st : State) (ops : List QOp)
    (hadm : admissible st.heap.length [] ops = true) :
    ∃ st1, run_queue (rtpp_notify_init st) ops = some ((QOp.puts ops).take (QOp.pops ops), st1) := by
  simpa using run_queue_fifo_from ops (rtpp_notify_init st) [] (queueIs_init st) hadm

/-! ## Ownership of work items -/

theorem chain_append_heap {heap : List rtpp_notify_wi} (l : List rtpp_notify_wi) :
    ∀ {ps : List Nat} {h : Option Nat}, Chain heap h ps → Chain (heap ++ l) h ps := by
  intro ps
  induction ps with
  | nil => intro h hc; exact hc
  | cons p ps ih =>
    intro h hc
    obtain ⟨hh, w, hw, hrest⟩ := hc
    have hlt : p < heap.length := by
      by_contra hge
      rw [List.getElem?_eq_none (by omega)] at hw
      exact absurd hw (by simp)
    refine ⟨hh, w, ?_, ih hrest⟩
    rw [List.getElem?_append_left hlt]; exact hw

theorem chain_mem_lt {heap : List rtpp_notify_wi} {ps : List Nat} {h : Option Nat}
    (hc : Chain heap h ps) {p : Nat} (hp : p ∈ ps) : p < heap.length := by
  obtain ⟨w, hw⟩ := chain_mem_alloc hc p hp
  by_contra hge
  rw [List.getElem?_eq_none (by omega)] at hw
  exact absurd hw (by simp)

theorem wellFormed_init (st : State) : WellFormed (rtpp_notify_init st) :=
  ⟨[], [], rfl, queueIs_init st, List.nodup_nil⟩

theorem put_item_owns {st : State} {free pending : List Nat} {a : Nat} {w : rtpp_notify_wi}
    (ho : Owns st free pending) (hw : st.heap[a]? = some w) (hf : a ∉ free) (hp : a ∉ pending) :
    ∃ st1, rtpp_notify_queue_put_item st (some a) = .ok st1 ∧
      Owns st1 free (pending ++ [a]) ∧
      st1.heap[a]? = some { w with next := none } ∧
      st1.rtpp_notify_wi_queue_tail = some a ∧
      st1.heap.length = st.heap.length ∧
      st1.handlers = st.handlers ∧
      st1.rtpp_notify_dropped_items = st.rtpp_notify_dropped_items ∧
      st1.rtpp_notify_wi_free = st.rtpp_notify_wi_free := by
  obtain ⟨hfree, hq, hnd⟩ := ho
  have ha : a < st.heap.length := by
    by_contra hge
    rw [List.getElem?_eq_none (by omega)] at hw
    exact absurd hw (by simp)
  obtain ⟨st1, hput, hq1, hlen⟩ := put_item_queueIs hq ha hp
  have hnd1 : (free ++ (pending ++ [a])).Nodup := by
    rw [← List.append_assoc, List.nodup_append]
    refine ⟨hnd, List.nodup_singleton a, ?_⟩
    intro x hx hxa
    have hxa' : x = a := by simpa using hxa
    subst hxa'
    rcases List.mem_append.mp hx with h | h
    · exact hf h
    · exact hp h
  have hdisj : ∀ x ∈ pending, x ∉ free := by
    intro x hx hxf
    exact (List.nodup_append.mp hnd).2.2 hxf hx
  refine ⟨st1, hput, ?_⟩
  have hget : st.heap[a]? = some (st.heap[a]) := List.getElem?_eq_getElem ha
  have hwa : st.heap[a] = w := by
    rw [hget] at hw; exact Option.some.inj hw
  obtain ⟨hc, _, htail⟩ := hq
  rcases List.eq_nil_or_concat pending with hnil | ⟨ps, t, hpt⟩
  · subst hnil
    have hhead : st.rtpp_notify_wi_queue = none := hc
    simp only [rtpp_notify_queue_put_item, hget, hhead] at hput
    have hst1 := (Except.ok.inj hput).symm
    subst hst1
    refine ⟨⟨chain_set_of_not_mem _ hf hfree, hq1, hnd1⟩, ?_, rfl, by simp, rfl, rfl, rfl⟩
    simp only [hwa]
    exact List.getElem?_set_self ha
  · rw [List.concat_eq_append] at hpt
    subst hpt
    have hta : st.rtpp_notify_wi_queue_tail = some t := htail t (by simp)
    have htne : a ≠ t := fun e => hp (by simp [e])
    obtain ⟨tw, htw⟩ := chain_mem_alloc hc t (by simp)
    have hhead : ∃ p, st.rtpp_notify_wi_queue = some p := by
      cases hq : st.rtpp_notify_wi_queue with
      | none =>
        rw [hq] at hc
        have := chain_head_none hc
        simp at this
      | some p => exact ⟨p, rfl⟩
    obtain ⟨p, hp'⟩ := hhead
    have htw1 : (st.heap.set a { st.heap[a] with next := none })[t]? = some tw := by
      rw [List.getElem?_set_ne htne]; exact htw
    simp only [rtpp_notify_queue_put_item, hget, hp', hta, htw1] at hput
    have hst1 := (Except.ok.inj hput).symm
    subst hst1
    have htf : t ∉ free := hdisj t (by simp)
    refine ⟨⟨chain_set_of_not_mem _ htf (chain_set_of_not_mem _ hf hfree), hq1, hnd1⟩,
      ?_, rfl, by simp, rfl, rfl, rfl⟩
    simp only [hwa]
    rw [List.getElem?_set_ne (Ne.symm htne)]
    exact List.getElem?_set_self ha

theorem owns_set_heap {st : State} {free pending : List Nat} {a : Nat} (w : rtpp_notify_wi)
    (ho : Owns st free pending) (hf : a ∉ free) (hp : a ∉ pending) :
    Owns { st with heap := st.heap.set a w } free pending := by
  obtain ⟨hfree, ⟨hc, hnd0, htail⟩, hnd⟩ := ho
  exact ⟨chain_set_of_not_mem w hf hfree, ⟨chain_set_of_not_mem w hp hc, hnd0, htail⟩, hnd⟩

theorem get_free_item_owns {st : State} {free pending : List Nat} (al : Alloc)
    (ho : Owns st free pending) (hal : al.wi_ok = true) :
    ∃ wi st1 w, rtpp_notify_queue_get_free_item st al = .ok (some wi, st1) ∧
      st1.heap[wi]? = some w ∧
      Owns st1 free.tail pending ∧ wi ∉ free.tail ∧ wi ∉ pending ∧
      (free = [] → w = wi_zero) ∧ (∀ f ∈ free.head?, wi = f ∧ st.heap[f]? = some w) ∧
      st1.handlers = st.handlers ∧
      st1.rtpp_notify_dropped_items = st.rtpp_notify_dropped_items := by
  obtain ⟨hfree, ⟨hc, hnd0, htail⟩, hnd⟩ := ho
  cases hfp : st.rtpp_notify_wi_free with
  | none =>
    rw [hfp] at hfree
    have hnil := chain_head_none hfree
    subst hnil
    refine ⟨st.heap.length, { st with heap := st.heap ++ [wi_zero] }, wi_zero, ?_, ?_, ?_, ?_, ?_,
      fun _ => rfl, ?_, rfl, rfl⟩
    · simp [rtpp_notify_queue_get_free_item, hfp, hal]
    · simp
    · refine ⟨?_, ⟨chain_append_heap _ hc, hnd0, htail⟩, hnd⟩
      show Chain _ st.rtpp_notify_wi_free []
      rw [hfp]; rfl
    · simp
    · intro hmem
      exact absurd (chain_mem_lt hc hmem) (by omega)
    · intro f hf; simp at hf
  | some a =>
    rw [hfp] at hfree
    obtain ⟨fs, w, hfs, hw, hrest⟩ := chain_head_some hfree
    subst hfs
    have hnd' : (a :: (fs ++ pending)).Nodup := hnd
    rw [List.nodup_cons] at hnd'
    refine ⟨a, { st with rtpp_notify_wi_free := w.next }, w, ?_, hw, ?_, ?_, ?_,
      fun h => absurd h (by simp), ?_, rfl, rfl⟩
    · simp [rtpp_notify_queue_get_free_item, hfp, deref, hw]
    · exact ⟨hrest, ⟨hc, hnd0, htail⟩, hnd'.2⟩
    · exact fun h => hnd'.1 (List.mem_append_left _ h)
    · exact fun h => hnd'.1 (List.mem_append_right _ h)
    · intro f hf
      have : a = f := by simpa using hf
      subst this
      exact ⟨rfl, hw⟩

theorem return_free_item_owns {st : State} {free pending : List Nat} {a : Nat}
    {w : rtpp_notify_wi} (ho : Owns st free pending) (hw : st.heap[a]? = some w)
    (hf : a ∉ free) (hp : a ∉ pending) :
    ∃ st1, rtpp_notify_queue_return_free_item st (some a) = .ok st1 ∧
      Owns st1 (a :: free) pending ∧
      st1.heap[a]? = some { w with next := st.rtpp_notify_wi_free } ∧
      st1.rtpp_notify_wi_free = some a ∧
      st1.heap.length = st.heap.length ∧
      st1.handlers = st.handlers ∧
      st1.rtpp_notify_dropped_items = st.rtpp_notify_dropped_items ∧
      st1.rtpp_notify_wi_queue = st.rtpp_notify_wi_queue ∧
      st1.rtpp_notify_wi_queue_tail = st.rtpp_notify_wi_queue_tail := by
  obtain ⟨hfree, ⟨hc, hnd0, htail⟩, hnd⟩ := ho
  have ha : a < st.heap.length := by
    by_contra hge
    rw [List.getElem?_eq_none (by omega)] at hw
    exact absurd hw (by simp)
  simp only [rtpp_notify_queue_return_free_item, hw]
  refine ⟨_, rfl, ⟨?_, ⟨chain_set_of_not_mem _ hp hc, hnd0, htail⟩, ?_⟩,
    List.getElem?_set_self ha, rfl, by simp, rfl, rfl, rfl, rfl⟩
  · exact ⟨rfl, _, List.getElem?_set_self ha, chain_set_of_not_mem _ hf hfree⟩
  · show (a :: (free ++ pending)).Nodup
    rw [List.nodup_cons]
    refine ⟨fun hmem => ?_, hnd⟩
    rcases List.mem_append.mp hmem with h | h
    · exact hf h
    · exact hp h

/-! ## The scheduler -/

/-- The path of lines 83-85 for every state: with an empty free list and a
failing `malloc` of the work item the call faults on the `NULL` pointer. -/
theorem schedule_item_alloc_failure (st : State) (al : Alloc) (cf : cfg) (sp : rtpp_session)
    (th : Nat) (hth : sp.timeout_data.handler = some th)
    (hfree : st.rtpp_notify_wi_free = none) (hwi : al.wi_ok = false) :
    rtpp_notify_schedule st al cf sp = .error .null_deref := by
  simp [rtpp_notify_schedule, hth, rtpp_notify_queue_get_free_item, hfree, hwi]

/-- The paths of lines 202-205 and 208-211 for every well-formed state: when
the item is obtained and the allocation of its buffer fails, the call returns
-1, the item is on the free list, the queue is as before and the dropped-item
counter is as before. -/
theorem schedule_buffer_alloc_failure {st : State} {free pending : List Nat} (al : Alloc)
    (cf : cfg) (sp : rtpp_session) {th : Nat} (ho : Owns st free pending)
    (hth : sp.timeout_data.handler = some th) (hwi : al.wi_ok = true)
    (hbuf : al.buf_ok = false) :
    ∃ wi st1,
      rtpp_notify_schedule st al cf sp = .ok (-1, st1) ∧
      Owns st1 (wi :: free.tail) pending ∧
      st1.rtpp_notify_wi_queue = st.rtpp_notify_wi_queue ∧
      st1.rtpp_notify_wi_queue_tail = st.rtpp_notify_wi_queue_tail ∧
      st1.rtpp_notify_dropped_items = st.rtpp_notify_dropped_items := by
  obtain ⟨wi, st1, w, hget, hw, ho1, hnf, hnp, _, _, _, hdrop⟩ := get_free_item_owns al ho hwi
  have hq1 : st1.rtpp_notify_wi_queue = st.rtpp_notify_wi_queue ∧
      st1.rtpp_notify_wi_queue_tail = st.rtpp_notify_wi_queue_tail := by
    simp only [rtpp_notify_queue_get_free_item] at hget
    split at hget
    · simp only [hwi, if_true] at hget
      simp only [Except.ok.injEq, Prod.mk.injEq] at hget
      obtain ⟨_, rfl⟩ := hget
      exact ⟨rfl, rfl⟩
    · split at hget
      · exact absurd hget (by simp)
      · simp only [Except.ok.injEq, Prod.mk.injEq] at hget
        obtain ⟨_, rfl⟩ := hget
        exact ⟨rfl, rfl⟩
  have hlt : wi < st1.heap.length := by
    by_contra hge
    rw [List.getElem?_eq_none (by omega)] at hw
    exact absurd hw (by simp)
  have hnb : ∀ n, alloc_buf al w.notify_buf n = none := by
    intro n
    cases hb : w.notify_buf <;> simp [alloc_buf, malloc_buf, realloc_buf, hbuf]
  obtain ⟨st2, hret, ho2, _, _, _, _, hdrop2, hq2, ht2⟩ :=
    return_free_item_owns (owns_set_heap { w with th := some th } ho1 hnf hnp)
      (List.getElem?_set_self hlt) hnf hnp
  refine ⟨wi, st2, ?_, ho2, hq2.trans hq1.1, ht2.trans hq1.2, hdrop2.trans hdrop⟩
  simp only [rtpp_notify_schedule, hth, hget, hw, hnb, hret]

theorem buffer_alloc_ok (al : Alloc) (old : Option (List Nat)) (n : Nat) (hbuf : al.buf_ok = true) :
    ∃ buf0, alloc_buf al old n = some buf0 ∧ buf0.length = n := by
  cases old with
  | none => exact ⟨(List.range n).map al.junk, by simp [alloc_buf, malloc_buf, hbuf], by simp⟩
  | some o =>
    exact ⟨(List.range n).map fun i => o.getD i (al.junk i),
      by simp [alloc_buf, realloc_buf, hbuf], by simp⟩

theorem schedule_enqueues {st : State} {free pending : List Nat} (al : Alloc) (cf : cfg)
    (sp : rtpp_session) {th : Nat} (ho : Owns st free pending)
    (hth : sp.timeout_data.handler = some th) (hwi : al.wi_ok = true)
    (hbuf : al.buf_ok = true) :
    ∃ wi st1 buf0,
      rtpp_notify_schedule st al cf sp = .ok (0, st1) ∧
      Owns st1 free.tail (pending ++ [wi]) ∧
      st1.rtpp_notify_wi_queue_tail = some wi ∧
      buf0.length = (notify_len sp.timeout_data.notify_tag).toNat ∧
      st1.heap[wi]? = some
        { notify_buf := some (snprintf buf0 (notify_len sp.timeout_data.notify_tag).toNat
            (notify_text sp)).1
          len := notify_len sp.timeout_data.notify_tag
          th := some th
          glog := cf.glog
          next := none } ∧
      st1.rtpp_notify_dropped_items = st.rtpp_notify_dropped_items := by
  obtain ⟨wi, st1, w, hget, hw, ho1, hnf, hnp, _, _, _, hdrop⟩ := get_free_item_owns al ho hwi
  obtain ⟨buf0, hnb, hlen⟩ :=
    buffer_alloc_ok al w.notify_buf (notify_len sp.timeout_data.notify_tag).toNat hbuf
  have hlt : wi < st1.heap.length := by
    by_contra hge
    rw [List.getElem?_eq_none (by omega)] at hw
    exact absurd hw (by simp)
  obtain ⟨st2, hput, ho2, hitem, htail, _, _, hdrop2, _⟩ :=
    put_item_owns (owns_set_heap
      { notify_buf := some (snprintf buf0 (notify_len sp.timeout_data.notify_tag).toNat
          (notify_text sp)).1
        len := notify_len sp.timeout_data.notify_tag
        th := some th
        glog := cf.glog
        next := w.next } ho1 hnf hnp) (List.getElem?_set_self hlt) hnf hnp
  refine ⟨wi, st2, buf0, ?_, ho2, htail, hlen, hitem, by rw [hdrop2]; exact hdrop⟩
  simp only [rtpp_notify_schedule, hth, hget, hw, hnb, hput]

/-! ## Delivery -/

theorem send_attempts_from_append_of_no_send {ev : List Event}
    (h : ∀ e ∈ ev, e.is_send = false) (b : Bool) (rest : List Event) :
    send_attempts_from b (ev ++ rest) = send_attempts_from b rest := by
  induction ev with
  | nil => rfl
  | cons e ev ih =>
    have he := h e (by simp)
    have ih' := ih (fun x hx => h x (List.mem_cons_of_mem _ hx))
    cases e <;> simp_all [send_attempts_from, Event.is_send]

/-- The calls that open `reconnect_timeout_handler` (lines 237-242). -/
theorem reconnect_cases {os os1 : OS} {th th1 : rtpp_timeout_handler} {ev : List Event}
    (h : reconnect_timeout_handler os th = some (os1, th1, ev)) :
    ∃ name ev0, th.socket_name = some name ∧ th.connected = 0 ∧
      (∀ e ∈ ev0, e.is_send = false) ∧ socket_calls ev0 = [] ∧
      th1.fd = os.socket_ret 0 ∧ th1.socket_name = th.socket_name ∧
      ((os.socket_ret 0 = -1 ∧ th1.connected = 0 ∧ os1 = os.after_socket ∧
          ev = ev0 ++ [Event.socket (os.socket_ret 0),
            Event.log true "can't create timeout socket"]) ∨
       (os.socket_ret 0 ≠ -1 ∧ os.connect_ret 0 = -1 ∧ th1.connected = 0 ∧
          os1 = os.after_socket.after_connect ∧
          ev = ev0 ++ [Event.socket (os.socket_ret 0),
            Event.connect (os.socket_ret 0) name (os.connect_ret 0),
            Event.log true "can't connect to timeout socket"]) ∨
       (os.socket_ret 0 ≠ -1 ∧ os.connect_ret 0 ≠ -1 ∧ th1.connected = 1 ∧
          os1 = os.after_socket.after_connect ∧
          ev = ev0 ++ [Event.socket (os.socket_ret 0),
            Event.connect (os.socket_ret 0) name (os.connect_ret 0)])) := by
  cases hname : th.socket_name with
  | none => simp [reconnect_timeout_handler, hname] at h
  | some name =>
    simp only [reconnect_timeout_handler, hname] at h
    by_cases hc : th.connected = 0
    · refine ⟨name, if th.fd = -1 then [Event.log false "connecting timeout socket"]
        else [Event.log false "reconnecting timeout socket", Event.close th.fd], rfl, hc, ?_, ?_, ?_⟩
      · intro e he
        split at he <;> simp at he <;> rcases he with rfl | rfl <;> rfl
      · split <;> rfl
      · simp only [hc, ne_eq, not_true_eq_false, if_false] at h
        by_cases hs : os.socket_ret 0 = -1
        · simp only [hs, if_true, Option.some.injEq, Prod.mk.injEq] at h
          obtain ⟨rfl, rfl, rfl⟩ := h
          simp [hs, hc, hname]
        · have hcr : os.after_socket.connect_ret 0 = os.connect_ret 0 := rfl
          by_cases hk : os.connect_ret 0 = -1
          · simp only [hs, if_false, hcr, hk, if_true, Option.some.injEq, Prod.mk.injEq] at h
            obtain ⟨rfl, rfl, rfl⟩ := h
            simp [hs, hc, hname, hk]
          · simp only [hs, if_false, hcr, hk, Option.some.injEq, Prod.mk.injEq] at h
            obtain ⟨rfl, rfl, rfl⟩ := h
            simp [hs, hname, hk]
    · simp [hc] at h

theorem reconnect_no_send {os os1 : OS} {th th1 : rtpp_timeout_handler} {ev : List Event}
    (h : reconnect_timeout_handler os th = some (os1, th1, ev)) :
    ∀ e ∈ ev, e.is_send = false := by
  obtain ⟨name, ev0, _, _, h0, _, _, _, hcase⟩ := reconnect_cases h
  intro e he
  rcases hcase with ⟨_, _, _, rfl⟩ | ⟨_, _, _, _, rfl⟩ | ⟨_, _, _, _, rfl⟩ <;>
    simp at he <;> rcases he with he | he
  all_goals first
    | exact h0 e he
    | (rcases he with rfl | rfl | rfl <;> rfl)

theorem send_loop_unfold (fd : Int) (buf : Option (List Nat)) (n : Int) (fuel : Nat) (os : OS) :
    send_loop fd buf n fuel os =
      if (os.send_ret 0).result = -1 ∧ (os.send_ret 0).errno = EINTR then
        match fuel with
        | 0 => (none, os.after_send,
            [Event.send fd ((buf.getD []).take n.toNat) n (os.send_ret 0)])
        | f + 1 =>
          ((send_loop fd buf n f os.after_send).1, (send_loop fd buf n f os.after_send).2.1,
            Event.send fd ((buf.getD []).take n.toNat) n (os.send_ret 0) ::
              (send_loop fd buf n f os.after_send).2.2)
      else (some (os.send_ret 0), os.after_send,
        [Event.send fd ((buf.getD []).take n.toNat) n (os.send_ret 0)]) := by
  cases fuel <;> rfl

theorem send_loop_events (fd : Int) (buf : Option (List Nat)) (n : Int) :
    ∀ (fuel : Nat) (os : OS), ∀ e ∈ (send_loop fd buf n fuel os).2.2,
      ∃ r, e = Event.send fd ((buf.getD []).take n.toNat) n r := by
  intro fuel
  induction fuel with
  | zero =>
    intro os e he
    rw [send_loop_unfold] at he
    split at he <;> simp at he <;> exact ⟨_, he⟩
  | succ f ih =>
    intro os e he
    rw [send_loop_unfold] at he
    split at he
    · simp only [List.mem_cons] at he
      rcases he with rfl | he
      · exact ⟨_, rfl⟩
      · exact ih _ e he
    · simp at he; exact ⟨_, he⟩

theorem send_loop_head (fd : Int) (buf : Option (List Nat)) (n : Int) (fuel : Nat) (os : OS) :
    (send_loop fd buf n fuel os).2.2.head? =
      some (Event.send fd ((buf.getD []).take n.toNat) n (os.send_ret 0)) := by
  rw [send_loop_unfold]
  split
  · cases fuel <;> rfl
  · rfl

theorem send_loop_attempts (fd : Int) (buf : Option (List Nat)) (n : Int) :
    ∀ (fuel : Nat) (os : OS) (b : Bool) (rest : List Event),
      send_attempts_from b ((send_loop fd buf n fuel os).2.2 ++ rest) =
        (if b then 0 else 1) +
          send_attempts_from ((send_loop fd buf n fuel os).1.isNone) rest := by
  intro fuel
  induction fuel with
  | zero =>
    intro os b rest
    rw [send_loop_unfold]
    split
    · next h => simp [send_attempts_from, h]
    · next h => simp [send_attempts_from, h]
  | succ f ih =>
    intro os b rest
    rw [send_loop_unfold]
    split
    · next h =>
      have key := ih os.after_send true rest
      simp only [List.cons_append, send_attempts_from, h, and_self, decide_True]
      simp only [if_true, Nat.zero_add] at key
      exact congrArg _ key
    · next h => simp [send_attempts_from, h]

theorem send_loop_result_not_eintr (fd : Int) (buf : Option (List Nat)) (n : Int) :
    ∀ (fuel : Nat) (os : OS) (r : SendRet), (send_loop fd buf n fuel os).1 = some r →
      ¬(r.result = -1 ∧ r.errno = EINTR) := by
  intro fuel
  induction fuel with
  | zero =>
    intro os r h
    rw [send_loop_unfold] at h
    split at h
    · simp at h
    · next hne =>
      simp only [Option.some.injEq] at h
      subst h; exact hne
  | succ f ih =>
    intro os r h
    rw [send_loop_unfold] at h
    split at h
    · exact ih _ r h
    · next hne =>
      simp only [Option.some.injEq] at h
      subst h; exact hne

theorem pre_no_send {os os1 : OS} {th th1 : rtpp_timeout_handler} {ev : List Event}
    (h : (if th.connected = 0 then reconnect_timeout_handler os th else some (os, th, [])) =
      some (os1, th1, ev)) :
    ∀ e ∈ ev, e.is_send = false := by
  split at h
  · exact reconnect_no_send h
  · simp only [Option.some.injEq, Prod.mk.injEq] at h
    obtain ⟨_, _, rfl⟩ := h
    intro e he
    simp at he

theorem do_timeout_notification_attempts_le (fuel : Nat) (os : OS) (th : rtpp_timeout_handler)
    (wi : rtpp_notify_wi) (retries : Int) :
    send_attempts (do_timeout_notification fuel os th wi retries).events ≤ retries.toNat + 1 := by
  refine do_timeout_notification.induct fuel
    (motive := fun os th wi retries =>
      send_attempts (do_timeout_notification fuel os th wi retries).events ≤ retries.toNat + 1)
    ?_ ?_ ?_ ?_ ?_ ?_ os th wi retries
  · intro os th wi retries pre hpre
    simp only [pre, dite_eq_ite] at hpre
    rw [do_timeout_notification, hpre]
    simp [send_attempts, send_attempts_from]
  · intro os th wi retries pre os1 th1 ev1 hpre hc
    simp only [pre, dite_eq_ite] at hpre
    rw [do_timeout_notification, hpre]
    simp only [if_pos hc]
    simp [send_attempts, send_attempts_from_append_of_no_send (pre_no_send hpre), send_attempts_from]
  · intro os th wi retries pre os1 th1 ev1 hpre hc os2 ev2 hs
    simp only [pre, dite_eq_ite] at hpre
    rw [do_timeout_notification, hpre]
    simp only [if_neg hc, hs]
    have h2 : ev2 = (send_loop th1.fd wi.notify_buf (wi.len - 1) fuel os1).2.2 := by rw [hs]
    have key := send_loop_attempts th1.fd wi.notify_buf (wi.len - 1) fuel os1 false []
    rw [← h2] at key
    simp only [send_attempts, send_attempts_from_append_of_no_send (pre_no_send hpre)]
    simp only [List.append_nil] at key
    rw [key]
    simp [send_attempts_from]
  · intro os th wi retries pre os1 th1 ev1 hpre hc r os2 ev2 hs hr th2 hret ih
    simp only [pre, dite_eq_ite] at hpre
    rw [do_timeout_notification, hpre]
    simp only [if_neg hc, hs, if_pos hr, if_pos hret]
    have h2 : ev2 = (send_loop th1.fd wi.notify_buf (wi.len - 1) fuel os1).2.2 := by rw [hs]
    have h1 : (send_loop th1.fd wi.notify_buf (wi.len - 1) fuel os1).1 = some r := by rw [hs]
    have key := send_loop_attempts th1.fd wi.notify_buf (wi.len - 1) fuel os1 false
      (Event.log true "failed to send timeout notification" ::
        (do_timeout_notification fuel os2 th2 wi (retries - 1)).events)
    rw [← h2, h1] at key
    simp only [send_attempts, List.append_assoc, List.singleton_append,
      send_attempts_from_append_of_no_send (pre_no_send hpre)]
    rw [key]
    simp only [send_attempts] at ih
    have hn : (retries - 1).toNat + 1 = retries.toNat := by omega
    simp only [Option.isNone_some, send_attempts_from, Bool.false_eq_true, if_false]
    clear key
    omega
  · intro os th wi retries pre os1 th1 ev1 hpre hc r os2 ev2 hs hr hret
    simp only [pre, dite_eq_ite] at hpre
    rw [do_timeout_notification, hpre]
    simp only [if_neg hc, hs, if_pos hr, if_neg hret]
    have h2 : ev2 = (send_loop th1.fd wi.notify_buf (wi.len - 1) fuel os1).2.2 := by rw [hs]
    have h1 : (send_loop th1.fd wi.notify_buf (wi.len - 1) fuel os1).1 = some r := by rw [hs]
    have key := send_loop_attempts th1.fd wi.notify_buf (wi.len - 1) fuel os1 false
      [Event.log true "failed to send timeout notification"]
    rw [← h2, h1] at key
    simp only [send_attempts, List.append_assoc,
      send_attempts_from_append_of_no_send (pre_no_send hpre)]
    rw [key]
    simp [send_attempts_from]
  · intro os th wi retries pre os1 th1 ev1 hpre hc r os2 ev2 hs hr
    simp only [pre, dite_eq_ite] at hpre
    rw [do_timeout_notification, hpre]
    simp only [if_neg hc, hs, if_neg hr]
    have h2 : ev2 = (send_loop th1.fd wi.notify_buf (wi.len - 1) fuel os1).2.2 := by rw [hs]
    have h1 : (send_loop th1.fd wi.notify_buf (wi.len - 1) fuel os1).1 = some r := by rw [hs]
    have key := send_loop_attempts th1.fd wi.notify_buf (wi.len - 1) fuel os1 false []
    rw [← h2, h1] at key
    simp only [send_attempts, send_attempts_from_append_of_no_send (pre_no_send hpre)]
    simp only [List.append_nil] at key
    rw [key]
    simp [send_attempts_from]

theorem do_timeout_notification_sends (fuel : Nat) (os : OS) (th : rtpp_timeout_handler)
    (wi : rtpp_notify_wi) (retries : Int) :
    ∀ e ∈ (do_timeout_notification fuel os th wi retries).events, e.is_send = true →
      ∃ fd r, e = Event.send fd ((wi.notify_buf.getD []).take (wi.len - 1).toNat) (wi.len - 1) r := by
  refine do_timeout_notification.induct fuel
    (motive := fun os th wi retries =>
      ∀ e ∈ (do_timeout_notification fuel os th wi retries).events, e.is_send = true →
        ∃ fd r, e = Event.send fd ((wi.notify_buf.getD []).take (wi.len - 1).toNat) (wi.len - 1) r)
    ?_ ?_ ?_ ?_ ?_ ?_ os th wi retries
  · intro os th wi retries pre hpre
    simp only [pre, dite_eq_ite] at hpre
    rw [do_timeout_notification, hpre]
    intro e he
    simp at he
  · intro os th wi retries pre os1 th1 ev1 hpre hc
    simp only [pre, dite_eq_ite] at hpre
    rw [do_timeout_notification, hpre]
    simp only [if_pos hc]
    intro e he hs
    simp only [List.mem_append, List.mem_singleton] at he
    rcases he with he | rfl
    · rw [pre_no_send hpre e he] at hs; exact absurd hs (by simp)
    · exact absurd hs (by simp [Event.is_send])
  · intro os th wi retries pre os1 th1 ev1 hpre hc os2 ev2 hs
    simp only [pre, dite_eq_ite] at hpre
    rw [do_timeout_notification, hpre]
    simp only [if_neg hc, hs]
    have h2 : ev2 = (send_loop th1.fd wi.notify_buf (wi.len - 1) fuel os1).2.2 := by rw [hs]
    intro e he hsend
    simp only [List.mem_append] at he
    rcases he with he | he
    · rw [pre_no_send hpre e he] at hsend; exact absurd hsend (by simp)
    · rw [h2] at he
      obtain ⟨r, hr⟩ := send_loop_events _ _ _ _ _ e he
      exact ⟨_, r, hr⟩
  · intro os th wi retries pre os1 th1 ev1 hpre hc r os2 ev2 hs hr th2 hret ih
    simp only [pre, dite_eq_ite] at hpre
    rw [do_timeout_notification, hpre]
    simp only [if_neg hc, hs, if_pos hr, if_pos hret]
    have h2 : ev2 = (send_loop th1.fd wi.notify_buf (wi.len - 1) fuel os1).2.2 := by rw [hs]
    intro e he hsend
    simp only [List.mem_append, List.mem_singleton] at he
    rcases he with ((he | he) | rfl) | he
    · rw [pre_no_send hpre e he] at hsend; exact absurd hsend (by simp)
    · rw [h2] at he
      obtain ⟨r, hr⟩ := send_loop_events _ _ _ _ _ e he
      exact ⟨_, r, hr⟩
    · exact absurd hsend (by simp [Event.is_send])
    · exact ih e he hsend
  · intro os th wi retries pre os1 th1 ev1 hpre hc r os2 ev2 hs hr hret
    simp only [pre, dite_eq_ite] at hpre
    rw [do_timeout_notification, hpre]
    simp only [if_neg hc, hs, if_pos hr, if_neg hret]
    have h2 : ev2 = (send_loop th1.fd wi.notify_buf (wi.len - 1) fuel os1).2.2 := by rw [hs]
    intro e he hsend
    simp only [List.mem_append, List.mem_singleton] at he
    rcases he with (he | he) | rfl
    · rw [pre_no_send hpre e he] at hsend; exact absurd hsend (by simp)
    · rw [h2] at he
      obtain ⟨r, hr⟩ := send_loop_events _ _ _ _ _ e he
      exact ⟨_, r, hr⟩
    · exact absurd hsend (by simp [Event.is_send])
  · intro os th wi retries pre os1 th1 ev1 hpre hc r os2 ev2 hs hr
    simp only [pre, dite_eq_ite] at hpre
    rw [do_timeout_notification, hpre]
    simp only [if_neg hc, hs, if_neg hr]
    have h2 : ev2 = (send_loop th1.fd wi.notify_buf (wi.len - 1) fuel os1).2.2 := by rw [hs]
    intro e he hsend
    simp only [List.mem_append] at he
    rcases he with he | he
    · rw [pre_no_send hpre e he] at hsend; exact absurd hsend (by simp)
    · rw [h2] at he
      obtain ⟨r, hr⟩ := send_loop_events _ _ _ _ _ e he
      exact ⟨_, r, hr⟩

/-! ## Formatting of the payload -/

theorem fmt_d_length {p : Int} (h0 : 0 ≤ p) (h1 : p ≤ 65535) : (fmt_d p).length ≤ 5 := by
  obtain ⟨n, rfl⟩ := Int.eq_ofNat_of_zero_le h0
  have hn : n < 10 ^ 5 := by omega
  have := Nat.repr_length n 5 (by norm_num) hn
  simpa [fmt_d, cstr] using this

theorem snprintf_fits {buf text : List Nat} {size : Nat} (hfit : text.length + 1 ≤ size) :
    (snprintf buf size text).1 = text ++ [0] ++ buf.drop (text.length + 1) := by
  have hs : size ≠ 0 := by omega
  have ht : text.take (size - 1) = text := List.take_of_length_le (by omega)
  simp [snprintf, hs, ht]

theorem snprintf_take {buf text : List Nat} {size : Nat} (hfit : text.length + 1 ≤ size) :
    ((snprintf buf size text).1).take (text.length + 1) = text ++ [0] := by
  rw [snprintf_fits hfit]
  have : (text ++ [0]).length = text.length + 1 := by simp
  rw [List.take_append_of_le_length (by omega)]
  exact List.take_of_length_le (by omega)

theorem snprintf_length {buf text : List Nat} {size : Nat} (hfit : text.length + 1 ≤ size)
    (hcap : buf.length = size) : ((snprintf buf size text).1).length = size := by
  rw [snprintf_fits hfit]
  simp
  omega

theorem send_calls_eq_nil {ev : List Event} (h : ∀ e ∈ ev, e.is_send = false) :
    send_calls ev = [] := by
  simp only [send_calls, List.filter_eq_nil_iff]
  intro e he
  simp [h e he]

theorem reconnect_one_socket {os os1 : OS} {th th1 : rtpp_timeout_handler} {ev : List Event}
    (h : reconnect_timeout_handler os th = some (os1, th1, ev)) :
    (socket_calls ev).length = 1 := by
  obtain ⟨name, ev0, _, _, _, h0, _, _, hcase⟩ := reconnect_cases h
  simp only [socket_calls] at h0
  rcases hcase with ⟨_, _, _, rfl⟩ | ⟨_, _, _, _, rfl⟩ | ⟨_, _, _, _, rfl⟩ <;>
    simp [socket_calls, h0]

theorem reconnect_failed_cause {os os1 : OS} {th th1 : rtpp_timeout_handler} {ev : List Event}
    (h : reconnect_timeout_handler os th = some (os1, th1, ev)) (hf : th1.connected = 0) :
    os.socket_ret 0 = -1 ∨ os.connect_ret 0 = -1 := by
  obtain ⟨name, ev0, _, _, _, _, _, _, hcase⟩ := reconnect_cases h
  rcases hcase with ⟨h1, _⟩ | ⟨_, h2, _⟩ | ⟨_, _, h3, _⟩
  · exact Or.inl h1
  · exact Or.inr h2
  · rw [hf] at h3; exact absurd h3 (by decide)

theorem send_attempts_from_log (b : Bool) (err : Bool) (msg : String) (rest : List Event) :
    send_attempts_from b (Event.log err msg :: rest) = send_attempts_from b rest := rfl

theorem send_attempts_from_no_send {ev : List Event} (h : ∀ e ∈ ev, e.is_send = false)
    (b : Bool) : send_attempts_from b ev = 0 := by
  have := send_attempts_from_append_of_no_send h b []
  simpa [send_attempts_from] using this

/-- The events of a second delivery attempt: with the handler connected, a
call of `do_timeout_notification` with no retry left makes one send attempt. -/
theorem do_timeout_notification_last_attempt (fuel : Nat) (os : OS) (th : rtpp_timeout_handler)
    (wi : rtpp_notify_wi) (hconn : th.connected ≠ 0) :
    (do_timeout_notification fuel os th wi 0).events.head? =
        some (Event.send th.fd ((wi.notify_buf.getD []).take (wi.len - 1).toNat) (wi.len - 1)
          (os.send_ret 0)) ∧
      send_attempts_from false (do_timeout_notification fuel os th wi 0).events = 1 := by
  have hhead := send_loop_head th.fd wi.notify_buf (wi.len - 1) fuel os
  have hatt := send_loop_attempts th.fd wi.notify_buf (wi.len - 1) fuel os false
  rw [do_timeout_notification]
  simp only [hconn, if_false, false_and]
  rcases hsl : send_loop th.fd wi.notify_buf (wi.len - 1) fuel os with ⟨res, os2, ev2⟩
  rw [hsl] at hhead hatt
  simp only at hhead hatt
  cases ev2 with
  | nil => simp at hhead
  | cons e ev2 =>
    simp only [List.head?_cons, Option.some.injEq] at hhead
    subst hhead
    cases res with
    | none =>
      have := hatt []
      simpa [send_attempts_from] using this
    | some r =>
      by_cases hr : r.result < 0
      · have := hatt [Event.log true "failed to send timeout notification"]
        simpa [hr, send_attempts_from] using this
      · have := hatt []
        simpa [hr, send_attempts_from] using this

theorem do_timeout_notification_reconnected (fuel : Nat) (os os2 : OS)
    (th th2 : rtpp_timeout_handler) (ev2 : List Event) (wi : rtpp_notify_wi) (retries : Int)
    (hdis : th.connected = 0) (hrec : reconnect_timeout_handler os th = some (os2, th2, ev2))
    (hok : th2.connected ≠ 0) :
    do_timeout_notification fuel os th wi retries =
      { do_timeout_notification fuel os2 th2 wi retries with
        events := ev2 ++ (do_timeout_notification fuel os2 th2 wi retries).events } := by
  rw [do_timeout_notification, do_timeout_notification.eq_1 fuel os2]
  simp only [hdis, if_true, hrec, hok, and_false, if_false, false_and]
  rcases send_loop th2.fd wi.notify_buf (wi.len - 1) fuel os2 with ⟨res, os3, ev3⟩
  cases res with
  | none => simp
  | some r =>
    by_cases hr : r.result < 0
    · by_cases hret : retries > 0
      · simp [hr, hret]
      · simp [hr, hret]
    · simp [hr]

/-! ## The claims -/

/-- Witness of C1: on three allocated items, two items are put and dequeued
(the queue drains), then two more are put and one is dequeued; the three
dequeues return items 0, 1, 1, the first three items put. -/
theorem queue_strict_fifo_witness :
    admissible ex_three.heap.length [] ex_ops = true ∧
      ∃ st1, run_queue (rtpp_notify_init ex_three) ex_ops = some ([0, 1, 1], st1) :=
  ⟨by decide, queue_strict_fifo ex_three ex_ops (by decide)⟩

/-- C2: for a session whose `timeout_data.handler` is `NULL`,
`rtpp_notify_schedule` returns 0 and leaves the whole state unchanged: the
delivery queue, the free list, the dropped-item counter and every work item. -/
theorem schedule_without_handler (st : State) (al : Alloc) (cf : cfg) (sp : rtpp_session)
    (h : sp.timeout_data.handler = none) :
    rtpp_notify_schedule st al cf sp = .ok (0, st) := by
  simp only [rtpp_notify_schedule, h]

/-- Witness of C2: a session without handler on a state with three items. -/
theorem schedule_without_handler_witness :
    ex_session_no_handler.timeout_data.handler = none ∧
      rtpp_notify_schedule ex_three ex_alloc ex_cfg ex_session_no_handler = .ok (0, ex_three) :=
  ⟨rfl, schedule_without_handler ex_three ex_alloc ex_cfg ex_session_no_handler rfl⟩

/-- C3: for a session with a handler, no tag and both ports in 0..65535, on a
well-formed state and with successful allocation, `rtpp_notify_schedule`
returns 0 and enqueues an item whose 13-byte buffer starts with the decimal
text of `ports[0]`, a space, the decimal text of `ports[1]`, a newline and the
terminating NUL: the text is at most 12 bytes long and is not truncated.  For
ports 5004 and 5006 the text is `"5004 5006\n"`. -/
theorem schedule_untagged_payload (st : State) (al : Alloc) (cf : cfg) (sp : rtpp_session)
    (th : Nat) (hwf : WellFormed st) (hth : sp.timeout_data.handler = some th)
    (htag : sp.timeout_data.notify_tag = none)
    (hp0 : 0 ≤ sp.ports0 ∧ sp.ports0 ≤ 65535) (hp1 : 0 ≤ sp.ports1 ∧ sp.ports1 ≤ 65535)
    (hwi : al.wi_ok = true) (hbuf : al.buf_ok = true) :
    ∃ wi st1 w buf,
      rtpp_notify_schedule st al cf sp = .ok (0, st1) ∧
      st1.rtpp_notify_wi_queue_tail = some wi ∧
      st1.heap[wi]? = some w ∧ w.notify_buf = some buf ∧ buf.length = 13 ∧
      (fmt_d sp.ports0 ++ cstr " " ++ fmt_d sp.ports1 ++ cstr "\n").length ≤ 12 ∧
      buf.take ((fmt_d sp.ports0 ++ cstr " " ++ fmt_d sp.ports1 ++ cstr "\n").length + 1) =
        fmt_d sp.ports0 ++ cstr " " ++ fmt_d sp.ports1 ++ cstr "\n" ++ [0] ∧
      (sp.ports0 = 5004 → sp.ports1 = 5006 → buf.take 11 = cstr "5004 5006\n" ++ [0]) := by
  obtain ⟨free, pending, ho⟩ := hwf
  obtain ⟨wi, st1, buf0, hs, _, htail, hlen, hitem, _⟩ := schedule_enqueues al cf sp ho hth hwi hbuf
  have hl : (notify_len sp.timeout_data.notify_tag).toNat = 13 := by rw [htag]; rfl
  have htext : notify_text sp = fmt_d sp.ports0 ++ cstr " " ++ fmt_d sp.ports1 ++ cstr "\n" := by
    simp only [notify_text, htag]
  have h0 := fmt_d_length hp0.1 hp0.2
  have h1 := fmt_d_length hp1.1 hp1.2
  have hsp : (cstr " ").length = 1 := rfl
  have hnl : (cstr "\n").length = 1 := rfl
  have hfit : (fmt_d sp.ports0 ++ cstr " " ++ fmt_d sp.ports1 ++ cstr "\n").length ≤ 12 := by
    simp only [List.length_append, hsp, hnl]; omega
  rw [hl, htext] at hitem
  rw [hl] at hlen
  refine ⟨wi, st1, _, _, hs, htail, hitem, rfl, snprintf_length (by omega) hlen, hfit,
    snprintf_take (by omega), ?_⟩
  intro e0 e1
  have key := @snprintf_take buf0
    (fmt_d sp.ports0 ++ cstr " " ++ fmt_d sp.ports1 ++ cstr "\n") 13 (by omega)
  rw [e0, e1] at key ⊢
  exact key

/-- Witness of C3: the session with ports 5004 and 5006 scheduled on the
state before any allocation. -/
theorem schedule_untagged_payload_witness :
    ∃ wi st1 w buf,
      rtpp_notify_schedule (rtpp_notify_init ex_empty) ex_alloc ex_cfg ex_session_ports =
        .ok (0, st1) ∧
      st1.rtpp_notify_wi_queue_tail = some wi ∧
      st1.heap[wi]? = some w ∧ w.notify_buf = some buf ∧ buf.length = 13 ∧
      (fmt_d 5004 ++ cstr " " ++ fmt_d 5006 ++ cstr "\n").length ≤ 12 ∧
      buf.take ((fmt_d 5004 ++ cstr " " ++ fmt_d 5006 ++ cstr "\n").length + 1) =
        fmt_d 5004 ++ cstr " " ++ fmt_d 5006 ++ cstr "\n" ++ [0] ∧
      ((5004 : Int) = 5004 → (5006 : Int) = 5006 → buf.take 11 = cstr "5004 5006\n" ++ [0]) :=
  schedule_untagged_payload (rtpp_notify_init ex_empty) ex_alloc ex_cfg ex_session_ports 0
    (wellFormed_init ex_empty) rfl rfl (by decide) (by decide) rfl rfl

/-- C4: for a session with a handler and a tag `t`, on a well-formed state and
with successful allocation, `rtpp_notify_schedule` returns 0 and enqueues an
item whose `len` is `strlen(t) + 2`, and every call of `send` that
`do_timeout_notification` makes for that item, on any handler, with any
outcomes and any number of retries, passes the byte count `len - 1`.  For the
tag `foo`, `len` is 5 and 4 bytes are passed. -/
theorem schedule_tagged_len (st : State) (al : Alloc) (cf : cfg) (sp : rtpp_session)
    (th : Nat) (t : List Nat) (hwf : WellFormed st) (hth : sp.timeout_data.handler = some th)
    (htag : sp.timeout_data.notify_tag = some t)
    (hwi : al.wi_ok = true) (hbuf : al.buf_ok = true) :
    ∃ wi st1 w,
      rtpp_notify_schedule st al cf sp = .ok (0, st1) ∧
      st1.rtpp_notify_wi_queue_tail = some wi ∧
      st1.heap[wi]? = some w ∧
      w.len = (strlen t : Int) + 2 ∧
      (∀ (fuel : Nat) (os : OS) (h : rtpp_timeout_handler) (retries : Int),
        ∀ e ∈ (do_timeout_notification fuel os h w retries).events, e.is_send = true →
          ∃ fd data r, e = Event.send fd data (w.len - 1) r) ∧
      (t = cstr "foo" → w.len = 5 ∧ w.len - 1 = 4) := by
  obtain ⟨free, pending, ho⟩ := hwf
  obtain ⟨wi, st1, buf0, hs, _, htail, _, hitem, _⟩ := schedule_enqueues al cf sp ho hth hwi hbuf
  have hl : notify_len sp.timeout_data.notify_tag = (strlen t : Int) + 2 := by rw [htag]; rfl
  refine ⟨wi, st1, _, hs, htail, hitem, hl, ?_, ?_⟩
  · intro fuel os h retries e he hsend
    obtain ⟨fd, r, hr⟩ := do_timeout_notification_sends fuel os h _ retries e he hsend
    exact ⟨fd, _, r, hr⟩
  · intro ht
    show notify_len sp.timeout_data.notify_tag = 5 ∧ notify_len sp.timeout_data.notify_tag - 1 = 4
    rw [hl, ht]
    exact ⟨rfl, rfl⟩

/-- Witness of C4: the session with tag `foo` scheduled on the state before
any allocation. -/
theorem schedule_tagged_len_witness :
    ∃ wi st1 w,
      rtpp_notify_schedule (rtpp_notify_init ex_empty) ex_alloc ex_cfg ex_session_foo =
        .ok (0, st1) ∧
      st1.rtpp_notify_wi_queue_tail = some wi ∧
      st1.heap[wi]? = some w ∧
      w.len = (strlen (cstr "foo") : Int) + 2 ∧
      (∀ (fuel : Nat) (os : OS) (h : rtpp_timeout_handler) (retries : Int),
        ∀ e ∈ (do_timeout_notification fuel os h w retries).events, e.is_send = true →
          ∃ fd data r, e = Event.send fd data (w.len - 1) r) ∧
      (cstr "foo" = cstr "foo" → w.len = 5 ∧ w.len - 1 = 4) :=
  schedule_tagged_len (rtpp_notify_init ex_empty) ex_alloc ex_cfg ex_session_foo 0 (cstr "foo")
    (wellFormed_init ex_empty) rfl rfl rfl rfl

/-- C5, as stated, fails for the tag `foo`: the enqueued item has `len` 5 while
the formatted payload `"foo\n"` is 4 bytes long, and the 4 bytes handed to
`send` are `"foo\n"`, newline included, not the 3 bytes of the tag. -/
theorem tagged_len_counterexample :
    rtpp_notify_schedule (rtpp_notify_init ex_empty) ex_alloc ex_cfg ex_session_foo =
        .ok (0, { (rtpp_notify_init ex_empty) with
          heap := [ex_wi_foo]
          rtpp_notify_wi_queue := some 0
          rtpp_notify_wi_queue_tail := some 0 }) ∧
      ex_wi_foo.len ≠ ((cstr "foo\n").length : Int) ∧
      (do_timeout_notification 0 ex_os_up ex_th_connected ex_wi_foo 1).events =
        [Event.send 3 (cstr "foo\n") 4 ⟨4, 0⟩] ∧
      cstr "foo\n" ≠ cstr "foo" := by
  refine ⟨by rfl, by decide, ?_, by decide⟩
  simp [do_timeout_notification, send_loop, ex_os_up, ex_th_connected, ex_wi_foo, OS.after_send, cstr]

/-- C5, amended: for a session with a handler and a tag `t`, on a well-formed
state and with successful allocation, the enqueued item has `len` equal to the
length of the formatted payload `"<tag>\n"` plus one for the terminating
NUL, its buffer holds exactly the payload and the NUL, and the `len - 1`
bytes handed to every call of `send` are the bytes of the tag followed by the
newline: only the NUL is left out. -/
theorem schedule_tagged_bytes (st : State) (al : Alloc) (cf : cfg) (sp : rtpp_session)
    (th : Nat) (t : List Nat) (hwf : WellFormed st) (hth : sp.timeout_data.handler = some th)
    (htag : sp.timeout_data.notify_tag = some t)
    (hwi : al.wi_ok = true) (hbuf : al.buf_ok = true) :
    ∃ wi st1 w,
      rtpp_notify_schedule st al cf sp = .ok (0, st1) ∧
      st1.rtpp_notify_wi_queue_tail = some wi ∧
      st1.heap[wi]? = some w ∧
      w.len = ((t ++ cstr "\n").length : Int) + 1 ∧
      w.notify_buf = some (t ++ cstr "\n" ++ [0]) ∧
      (∀ (fuel : Nat) (os : OS) (h : rtpp_timeout_handler) (retries : Int),
        ∀ e ∈ (do_timeout_notification fuel os h w retries).events, e.is_send = true →
          ∃ fd r, e = Event.send fd (t ++ cstr "\n") ((strlen t : Int) + 1) r) := by
  obtain ⟨free, pending, ho⟩ := hwf
  obtain ⟨wi, st1, buf0, hs, _, htail, hlen, hitem, _⟩ :=
    schedule_enqueues al cf sp ho hth hwi hbuf
  have hl : notify_len sp.timeout_data.notify_tag = (strlen t : Int) + 2 := by rw [htag]; rfl
  have hln : (notify_len sp.timeout_data.notify_tag).toNat = t.length + 2 := by
    rw [hl]; simp only [strlen]; omega
  have htext : notify_text sp = t ++ cstr "\n" := by simp only [notify_text, htag]
  have hnl : (cstr "\n").length = 1 := rfl
  have htl : (t ++ cstr "\n").length = t.length + 1 := by simp [hnl]
  have hbufeq : (snprintf buf0 (t.length + 2) (t ++ cstr "\n")).1 = t ++ cstr "\n" ++ [0] := by
    rw [snprintf_fits (by omega)]
    rw [hln] at hlen
    have : List.drop ((t ++ cstr "\n").length + 1) buf0 = [] :=
      List.drop_of_length_le (by omega)
    rw [this, List.append_nil]
  rw [hln, htext, hbufeq] at hitem
  refine ⟨wi, st1, _, hs, htail, hitem, ?_, rfl, ?_⟩
  · show notify_len sp.timeout_data.notify_tag = _
    rw [hl, htl]; simp only [strlen]; push_cast; ring
  · intro fuel os h retries e he hsend
    obtain ⟨fd, r, hr⟩ := do_timeout_notification_sends fuel os h _ retries e he hsend
    refine ⟨fd, r, ?_⟩
    rw [hr]
    simp only [Option.getD_some, hl]
    have h1 : ((strlen t : Int) + 2 - 1) = (strlen t : Int) + 1 := by ring
    have h2 : ((strlen t : Int) + 1).toNat = (t ++ cstr "\n").length := by
      rw [htl]; simp only [strlen]; omega
    rw [h1, h2]
    congr 1
    rw [List.take_append_of_le_length (by omega)]
    exact List.take_of_length_le (by omega)

/-- Witness of the amended C5: the session with tag `foo` scheduled on the
state before any allocation. -/
theorem schedule_tagged_bytes_witness :
    ∃ wi st1 w,
      rtpp_notify_schedule (rtpp_notify_init ex_empty) ex_alloc ex_cfg ex_session_foo =
        .ok (0, st1) ∧
      st1.rtpp_notify_wi_queue_tail = some wi ∧
      st1.heap[wi]? = some w ∧
      w.len = ((cstr "foo" ++ cstr "\n").length : Int) + 1 ∧
      w.notify_buf = some (cstr "foo" ++ cstr "\n" ++ [0]) ∧
      (∀ (fuel : Nat) (os : OS) (h : rtpp_timeout_handler) (retries : Int),
        ∀ e ∈ (do_timeout_notification fuel os h w retries).events, e.is_send = true →
          ∃ fd r, e = Event.send fd (cstr "foo" ++ cstr "\n") ((strlen (cstr "foo") : Int) + 1) r) :=
  schedule_tagged_bytes (rtpp_notify_init ex_empty) ex_alloc ex_cfg ex_session_foo 0 (cstr "foo")
    (wellFormed_init ex_empty) rfl rfl rfl rfl

/-- C6, the code at the failing input: with an empty free list and a failing
`malloc` of the work item, `rtpp_notify_queue_get_free_item` counts the drop
and then clears the item through the `NULL` pointer, so that
`rtpp_notify_schedule` faults instead of returning -1. -/
theorem schedule_item_alloc_failure_faults :
    rtpp_notify_schedule (rtpp_notify_init ex_empty) ex_alloc_no_wi ex_cfg ex_session_ports =
      .error .null_deref := by
  rfl

/-- C7, the code at the failing input: the work item is allocated, the
`malloc` of its payload buffer fails; `rtpp_notify_schedule` returns -1, the
queue stays empty and the item goes to the free list, and the dropped-item
counter is still 0. -/
theorem schedule_buffer_alloc_failure_not_counted :
    rtpp_notify_schedule (rtpp_notify_init ex_empty) ex_alloc_no_buf ex_cfg ex_session_ports =
      .ok (-1, { (rtpp_notify_init ex_empty) with
        heap := [{ wi_zero with th := some 0 }]
        rtpp_notify_wi_free := some 0
        rtpp_notify_dropped_items := 0 }) := by
  rfl

/-- C8: for every work item, every handler state and all outcomes of `socket`,
`connect` and `send`, the call `do_timeout_notification(wi, 1)` of the worker
makes at most 2 send attempts, restarts of an interrupted `send` not counted;
this holds whether the call returns, aborts or is still restarting a `send`
when the fuel ends. -/
theorem retry_bound (fuel : Nat) (os : OS) (th : rtpp_timeout_handler) (wi : rtpp_notify_wi) :
    send_attempts (do_timeout_notification fuel os th wi 1).events ≤ 2 :=
  do_timeout_notification_attempts_le fuel os th wi 1

/-- C10: for every `retries`, when `do_timeout_notification` is entered with a
disconnected handler and `reconnect_timeout_handler` returns without having
connected it, then `socket` or `connect` has failed, the call returns with no
call of `send`, exactly one call of `socket`, and the handler as the reconnect
left it, still disconnected; when the handler is connected on entry, the very
first call made is the `send` on its descriptor, so that no `socket`,
`connect` or `close` comes before the first `send`. -/
theorem connect_failure_abandons (fuel : Nat) (os : OS) (th : rtpp_timeout_handler)
    (wi : rtpp_notify_wi) (retries : Int) :
    (th.connected = 0 → ∀ os1 th1 ev1,
      reconnect_timeout_handler os th = some (os1, th1, ev1) → th1.connected = 0 →
        (os.socket_ret 0 = -1 ∨ os.connect_ret 0 = -1) ∧
        (do_timeout_notification fuel os th wi retries).exit = .returned ∧
        (do_timeout_notification fuel os th wi retries).th = th1 ∧
        (do_timeout_notification fuel os th wi retries).th.connected = 0 ∧
        send_calls (do_timeout_notification fuel os th wi retries).events = [] ∧
        (socket_calls (do_timeout_notification fuel os th wi retries).events).length = 1) ∧
    (th.connected ≠ 0 →
      (do_timeout_notification fuel os th wi retries).events.head? =
        some (Event.send th.fd ((wi.notify_buf.getD []).take (wi.len - 1).toNat) (wi.len - 1)
          (os.send_ret 0))) := by
  constructor
  · intro hdis os1 th1 ev1 hrec hfail
    have hrun : do_timeout_notification fuel os th wi retries =
        { exit := .returned, os := os1, th := th1,
          events := ev1 ++ [Event.log true "unable to send timeout notification"] } := by
      rw [do_timeout_notification]
      simp only [hdis, if_true, hrec, hfail, and_self]
    rw [hrun]
    refine ⟨reconnect_failed_cause hrec hfail, rfl, rfl, hfail, ?_, ?_⟩
    · apply send_calls_eq_nil
      intro e he
      simp only [List.mem_append, List.mem_singleton] at he
      rcases he with he | rfl
      · exact reconnect_no_send hrec e he
      · rfl
    · have h1 := reconnect_one_socket hrec
      simp only [socket_calls] at h1 ⊢
      simp [List.filter_append, h1]
  · intro hconn
    have hhead := send_loop_head th.fd wi.notify_buf (wi.len - 1) fuel os
    rw [do_timeout_notification]
    simp only [hconn, if_false, false_and]
    rcases hsl : send_loop th.fd wi.notify_buf (wi.len - 1) fuel os with ⟨res, os2, ev2⟩
    rw [hsl] at hhead
    simp only at hhead
    cases ev2 with
    | nil => simp at hhead
    | cons e ev2 =>
      simp only [List.head?_cons, Option.some.injEq] at hhead
      subst hhead
      cases res with
      | none => simp
      | some r =>
        by_cases hr : r.result < 0
        · by_cases hret : retries > 0
          · simp [hr, hret]
          · simp [hr, hret]
        · simp [hr]

/-- Witness of C10: a handler that was never connected, on a system whose
`connect` fails, and a connected handler on the same system. -/
theorem connect_failure_abandons_witness :
    (do_timeout_notification 0 ex_os_down ex_th_new ex_wi_foo 1).exit = .returned ∧
      (do_timeout_notification 0 ex_os_down ex_th_new ex_wi_foo 1).th.connected = 0 ∧
      send_calls (do_timeout_notification 0 ex_os_down ex_th_new ex_wi_foo 1).events = [] ∧
      (socket_calls (do_timeout_notification 0 ex_os_down ex_th_new ex_wi_foo 1).events).length = 1 ∧
      (do_timeout_notification 0 ex_os_down ex_th_connected ex_wi_foo 1).events.head? =
        some (Event.send 3 (cstr "foo\n") 4 ⟨-1, 32⟩) :=
  have h := (connect_failure_abandons 0 ex_os_down ex_th_new ex_wi_foo 1).1 rfl
    ex_os_down.after_socket.after_connect { ex_th_new with fd := 4 }
    [Event.log false "connecting timeout socket", Event.socket 4,
      Event.connect 4 (cstr "/var/run/notify.sock") (-1),
      Event.log true "can't connect to timeout socket"] rfl rfl
  ⟨h.2.1, h.2.2.2.1, h.2.2.2.2.1, h.2.2.2.2.2,
    (connect_failure_abandons 0 ex_os_down ex_th_connected ex_wi_foo 1).2 (by decide)⟩

/-- C9: in `do_timeout_notification(wi, 1)` on a connected handler whose first
send attempt ends with a failure `r` other than an interruption, the handler
is marked disconnected and `reconnect_timeout_handler` runs on it right after
the failed attempt.  When that reconnect aborts or returns without having
connected, no second send attempt is made and the handler ends disconnected;
when it connects, the calls of the reconnect come before the second send
attempt, which is the only further one: two attempts in all. -/
theorem retry_reconnects (fuel : Nat) (os os1 : OS) (th : rtpp_timeout_handler)
    (wi : rtpp_notify_wi) (r : SendRet) (ev1 : List Event)
    (hconn : th.connected ≠ 0)
    (hsend : send_loop th.fd wi.notify_buf (wi.len - 1) fuel os = (some r, os1, ev1))
    (hfail : r.result < 0) :
    ¬(r.result = -1 ∧ r.errno = EINTR) ∧
    (reconnect_timeout_handler os1 { th with connected := 0 } = none →
      (do_timeout_notification fuel os th wi 1).exit = .aborted ∧
      (do_timeout_notification fuel os th wi 1).th.connected = 0 ∧
      send_attempts (do_timeout_notification fuel os th wi 1).events = 1) ∧
    (∀ os2 th2 ev2,
      reconnect_timeout_handler os1 { th with connected := 0 } = some (os2, th2, ev2) →
        send_calls ev2 = [] ∧ (socket_calls ev2).length = 1 ∧
        (th2.connected = 0 →
          (do_timeout_notification fuel os th wi 1).exit = .returned ∧
          (do_timeout_notification fuel os th wi 1).th = th2 ∧
          (do_timeout_notification fuel os th wi 1).events =
            ev1 ++ [Event.log true "failed to send timeout notification"] ++ ev2 ++
              [Event.log true "unable to send timeout notification"] ∧
          send_attempts (do_timeout_notification fuel os th wi 1).events = 1) ∧
        (th2.connected ≠ 0 →
          ∃ ev3,
            (do_timeout_notification fuel os th wi 1).events =
              ev1 ++ [Event.log true "failed to send timeout notification"] ++ ev2 ++ ev3 ∧
            ev3.head? = some (Event.send th2.fd ((wi.notify_buf.getD []).take (wi.len - 1).toNat)
              (wi.len - 1) (os2.send_ret 0)) ∧
            send_attempts_from false ev3 = 1 ∧
            send_attempts (do_timeout_notification fuel os th wi 1).events = 2)) := by
  have hres : (send_loop th.fd wi.notify_buf (wi.len - 1) fuel os).1 = some r := by rw [hsend]
  have hev : ev1 = (send_loop th.fd wi.notify_buf (wi.len - 1) fuel os).2.2 := by rw [hsend]
  have hatt : ∀ rest, send_attempts (ev1 ++ rest) = 1 + send_attempts_from false rest := by
    intro rest
    have := send_loop_attempts th.fd wi.notify_buf (wi.len - 1) fuel os false rest
    rw [← hev, hres] at this
    simpa [send_attempts] using this
  have hrun : do_timeout_notification fuel os th wi 1 =
      { do_timeout_notification fuel os1 { th with connected := 0 } wi 0 with
        events := ev1 ++ [Event.log true "failed to send timeout notification"] ++
          (do_timeout_notification fuel os1 { th with connected := 0 } wi 0).events } := by
    rw [do_timeout_notification]
    simp [hconn, hsend, hfail]
  refine ⟨send_loop_result_not_eintr _ _ _ _ _ r hres, ?_, ?_⟩
  · intro hrec
    have hin : do_timeout_notification fuel os1 { th with connected := 0 } wi 0 =
        { exit := .aborted, os := os1, th := { th with connected := 0 }, events := [] } := by
      rw [do_timeout_notification]
      simp [hrec]
    rw [hrun, hin]
    refine ⟨rfl, rfl, ?_⟩
    simp only [List.append_assoc]
    rw [hatt]
    rfl
  · intro os2 th2 ev2 hrec
    have hns := reconnect_no_send hrec
    refine ⟨send_calls_eq_nil hns, reconnect_one_socket hrec, ?_, ?_⟩
    · intro hdis
      have hin : do_timeout_notification fuel os1 { th with connected := 0 } wi 0 =
          { exit := .returned, os := os2, th := th2,
            events := ev2 ++ [Event.log true "unable to send timeout notification"] } := by
        rw [do_timeout_notification]
        simp [hrec, hdis]
      rw [hrun, hin]
      refine ⟨rfl, rfl, by simp, ?_⟩
      simp only [List.append_assoc, List.singleton_append]
      rw [hatt, send_attempts_from_log, send_attempts_from_append_of_no_send hns]
      rfl
    · intro hok
      have hin := do_timeout_notification_reconnected fuel os1 os2 { th with connected := 0 } th2
        ev2 wi 0 rfl hrec hok
      obtain ⟨hhead, hone⟩ := do_timeout_notification_last_attempt fuel os2 th2 wi hok
      refine ⟨(do_timeout_notification fuel os2 th2 wi 0).events, ?_, hhead, hone, ?_⟩
      · rw [hrun, hin]
        simp
      · rw [hrun, hin]
        simp only [List.append_assoc, List.singleton_append]
        rw [hatt, send_attempts_from_log, send_attempts_from_append_of_no_send hns, hone]

/-- Witness of C9: on a connected handler the first `send` is interrupted and
its restart fails with `EPIPE`.  On a system where the reconnect succeeds two
send attempts are made in all; on a system where `connect` fails only one is
made and the handler ends disconnected. -/
theorem retry_reconnects_witness :
    send_attempts (do_timeout_notification 1 ex_os_flaky ex_th_connected ex_wi_foo 1).events = 2 ∧
      send_attempts (do_timeout_notification 1 ex_os_down ex_th_connected ex_wi_foo 1).events = 1 ∧
      (do_timeout_notification 1 ex_os_down ex_th_connected ex_wi_foo 1).th.connected = 0 :=
  have h1 := retry_reconnects 1 ex_os_flaky ex_os_flaky.after_send.after_send ex_th_connected
    ex_wi_foo ⟨-1, 32⟩
    [Event.send 3 (cstr "foo\n") 4 ⟨-1, 4⟩, Event.send 3 (cstr "foo\n") 4 ⟨-1, 32⟩]
    (by decide) rfl (by decide)
  have h2 := retry_reconnects 1 ex_os_down ex_os_down.after_send ex_th_connected
    ex_wi_foo ⟨-1, 32⟩ [Event.send 3 (cstr "foo\n") 4 ⟨-1, 32⟩]
    (by decide) rfl (by decide)
  have h1ok := (h1.2.2 ex_os_flaky.after_send.after_send.after_socket.after_connect
    { ex_th_connected with fd := 4, connected := 1 }
    [Event.log false "reconnecting timeout socket", Event.close 3, Event.socket 4,
      Event.connect 4 (cstr "/var/run/notify.sock") 0] rfl).2.2.2 (by decide)
  have h2ko := (h2.2.2 ex_os_down.after_send.after_socket.after_connect
    { ex_th_connected with fd := 4, connected := 0 }
    [Event.log false "reconnecting timeout socket", Event.close 3, Event.socket 4,
      Event.connect 4 (cstr "/var/run/notify.sock") (-1),
      Event.log true "can't connect to timeout socket"] rfl).2.2.1 rfl
  ⟨h1ok.elim fun _ h => h.2.2.2, h2ko.2.2.2, by rw [h2ko.2.1]⟩

/-! ## Case analysis of `do_timeout_notification` -/

theorem pre_cases {os os1 : OS} {th th1 : rtpp_timeout_handler} {ev1 : List Event}
    (h : (if th.connected = 0 then reconnect_timeout_handler os th else some (os, th, [])) =
      some (os1, th1, ev1)) :
    (th.connected ≠ 0 ∧ os1 = os ∧ th1 = th ∧ ev1 = []) ∨
      (th.connected = 0 ∧ reconnect_timeout_handler os th = some (os1, th1, ev1)) := by
  by_cases hc : th.connected = 0
  · rw [if_pos hc] at h
    exact Or.inr ⟨hc, h⟩
  · rw [if_neg hc] at h
    simp only [Option.some.injEq, Prod.mk.injEq] at h
    obtain ⟨rfl, rfl, rfl⟩ := h
    exact Or.inl ⟨hc, rfl, rfl, rfl⟩

/-- Induction along the calls of `do_timeout_notification`, with the value of
the call in each of its six ways through the body. -/
theorem do_timeout_notification_ind (fuel : Nat)
    (motive : OS → rtpp_timeout_handler → rtpp_notify_wi → Int → Run → Prop)
    (aborted : ∀ os th wi retries,
      (if th.connected = 0 then reconnect_timeout_handler os th else some (os, th, [])) = none →
      motive os th wi retries (Run.mk .aborted os th []))
    (unconnected : ∀ os th wi retries os1 th1 ev1,
      (if th.connected = 0 then reconnect_timeout_handler os th else some (os, th, [])) =
        some (os1, th1, ev1) →
      th.connected = 0 → th1.connected = 0 →
      motive os th wi retries (Run.mk .returned os1 th1
        (ev1 ++ [Event.log true "unable to send timeout notification"])))
    (spinning : ∀ os th wi retries os1 th1 ev1 os2 ev2,
      (if th.connected = 0 then reconnect_timeout_handler os th else some (os, th, [])) =
        some (os1, th1, ev1) →
      th1.connected ≠ 0 →
      send_loop th1.fd wi.notify_buf (wi.len - 1) fuel os1 = (none, os2, ev2) →
      motive os th wi retries (Run.mk .spinning os2 th1 (ev1 ++ ev2)))
    (retry : ∀ os th wi retries os1 th1 ev1 r os2 ev2,
      (if th.connected = 0 then reconnect_timeout_handler os th else some (os, th, [])) =
        some (os1, th1, ev1) →
      th1.connected ≠ 0 →
      send_loop th1.fd wi.notify_buf (wi.len - 1) fuel os1 = (some r, os2, ev2) →
      r.result < 0 → retries > 0 →
      motive os2 { th1 with connected := 0 } wi (retries - 1)
        (do_timeout_notification fuel os2 { th1 with connected := 0 } wi (retries - 1)) →
      motive os th wi retries
        (Run.mk
          (do_timeout_notification fuel os2 { th1 with connected := 0 } wi (retries - 1)).exit
          (do_timeout_notification fuel os2 { th1 with connected := 0 } wi (retries - 1)).os
          (do_timeout_notification fuel os2 { th1 with connected := 0 } wi (retries - 1)).th
          (ev1 ++ ev2 ++ [Event.log true "failed to send timeout notification"] ++
            (do_timeout_notification fuel os2 { th1 with connected := 0 } wi
              (retries - 1)).events)))
    (failed : ∀ os th wi retries os1 th1 ev1 r os2 ev2,
      (if th.connected = 0 then reconnect_timeout_handler os th else some (os, th, [])) =
        some (os1, th1, ev1) →
      th1.connected ≠ 0 →
      send_loop th1.fd wi.notify_buf (wi.len - 1) fuel os1 = (some r, os2, ev2) →
      r.result < 0 → ¬retries > 0 →
      motive os th wi retries (Run.mk .returned os2 { th1 with connected := 0 }
        (ev1 ++ ev2 ++ [Event.log true "failed to send timeout notification"])))
    (sent : ∀ os th wi retries os1 th1 ev1 r os2 ev2,
      (if th.connected = 0 then reconnect_timeout_handler os th else some (os, th, [])) =
        some (os1, th1, ev1) →
      th1.connected ≠ 0 →
      send_loop th1.fd wi.notify_buf (wi.len - 1) fuel os1 = (some r, os2, ev2) →
      ¬r.result < 0 →
      motive os th wi retries (Run.mk .returned os2 th1 (ev1 ++ ev2)))
    (os : OS) (th : rtpp_timeout_handler) (wi : rtpp_notify_wi) (retries : Int) :
    motive os th wi retries (do_timeout_notification fuel os th wi retries) := by
  have hconn : ∀ {os os1 : OS} {th th1 : rtpp_timeout_handler} {ev1 : List Event},
      (if th.connected = 0 then reconnect_timeout_handler os th else some (os, th, [])) =
        some (os1, th1, ev1) → ¬(th.connected = 0 ∧ th1.connected = 0) → th1.connected ≠ 0 := by
    intro os os1 th th1 ev1 hpre hc
    rcases pre_cases hpre with ⟨h, _, rfl, _⟩ | ⟨h, _⟩
    · exact h
    · exact fun h1 => hc ⟨h, h1⟩
  refine do_timeout_notification.induct fuel
    (motive := fun os th wi retries =>
      motive os th wi retries (do_timeout_notification fuel os th wi retries))
    ?_ ?_ ?_ ?_ ?_ ?_ os th wi retries
  · intro os th wi retries pre hpre
    simp only [pre, dite_eq_ite] at hpre
    rw [do_timeout_notification, hpre]
    exact aborted os th wi retries hpre
  · intro os th wi retries pre os1 th1 ev1 hpre hc
    simp only [pre, dite_eq_ite] at hpre
    rw [do_timeout_notification, hpre]
    simp only [if_pos hc]
    exact unconnected os th wi retries os1 th1 ev1 hpre hc.1 hc.2
  · intro os th wi retries pre os1 th1 ev1 hpre hc os2 ev2 hs
    simp only [pre, dite_eq_ite] at hpre
    rw [do_timeout_notification, hpre]
    simp only [if_neg hc, hs]
    exact spinning os th wi retries os1 th1 ev1 os2 ev2 hpre (hconn hpre hc) hs
  · intro os th wi retries pre os1 th1 ev1 hpre hc r os2 ev2 hs hr th2 hret ih
    simp only [pre, dite_eq_ite] at hpre
    rw [do_timeout_notification, hpre]
    simp only [if_neg hc, hs, if_pos hr, if_pos hret]
    exact retry os th wi retries os1 th1 ev1 r os2 ev2 hpre (hconn hpre hc) hs hr hret ih
  · intro os th wi retries pre os1 th1 ev1 hpre hc r os2 ev2 hs hr hret
    simp only [pre, dite_eq_ite] at hpre
    rw [do_timeout_notification, hpre]
    simp only [if_neg hc, hs, if_pos hr, if_neg hret]
    exact failed os th wi retries os1 th1 ev1 r os2 ev2 hpre (hconn hpre hc) hs hr hret
  · intro os th wi retries pre os1 th1 ev1 hpre hc r os2 ev2 hs hr
    simp only [pre, dite_eq_ite] at hpre
    rw [do_timeout_notification, hpre]
    simp only [if_neg hc, hs, if_neg hr]
    exact sent os th wi retries os1 th1 ev1 r os2 ev2 hpre (hconn hpre hc) hs hr

/-! ## The connection handler -/

theorem reconnect_fd_of_connected {os os1 : OS} {th th1 : rtpp_timeout_handler}
    {ev : List Event} (h : reconnect_timeout_handler os th = some (os1, th1, ev)) :
    th1.connected ≠ 0 → th1.fd ≠ -1 := by
  obtain ⟨name, ev0, _, _, _, _, hfd, _, hcase⟩ := reconnect_cases h
  intro hc
  rcases hcase with ⟨_, h0, _⟩ | ⟨_, _, h0, _⟩ | ⟨hs, _⟩
  · exact absurd h0 hc
  · exact absurd h0 hc
  · rw [hfd]; exact hs

theorem do_timeout_notification_fd_of_connected (fuel : Nat) (os : OS)
    (th : rtpp_timeout_handler) (wi : rtpp_notify_wi) (retries : Int)
    (hth : th.connected ≠ 0 → th.fd ≠ -1) :
    (do_timeout_notification fuel os th wi retries).th.connected ≠ 0 →
      (do_timeout_notification fuel os th wi retries).th.fd ≠ -1 := by
  have hpre : ∀ {os os1 : OS} {th th1 : rtpp_timeout_handler} {ev1 : List Event},
      (th.connected ≠ 0 → th.fd ≠ -1) →
      (if th.connected = 0 then reconnect_timeout_handler os th else some (os, th, [])) =
        some (os1, th1, ev1) → th1.connected ≠ 0 → th1.fd ≠ -1 := by
    intro os os1 th th1 ev1 hth h
    rcases pre_cases h with ⟨_, _, rfl, _⟩ | ⟨_, hrec⟩
    · exact hth
    · exact reconnect_fd_of_connected hrec
  revert hth
  refine do_timeout_notification_ind fuel
    (motive := fun _ th _ _ run =>
      (th.connected ≠ 0 → th.fd ≠ -1) → run.th.connected ≠ 0 → run.th.fd ≠ -1)
    ?_ ?_ ?_ ?_ ?_ ?_ os th wi retries
  · intro os th wi retries _ hth
    exact hth
  · intro os th wi retries os1 th1 ev1 _ _ h1 _ hc
    exact absurd h1 hc
  · intro os th wi retries os1 th1 ev1 os2 ev2 hp _ _ hth
    exact hpre hth hp
  · intro os th wi retries os1 th1 ev1 r os2 ev2 _ _ _ _ _ ih _
    exact ih (fun h => absurd rfl h)
  · intro os th wi retries os1 th1 ev1 r os2 ev2 _ _ _ _ _ _ hc
    exact absurd rfl hc
  · intro os th wi retries os1 th1 ev1 r os2 ev2 hp _ _ _ hth
    exact hpre hth hp

theorem handlerReachable_fd_of_connected {name : Option (List Nat)} {th : rtpp_timeout_handler}
    (h : HandlerReachable name th) : th.connected ≠ 0 → th.fd ≠ -1 := by
  induction h with
  | init h0 =>
    simp only [rtpp_th_init, if_true, Option.some.injEq] at h0
    subst h0
    intro hc
    exact absurd rfl hc
  | reconnect _ hrec _ => exact reconnect_fd_of_connected hrec
  | notify fuel os wi retries _ ih =>
    exact do_timeout_notification_fd_of_connected fuel os _ wi retries ih

/-! ## Ownership along the steps of the system -/

theorem run_iter_eq (fuel : Nat) (os : OS) (st : State) :
    rtpp_notify_queue_run_iter fuel os st =
      match rtpp_notify_queue_run_pop st with
      | none => .waiting
      | some (.error f) => .fault f
      | some (.ok (wi, st1)) => rtpp_notify_queue_run_finish fuel os st1 wi := by
  unfold rtpp_notify_queue_run_iter rtpp_notify_queue_run_finish
  rfl

theorem get_free_item_full {st : State} {free pending : List Nat} (al : Alloc)
    (ho : Owns st free pending) (hal : free = [] → al.wi_ok = true) :
    ∃ st1 w0, rtpp_notify_queue_get_free_item st al =
        .ok (some (free.head?.getD st.heap.length), st1) ∧
      st1.heap[free.head?.getD st.heap.length]? = some w0 ∧
      (st.heap ++ [wi_zero])[free.head?.getD st.heap.length]? = some w0 ∧
      Owns st1 free.tail pending ∧
      free.head?.getD st.heap.length ∉ free.tail ∧
      free.head?.getD st.heap.length ∉ pending ∧
      st1.heap.length = st.heap.length + (if free = [] then 1 else 0) ∧
      st1.handlers = st.handlers ∧
      st1.rtpp_notify_dropped_items = st.rtpp_notify_dropped_items ∧
      st1.rtpp_notify_wi_queue = st.rtpp_notify_wi_queue ∧
      st1.rtpp_notify_wi_queue_tail = st.rtpp_notify_wi_queue_tail := by
  obtain ⟨hfree, ⟨hc, hnd0, htail⟩, hnd⟩ := ho
  cases hfp : st.rtpp_notify_wi_free with
  | none =>
    rw [hfp] at hfree
    have hnil := chain_head_none hfree
    subst hnil
    have hwi := hal rfl
    refine ⟨{ st with heap := st.heap ++ [wi_zero] }, wi_zero, ?_, ?_, ?_, ?_, ?_, ?_, ?_,
      rfl, rfl, rfl, rfl⟩
    · simp [rtpp_notify_queue_get_free_item, hfp, hwi]
    · simp
    · simp
    · refine ⟨?_, ⟨chain_append_heap _ hc, hnd0, htail⟩, hnd⟩
      show Chain _ st.rtpp_notify_wi_free []
      rw [hfp]; rfl
    · simp
    · intro hmem
      have := chain_mem_lt hc hmem
      simp at this
    · simp
  | some a =>
    rw [hfp] at hfree
    obtain ⟨fs, w, hfs, hw, hrest⟩ := chain_head_some hfree
    subst hfs
    have hnd' : (a :: (fs ++ pending)).Nodup := hnd
    rw [List.nodup_cons] at hnd'
    have hlt : a < st.heap.length := chain_mem_lt hfree (by simp)
    refine ⟨{ st with rtpp_notify_wi_free := w.next }, w, ?_, hw, ?_, ?_, ?_, ?_, ?_,
      rfl, rfl, rfl, rfl⟩
    · simp [rtpp_notify_queue_get_free_item, hfp, deref, hw]
    · simp only [List.head?_cons, Option.getD_some]
      rw [List.getElem?_append_left hlt]; exact hw
    · exact ⟨hrest, ⟨hc, hnd0, htail⟩, hnd'.2⟩
    · exact fun h => hnd'.1 (List.mem_append_left _ h)
    · exact fun h => hnd'.1 (List.mem_append_right _ h)
    · simp

/-- What `rtpp_notify_schedule` does with a configured handler on a state
whose lists are known: the item `wi` it works on is the head of the free list,
or a new item when the free list is empty; with the buffer allocated the item
is filled and enqueued, otherwise it is put on the free list. -/
theorem schedule_full {st : State} {free pending : List Nat} (al : Alloc) (cf : cfg)
    (sp : rtpp_session) {th wi : Nat} (ho : Owns st free pending)
    (hth : sp.timeout_data.handler = some th) (hal : free = [] → al.wi_ok = true)
    (hwi : wi = free.head?.getD st.heap.length) :
    ∃ w0, (st.heap ++ [wi_zero])[wi]? = some w0 ∧
      (al.buf_ok = true → ∃ st1 buf0,
        alloc_buf al w0.notify_buf (notify_len sp.timeout_data.notify_tag).toNat = some buf0 ∧
        buf0.length = (notify_len sp.timeout_data.notify_tag).toNat ∧
        rtpp_notify_schedule st al cf sp = .ok (0, st1) ∧
        Owns st1 free.tail (pending ++ [wi]) ∧
        st1.rtpp_notify_wi_queue_tail = some wi ∧
        st1.heap[wi]? = some
          { notify_buf := some (snprintf buf0 (notify_len sp.timeout_data.notify_tag).toNat
              (notify_text sp)).1
            len := notify_len sp.timeout_data.notify_tag
            th := some th
            glog := cf.glog
            next := none } ∧
        st1.heap.length = st.heap.length + (if free = [] then 1 else 0) ∧
        st1.handlers = st.handlers ∧
        st1.rtpp_notify_dropped_items = st.rtpp_notify_dropped_items) ∧
      (al.buf_ok = false → ∃ st1 w1,
        rtpp_notify_schedule st al cf sp = .ok (-1, st1) ∧
        Owns st1 (wi :: free.tail) pending ∧
        st1.heap[wi]? = some w1 ∧ w1.notify_buf = w0.notify_buf ∧
        st1.heap.length = st.heap.length + (if free = [] then 1 else 0) ∧
        st1.handlers = st.handlers ∧
        st1.rtpp_notify_dropped_items = st.rtpp_notify_dropped_items ∧
        st1.rtpp_notify_wi_queue = st.rtpp_notify_wi_queue ∧
        st1.rtpp_notify_wi_queue_tail = st.rtpp_notify_wi_queue_tail) := by
  subst hwi
  obtain ⟨st0, w0, hget, hw, hw0, ho1, hnf, hnp, hlen0, hh0, hdrop0, hq0, ht0⟩ :=
    get_free_item_full al ho hal
  have hlt : free.head?.getD st.heap.length < st0.heap.length := by
    by_contra hge
    rw [List.getElem?_eq_none (by omega)] at hw
    exact absurd hw (by simp)
  refine ⟨w0, hw0, ?_, ?_⟩
  · intro hbuf
    obtain ⟨buf0, hnb, hlen⟩ :=
      buffer_alloc_ok al w0.notify_buf (notify_len sp.timeout_data.notify_tag).toNat hbuf
    obtain ⟨st2, hput, ho2, hitem, htail, hlen2, hh2, hdrop2, _⟩ :=
      put_item_owns (owns_set_heap
        { notify_buf := some (snprintf buf0 (notify_len sp.timeout_data.notify_tag).toNat
            (notify_text sp)).1
          len := notify_len sp.timeout_data.notify_tag
          th := some th
          glog := cf.glog
          next := w0.next } ho1 hnf hnp) (List.getElem?_set_self hlt) hnf hnp
    refine ⟨st2, buf0, hnb, hlen, ?_, ho2, htail, hitem, ?_, hh2.trans hh0, hdrop2.trans hdrop0⟩
    · simp only [rtpp_notify_schedule, hth, hget, hw, hnb, hput]
    · rw [hlen2]; simpa using hlen0
  · intro hbuf
    have hnb : ∀ n, alloc_buf al w0.notify_buf n = none := by
      intro n
      cases hb : w0.notify_buf <;> simp [alloc_buf, malloc_buf, realloc_buf, hbuf]
    obtain ⟨st2, hret, ho2, hitem, _, hlen2, hh2, hdrop2, hq2, ht2⟩ :=
      return_free_item_owns (owns_set_heap { w0 with th := some th } ho1 hnf hnp)
        (List.getElem?_set_self hlt) hnf hnp
    refine ⟨st2, _, ?_, ho2, hitem, rfl, ?_, hh2.trans hh0, hdrop2.trans hdrop0,
      hq2.trans hq0, ht2.trans ht0⟩
    · simp only [rtpp_notify_schedule, hth, hget, hw, hnb, hret]
    · rw [hlen2]; simpa using hlen0

theorem owns_free_nil_iff {st : State} {free pending : List Nat} (ho : Owns st free pending) :
    free = [] ↔ st.rtpp_notify_wi_free = none := by
  obtain ⟨hfree, _, _⟩ := ho
  constructor
  · intro h; subst h; exact hfree
  · intro h; rw [h] at hfree; exact chain_head_none hfree

theorem owns_pending_nil_iff {st : State} {free pending : List Nat} (ho : Owns st free pending) :
    pending = [] ↔ st.rtpp_notify_wi_queue = none := by
  obtain ⟨_, ⟨hc, _, _⟩, _⟩ := ho
  constructor
  · intro h; subst h; exact hc
  · intro h; rw [h] at hc; exact chain_head_none hc

/-- Every return of `rtpp_notify_schedule` keeps the two lists proper: the
items of the lists after the call are those before it and, when the free list
was empty, the one new item. -/
theorem schedule_ok_owns {st st1 : State} {free pending : List Nat} {al : Alloc} {cf : cfg}
    {sp : rtpp_session} {rc : Int} (ho : Owns st free pending)
    (hs : rtpp_notify_schedule st al cf sp = .ok (rc, st1)) :
    ∃ free1 pending1 fresh, Owns st1 free1 pending1 ∧
      (free1 ++ pending1).Perm (free ++ pending ++ fresh) ∧
      st1.heap.length = st.heap.length + fresh.length ∧
      (∀ x ∈ fresh, x = st.heap.length) := by
  cases hth : sp.timeout_data.handler with
  | none =>
    simp only [rtpp_notify_schedule, hth, Except.ok.injEq, Prod.mk.injEq] at hs
    obtain ⟨_, rfl⟩ := hs
    exact ⟨free, pending, [], ho, by simp, by simp, by simp⟩
  | some th =>
    have hal : free = [] → al.wi_ok = true := by
      intro hf
      by_contra hne
      have hwi : al.wi_ok = false := by simpa using hne
      rw [schedule_item_alloc_failure st al cf sp th hth ((owns_free_nil_iff ho).mp hf) hwi] at hs
      exact absurd hs (by simp)
    obtain ⟨w0, _, hok, hko⟩ := schedule_full al cf sp ho hth hal rfl
    have hperm : ∀ (l : List Nat),
        (free.tail ++ (l ++ [free.head?.getD st.heap.length])).Perm
          (free ++ l ++ (if free = [] then [st.heap.length] else [])) := by
      intro l
      cases free with
      | nil => simp
      | cons a fs =>
        simp only [List.tail_cons, List.head?_cons, Option.getD_some, List.cons_append,
          reduceCtorEq, if_false, List.append_nil]
        rw [← List.append_assoc]
        exact List.perm_append_singleton a (fs ++ l)
    cases hb : al.buf_ok with
    | true =>
      obtain ⟨st2, buf0, _, _, hs2, ho2, _, _, hlen, _, _⟩ := hok hb
      rw [hs2] at hs
      simp only [Except.ok.injEq, Prod.mk.injEq] at hs
      obtain ⟨_, rfl⟩ := hs
      refine ⟨_, _, if free = [] then [st.heap.length] else [], ho2, hperm pending, ?_, ?_⟩
      · rw [hlen]; split <;> simp
      · intro x hx; split at hx <;> simp at hx; exact hx
    | false =>
      obtain ⟨st2, w1, hs2, ho2, _, _, hlen, _, _⟩ := hko hb
      rw [hs2] at hs
      simp only [Except.ok.injEq, Prod.mk.injEq] at hs
      obtain ⟨_, rfl⟩ := hs
      refine ⟨_, _, if free = [] then [st.heap.length] else [], ho2, ?_, ?_, ?_⟩
      · have := hperm []
        simp only [List.nil_append, List.append_nil] at this
        calc (free.head?.getD st.heap.length :: free.tail ++ pending).Perm
              ((free.tail ++ [free.head?.getD st.heap.length]) ++ pending) := by
                apply List.Perm.append_right
                exact (List.perm_append_singleton _ _).symm
          _ |>.Perm ((free ++ (if free = [] then [st.heap.length] else [])) ++ pending) :=
                List.Perm.append_right _ this
          _ |>.Perm (free ++ pending ++ (if free = [] then [st.heap.length] else [])) := by
                rw [List.append_assoc, List.append_assoc]
                exact List.Perm.append_left _ List.perm_append_comm
      · rw [hlen]; split <;> simp
      · intro x hx; split at hx <;> simp at hx; exact hx

theorem run_pop_owns {st st1 : State} {free pending : List Nat} {wi : Nat}
    (ho : Owns st free pending)
    (hp : rtpp_notify_queue_run_pop st = some (.ok (wi, st1))) :
    ∃ ps, pending = wi :: ps ∧ Owns st1 free ps ∧ st1.heap = st.heap ∧
      st1.handlers = st.handlers ∧
      st1.rtpp_notify_wi_free = st.rtpp_notify_wi_free ∧
      st1.rtpp_notify_wi_queue_tail = st.rtpp_notify_wi_queue_tail ∧
      st1.rtpp_notify_dropped_items = st.rtpp_notify_dropped_items := by
  obtain ⟨hfree, hq, hnd⟩ := ho
  cases hqp : st.rtpp_notify_wi_queue with
  | none => simp [rtpp_notify_queue_run_pop, hqp] at hp
  | some a =>
    have hc := hq.1
    rw [hqp] at hc
    obtain ⟨ps, w, hps, hw, _⟩ := chain_head_some hc
    subst hps
    obtain ⟨st2, hpop, hq2, _⟩ := run_pop_queueIs hq
    rw [hpop] at hp
    simp only [Option.some.injEq, Except.ok.injEq, Prod.mk.injEq] at hp
    obtain ⟨rfl, rfl⟩ := hp
    simp only [rtpp_notify_queue_run_pop, hqp, hw, Option.some.injEq, Except.ok.injEq,
      Prod.mk.injEq, true_and] at hpop
    subst hpop
    refine ⟨ps, rfl, ⟨hfree, hq2, ?_⟩, rfl, rfl, rfl, rfl, rfl⟩
    have hperm : (free ++ a :: ps).Perm (a :: (free ++ ps)) := List.perm_middle
    exact (List.nodup_cons.mp (hperm.nodup_iff.mp hnd)).2

theorem owns_set_handlers {st : State} {free pending : List Nat}
    (hs : List rtpp_timeout_handler) (ho : Owns st free pending) :
    Owns { st with handlers := hs } free pending := ho

theorem run_finish_owns {st st1 : State} {free pending : List Nat} {wi fuel : Nat}
    {os os1 : OS} {ev : List Event} (ho : Owns st free pending)
    (hf : wi ∉ free) (hp : wi ∉ pending)
    (hfin : rtpp_notify_queue_run_finish fuel os st wi = .done st1 os1 ev) :
    Owns st1 (wi :: free) pending ∧ st1.heap.length = st.heap.length ∧
      st1.rtpp_notify_wi_free = some wi ∧
      st1.rtpp_notify_wi_queue = st.rtpp_notify_wi_queue ∧
      st1.rtpp_notify_wi_queue_tail = st.rtpp_notify_wi_queue_tail ∧
      st1.rtpp_notify_dropped_items = st.rtpp_notify_dropped_items ∧
      ∃ w, st.heap[wi]? = some w ∧
        st1.heap[wi]? = some { w with next := st.rtpp_notify_wi_free } ∧
        ∃ t th, w.th = some t ∧ st.handlers[t]? = some th ∧
          (do_timeout_notification fuel os th w 1).exit = .returned ∧
          ev = (do_timeout_notification fuel os th w 1).events ∧
          st1.handlers = st.handlers.set t (do_timeout_notification fuel os th w 1).th := by
  unfold rtpp_notify_queue_run_finish at hfin
  cases hw : st.heap[wi]? with
  | none => simp [hw] at hfin
  | some w =>
    cases ht : w.th with
    | none => simp [hw, ht] at hfin
    | some t =>
      cases hh : st.handlers[t]? with
      | none => simp [hw, ht, hh] at hfin
      | some th =>
        simp only [hw, ht, hh] at hfin
        cases hx : (do_timeout_notification fuel os th w 1).exit with
        | aborted => simp [hx] at hfin
        | spinning => simp [hx] at hfin
        | returned =>
          simp only [hx] at hfin
          obtain ⟨st2, hret, ho2, hitem, hfp, hlen, hh2, hdrop, hq, htl⟩ :=
            return_free_item_owns
              (owns_set_handlers (st.handlers.set t (do_timeout_notification fuel os th w 1).th) ho)
              hw hf hp
          rw [hret] at hfin
          simp only [Iter.done.injEq] at hfin
          obtain ⟨rfl, _, rfl⟩ := hfin
          exact ⟨ho2, hlen, hfp, hq, htl, hdrop, w, rfl, hitem, t, th, ht, hh, hx, rfl, hh2⟩

/-- The invariant of the system: the free list and the delivery queue are
proper lists, and every allocated item is in exactly one of the free list,
the queue and the hands of the worker. -/
theorem sysReachable_owns {s : Sys} (h : SysReachable s) :
    ∃ free pending, Owns s.st free pending ∧
      (free ++ pending ++ s.inflight.toList).Nodup ∧
      ∀ i, i < s.st.heap.length ↔ i ∈ free ++ pending ++ s.inflight.toList := by
  induction h with
  | init st0 h0 =>
    refine ⟨[], [], ⟨rfl, queueIs_init st0, List.nodup_nil⟩, by simp, ?_⟩
    intro i
    simp [rtpp_notify_init, h0]
  | @schedule s al cf sp rc st1 _ hs ih =>
    obtain ⟨free, pending, ho, hnd, hcov⟩ := ih
    obtain ⟨free1, pending1, fresh, ho1, hperm, hlen, hfresh⟩ := schedule_ok_owns ho hs
    have hperm2 : (free1 ++ pending1 ++ s.inflight.toList).Perm
        (fresh ++ (free ++ pending ++ s.inflight.toList)) := by
      calc (free1 ++ pending1 ++ s.inflight.toList).Perm
            (free ++ pending ++ fresh ++ s.inflight.toList) := List.Perm.append_right _ hperm
        _ |>.Perm (fresh ++ (free ++ pending) ++ s.inflight.toList) :=
              List.Perm.append_right _ List.perm_append_comm
        _ |>.Perm (fresh ++ (free ++ pending ++ s.inflight.toList)) := by
              rw [List.append_assoc]
    have hfresh2 : fresh = [] ∨ fresh = [s.st.heap.length] := by
      cases fresh with
      | nil => exact Or.inl rfl
      | cons a l =>
        have hl : l = [] := by
          cases l with
          | nil => rfl
          | cons b m =>
            have h1 := ho1.2.2
            have ha := hfresh a (by simp)
            have hb := hfresh b (by simp)
            have hnd1 : (free ++ pending ++ a :: b :: m).Nodup := hperm.nodup_iff.mp h1
            have := (List.nodup_append.mp hnd1).2.1
            rw [ha, hb] at this
            simp at this
        rw [hl, hfresh a (by simp)]
        exact Or.inr rfl
    refine ⟨free1, pending1, ho1, ?_, ?_⟩
    · rw [hperm2.nodup_iff]
      rcases hfresh2 with hf | hf
      · rw [hf]; simpa using hnd
      · rw [hf]
        simp only [List.singleton_append, List.nodup_cons]
        refine ⟨fun hmem => ?_, hnd⟩
        exact absurd ((hcov _).mpr hmem) (by omega)
    · intro i
      rw [hperm2.mem_iff, hlen]
      rcases hfresh2 with hf | hf
      · rw [hf]; simpa using hcov i
      · rw [hf]
        simp only [List.length_singleton, List.singleton_append, List.mem_cons]
        rw [← hcov i]
        omega
  | @pop s wi st1 _ hin hp ih =>
    obtain ⟨free, pending, ho, hnd, hcov⟩ := ih
    obtain ⟨ps, hps, ho1, hheap, _⟩ := run_pop_owns ho hp
    subst hps
    rw [hin] at hnd hcov
    have hperm : (free ++ ps ++ [wi]).Perm (free ++ wi :: ps) := by
      rw [List.append_assoc]
      exact List.Perm.append_left _ (List.perm_append_singleton wi ps)
    refine ⟨free, ps, ho1, ?_, ?_⟩
    · show (free ++ ps ++ [wi]).Nodup
      rw [hperm.nodup_iff]; simpa using hnd
    · intro i
      show i < st1.heap.length ↔ i ∈ free ++ ps ++ [wi]
      rw [hperm.mem_iff, hheap]
      simpa using hcov i
  | @finish s fuel os os1 wi st1 ev _ hin hfin ih =>
    obtain ⟨free, pending, ho, hnd, hcov⟩ := ih
    rw [hin] at hnd hcov
    have hnd' : (free ++ pending ++ [wi]).Nodup := hnd
    have hperm : (wi :: free ++ pending).Perm (free ++ pending ++ [wi]) :=
      (List.perm_append_singleton wi (free ++ pending)).symm
    have hnd2 : (wi :: (free ++ pending)).Nodup := hperm.nodup_iff.mpr hnd'
    have hnm := (List.nodup_cons.mp hnd2).1
    obtain ⟨ho1, hlen, _⟩ := run_finish_owns ho
      (fun h => hnm (List.mem_append_left _ h)) (fun h => hnm (List.mem_append_right _ h)) hfin
    refine ⟨wi :: free, pending, ho1, ?_, ?_⟩
    · simpa using hnd2
    · intro i
      rw [hlen]
      have := hcov i
      simp only [Option.toList_some, List.mem_append, List.mem_singleton] at this
      simp only [Option.toList_none, List.append_nil, List.cons_append, List.mem_cons,
        List.mem_append]
      rw [this]
      tauto

/-- A whole iteration of the worker is the dequeue step followed by the rest
of the iteration, so the states after whole iterations are reachable. -/
theorem sysReachable_iter {st st1 : State} {fuel : Nat} {os os1 : OS} {ev : List Event}
    (h : SysReachable ⟨st, none⟩)
    (hi : rtpp_notify_queue_run_iter fuel os st = .done st1 os1 ev) :
    SysReachable ⟨st1, none⟩ := by
  rw [run_iter_eq] at hi
  cases hp : rtpp_notify_queue_run_pop st with
  | none => simp [hp] at hi
  | some res =>
    cases res with
    | error f => simp [hp] at hi
    | ok r =>
      obtain ⟨wi, st0⟩ := r
      simp only [hp] at hi
      exact SysReachable.finish fuel os os1 wi st1 ev (SysReachable.pop wi st0 h rfl hp) rfl hi

/-! ## The pool -/

theorem poolIs_init (st0 : State) (h0 : st0.heap = []) :
    PoolIs (rtpp_notify_init st0) PoolSpec.empty := by
  refine ⟨⟨rfl, queueIs_init st0, List.nodup_nil⟩, List.nodup_nil, ?_, ?_, rfl, Nat.le_refl _⟩
  · intro x hx; simp [PoolSpec.empty] at hx
  · simp [rtpp_notify_init, h0, PoolSpec.empty]

theorem poolIs_get {st : State} {p : PoolSpec} (al : Alloc) (hal : al.wi_ok = true)
    (hp : PoolIs st p) :
    ∃ wi st1, rtpp_notify_queue_get_free_item st al = .ok (some wi, st1) ∧
      (p.step .get).2 = some wi ∧ PoolIs st1 (p.step .get).1 := by
  obtain ⟨ho, hnd, hlt, hlen, hcount, hhw⟩ := hp
  obtain ⟨st1, w0, hget, _, _, ho1, hnf, _, hlen1, _⟩ := get_free_item_full al ho (fun _ => hal)
  cases hf : p.free with
  | nil =>
    rw [hf] at hget ho1 hlen1 hnd hlt hcount
    simp only [List.head?_nil, Option.getD_none, List.tail_nil, if_true] at hget ho1 hlen1
    refine ⟨st.heap.length, st1, hget, by simp [PoolSpec.step, hf, hlen], ?_⟩
    simp only [PoolSpec.step, hf]
    simp only [List.nil_append, List.length_nil, Nat.zero_add] at hnd hlt hcount
    refine ⟨ho1, ?_, ?_, ?_, ?_, ?_⟩
    · simp only [List.nil_append, List.nodup_cons]
      refine ⟨fun hmem => ?_, hnd⟩
      have := hlt _ hmem
      omega
    · intro x hx
      simp only [List.nil_append, List.mem_cons] at hx
      rcases hx with rfl | hx
      · omega
      · have := hlt x hx; omega
    · show st1.heap.length = p.allocated + 1
      omega
    · show ([] : List Nat).length + (p.allocated :: p.held).length = p.allocated + 1
      simp only [List.length_nil, List.length_cons]; omega
    · show p.allocated + 1 ≤ max p.high_water (p.held.length + 1)
      omega
  | cons a fs =>
    rw [hf] at hget ho1 hlen1 hnd hlt hcount
    simp only [List.head?_cons, Option.getD_some, List.tail_cons, reduceCtorEq, if_false,
      Nat.add_zero] at hget ho1 hlen1
    refine ⟨a, st1, hget, by simp [PoolSpec.step, hf], ?_⟩
    simp only [PoolSpec.step, hf]
    have hperm : (fs ++ a :: p.held).Perm (a :: fs ++ p.held) := List.perm_middle
    refine ⟨ho1, ?_, ?_, ?_, ?_, ?_⟩
    · exact hperm.nodup_iff.mpr hnd
    · intro x hx
      rw [hlen1]
      exact hlt x (hperm.mem_iff.mp hx)
    · show st1.heap.length = p.allocated
      omega
    · show fs.length + (a :: p.held).length = p.allocated
      simp only [List.length_cons] at hcount ⊢; omega
    · show p.allocated ≤ max p.high_water (p.held.length + 1)
      omega

theorem poolIs_release {st : State} {p : PoolSpec} {wi : Nat} (hp : PoolIs st p)
    (hheld : wi ∈ p.held) :
    ∃ st1, rtpp_notify_queue_return_free_item st (some wi) = .ok st1 ∧
      PoolIs st1 (p.step (.release wi)).1 := by
  obtain ⟨ho, hnd, hlt, hlen, hcount, hhw⟩ := hp
  have hwl : wi < st.heap.length := hlt wi (List.mem_append_right _ hheld)
  have hnf : wi ∉ p.free := fun h => (List.nodup_append.mp hnd).2.2 h hheld
  obtain ⟨st1, hret, ho1, _, _, hlen1, _⟩ :=
    return_free_item_owns ho (List.getElem?_eq_getElem hwl) hnf (by simp)
  refine ⟨st1, hret, ?_⟩
  simp only [PoolSpec.step]
  have hperm : (wi :: p.free ++ p.held.erase wi).Perm (p.free ++ p.held) := by
    have h1 : (wi :: p.held.erase wi).Perm p.held := (List.perm_cons_erase hheld).symm
    calc (wi :: p.free ++ p.held.erase wi).Perm (p.free ++ wi :: p.held.erase wi) :=
          List.perm_middle.symm
      _ |>.Perm (p.free ++ p.held) := List.Perm.append_left _ h1
  refine ⟨ho1, hperm.nodup_iff.mpr hnd, ?_, ?_, ?_, hhw⟩
  · intro x hx
    rw [hlen1]
    exact hlt x (hperm.mem_iff.mp hx)
  · show st1.heap.length = p.allocated
    omega
  · have := List.length_erase_of_mem hheld
    have hpos : 0 < p.held.length := List.length_pos_of_mem hheld
    show (wi :: p.free).length + (p.held.erase wi).length = p.allocated
    simp only [List.length_cons]
    omega

theorem run_pool_refines (al : Alloc) (hal : al.wi_ok = true) :
    ∀ (ops : List POp) (st : State) (p : PoolSpec), PoolIs st p →
      PoolSpec.admissible p ops = true →
      ∃ st1, run_pool al st ops = some ((PoolSpec.run p ops).1, st1) ∧
        PoolIs st1 (PoolSpec.run p ops).2 := by
  intro ops
  induction ops with
  | nil => intro st p hp _; exact ⟨st, rfl, hp⟩
  | cons op ops ih =>
    intro st p hp hadm
    cases op with
    | get =>
      obtain ⟨wi, st1, hget, hout, hp1⟩ := poolIs_get al hal hp
      simp only [PoolSpec.admissible] at hadm
      obtain ⟨st2, hrun, hp2⟩ := ih st1 _ hp1 hadm
      refine ⟨st2, ?_, hp2⟩
      simp only [run_pool, hget, hrun, PoolSpec.run, hout, Option.toList_some,
        List.singleton_append]
    | release wi =>
      simp only [PoolSpec.admissible, Bool.and_eq_true, List.contains_eq_any_beq,
        List.any_eq_true, beq_iff_eq, exists_eq_right] at hadm
      have hheld : wi ∈ p.held := by
        obtain ⟨x, hx, rfl⟩ := hadm.1
        exact hx
      obtain ⟨st1, hret, hp1⟩ := poolIs_release hp hheld
      obtain ⟨st2, hrun, hp2⟩ := ih st1 _ hp1 hadm.2
      refine ⟨st2, ?_, hp2⟩
      simp only [run_pool, hret, hrun, PoolSpec.run, PoolSpec.step, Option.toList_none,
        List.nil_append]

/-! ## The tail pointer of the queue -/

theorem getLast?_cons_or (a : Nat) (l : List Nat) (x : Option Nat) :
    (a :: l).getLast?.or x = l.getLast?.or (some a) := by
  cases l with
  | nil => rfl
  | cons b m =>
    rw [List.getLast?_cons_cons, List.getLast?_cons]
    rfl

theorem put_item_tail {st st1 : State} {a : Nat}
    (h : rtpp_notify_queue_put_item st (some a) = .ok st1) :
    st1.rtpp_notify_wi_queue_tail = some a := by
  unfold rtpp_notify_queue_put_item at h
  simp only at h
  split at h
  · exact absurd h (by simp)
  · split at h
    · simp only [Except.ok.injEq] at h
      subst h; rfl
    · split at h
      · exact absurd h (by simp)
      · split at h
        · exact absurd h (by simp)
        · simp only [Except.ok.injEq] at h
          subst h; rfl

theorem run_pop_tail {st st1 : State} {a : Nat}
    (h : rtpp_notify_queue_run_pop st = some (.ok (a, st1))) :
    st1.rtpp_notify_wi_queue_tail = st.rtpp_notify_wi_queue_tail := by
  unfold rtpp_notify_queue_run_pop at h
  split at h
  · exact absurd h (by simp)
  · split at h
    · exact absurd h (by simp)
    · simp only [Option.some.injEq, Except.ok.injEq, Prod.mk.injEq] at h
      obtain ⟨_, rfl⟩ := h
      rfl

theorem run_queue_final :
    ∀ (ops : List QOp) (st : State) (pending : List Nat), QueueIs st pending →
      admissible st.heap.length pending ops = true →
      ∃ st1, run_queue st ops = some ((pending ++ QOp.puts ops).take (QOp.pops ops), st1) ∧
        QueueIs st1 ((pending ++ QOp.puts ops).drop (QOp.pops ops)) ∧
        QOp.pops ops ≤ (pending ++ QOp.puts ops).length ∧
        st1.rtpp_notify_wi_queue_tail =
          (QOp.puts ops).getLast?.or st.rtpp_notify_wi_queue_tail := by
  intro ops
  induction ops with
  | nil =>
    intro st pending hq _
    exact ⟨st, by simp [run_queue, QOp.pops], by simpa [QOp.pops, QOp.puts] using hq,
      by simp [QOp.pops], by simp [QOp.puts]⟩
  | cons op ops ih =>
    intro st pending hq hadm
    cases op with
    | put wi =>
      simp [admissible] at hadm
      obtain ⟨⟨hlt, hmem⟩, hrest⟩ := hadm
      obtain ⟨st1, hput, hq1, hlen⟩ := put_item_queueIs hq hlt hmem
      obtain ⟨st2, h2, hq2, hle, ht2⟩ := ih st1 (pending ++ [wi]) hq1 (hlen ▸ hrest)
      refine ⟨st2, ?_, ?_, ?_, ?_⟩
      · simp only [run_queue, hput, h2, QOp.puts, QOp.pops, List.append_assoc,
          List.singleton_append]
      · simpa [QOp.puts, QOp.pops] using hq2
      · simpa [QOp.puts, QOp.pops] using hle
      · rw [ht2, put_item_tail hput]
        simp only [QOp.puts]
        rw [getLast?_cons_or]
    | pop =>
      cases pending with
      | nil => simp [admissible] at hadm
      | cons p ps =>
        simp only [admissible, List.isEmpty_cons, Bool.not_false, Bool.true_and,
          List.tail_cons] at hadm
        obtain ⟨st1, hpop, hq1, hlen⟩ := run_pop_queueIs hq
        obtain ⟨st2, h2, hq2, hle, ht2⟩ := ih st1 ps hq1 (hlen ▸ hadm)
        refine ⟨st2, ?_, ?_, ?_, ?_⟩
        · simp only [run_queue, hpop, h2, QOp.puts, QOp.pops, List.cons_append,
            List.take_succ_cons]
        · simpa [QOp.puts, QOp.pops] using hq2
        · simp only [QOp.puts, QOp.pops, List.cons_append, List.length_cons]
          omega
        · rw [ht2, run_pop_tail hpop]
          rfl

/-! ## Termination of the delivery -/

theorem send_loop_returns (fd : Int) (buf : Option (List Nat)) (n : Int) :
    ∀ (fuel : Nat) (os : OS), (∃ j, j ≤ fuel ∧ (os.send_ret j).interrupted = false) →
      ∃ r, (send_loop fd buf n fuel os).1 = some r := by
  intro fuel
  induction fuel with
  | zero =>
    intro os ⟨j, hj, hr⟩
    have hj0 : j = 0 := by omega
    subst hj0
    simp only [SendRet.interrupted, decide_eq_false_iff_not] at hr
    rw [send_loop_unfold, if_neg hr]
    exact ⟨_, rfl⟩
  | succ f ih =>
    intro os ⟨j, hj, hr⟩
    rw [send_loop_unfold]
    split
    · next hint =>
      cases j with
      | zero =>
        simp only [SendRet.interrupted, decide_eq_false_iff_not] at hr
        exact absurd hint hr
      | succ i =>
        exact ih os.after_send ⟨i, by omega, hr⟩
    · exact ⟨_, rfl⟩

theorem send_loop_os (fd : Int) (buf : Option (List Nat)) (n : Int) :
    ∀ (fuel : Nat) (os : OS), ∃ m,
      (send_loop fd buf n fuel os).2.1 = { os with send_ret := fun i => os.send_ret (i + m) } := by
  intro fuel
  induction fuel with
  | zero =>
    intro os
    rw [send_loop_unfold]
    split <;> exact ⟨1, rfl⟩
  | succ f ih =>
    intro os
    rw [send_loop_unfold]
    split
    · obtain ⟨m, hm⟩ := ih os.after_send
      refine ⟨m + 1, ?_⟩
      show (send_loop fd buf n f os.after_send).2.1 = _
      rw [hm]
      simp only [OS.after_send, Nat.add_assoc, Nat.add_comm 1 m]
    · exact ⟨1, rfl⟩

theorem eintr_bounded_shift {os : OS} {fuel : Nat} (h : os.eintr_bounded fuel) (os1 : OS)
    (m : Nat) (hs : os1.send_ret = fun i => os.send_ret (i + m)) : os1.eintr_bounded fuel := by
  intro k
  obtain ⟨j, hj, hr⟩ := h (k + m)
  refine ⟨j, hj, ?_⟩
  rw [hs]
  have : k + j + m = k + m + j := by omega
  simp only [this]
  exact hr

theorem pre_keeps {os os1 : OS} {th th1 : rtpp_timeout_handler} {ev1 : List Event}
    (h : (if th.connected = 0 then reconnect_timeout_handler os th else some (os, th, [])) =
      some (os1, th1, ev1)) :
    os1.send_ret = os.send_ret ∧ th1.socket_name = th.socket_name := by
  rcases pre_cases h with ⟨_, rfl, rfl, _⟩ | ⟨_, hrec⟩
  · exact ⟨rfl, rfl⟩
  · obtain ⟨name, ev0, _, _, _, _, _, hname, hcase⟩ := reconnect_cases hrec
    refine ⟨?_, hname⟩
    rcases hcase with ⟨_, _, rfl, _⟩ | ⟨_, _, _, rfl, _⟩ | ⟨_, _, _, rfl, _⟩ <;> rfl

theorem reconnect_none {os : OS} {th : rtpp_timeout_handler}
    (h : reconnect_timeout_handler os th = none) (hc : th.connected = 0) :
    th.socket_name = none := by
  cases hn : th.socket_name with
  | none => rfl
  | some name =>
    simp only [reconnect_timeout_handler, hn, hc, ne_eq, not_true_eq_false, if_false] at h
    split at h
    · exact absurd h (by simp)
    · split at h <;> exact absurd h (by simp)

/-- The call `do_timeout_notification` returns whenever the handler has an
address and no `send` is interrupted more than `fuel` times in a row. -/
theorem do_timeout_notification_returns (fuel : Nat) (os : OS) (th : rtpp_timeout_handler)
    (wi : rtpp_notify_wi) (retries : Int) (hname : th.socket_name ≠ none)
    (hos : os.eintr_bounded fuel) :
    (do_timeout_notification fuel os th wi retries).exit = .returned := by
  revert hname hos
  refine do_timeout_notification_ind fuel
    (motive := fun os th _ _ run =>
      th.socket_name ≠ none → os.eintr_bounded fuel → run.exit = .returned)
    ?_ ?_ ?_ ?_ ?_ ?_ os th wi retries
  · intro os th wi retries hpre hname _
    by_cases hc : th.connected = 0
    · rw [if_pos hc] at hpre
      exact absurd (reconnect_none hpre hc) hname
    · rw [if_neg hc] at hpre
      exact absurd hpre (by simp)
  · intro os th wi retries os1 th1 ev1 _ _ _ _ _
    rfl
  · intro os th wi retries os1 th1 ev1 os2 ev2 hpre _ hs _ hos
    have hos1 : os1.eintr_bounded fuel :=
      eintr_bounded_shift hos os1 0 (by rw [(pre_keeps hpre).1]; rfl)
    obtain ⟨j, hj, hr⟩ := hos1 0
    rw [Nat.zero_add] at hr
    obtain ⟨r, hr1⟩ := send_loop_returns th1.fd wi.notify_buf (wi.len - 1) fuel os1 ⟨j, hj, hr⟩
    rw [hs] at hr1
    exact absurd hr1 (by simp)
  · intro os th wi retries os1 th1 ev1 r os2 ev2 hpre _ hs _ _ ih hname hos
    have hos1 : os1.eintr_bounded fuel :=
      eintr_bounded_shift hos os1 0 (by rw [(pre_keeps hpre).1]; rfl)
    obtain ⟨m, hm⟩ := send_loop_os th1.fd wi.notify_buf (wi.len - 1) fuel os1
    rw [hs] at hm
    have hm2 : os2 = { os1 with send_ret := fun i => os1.send_ret (i + m) } := hm
    have hos2 : os2.eintr_bounded fuel := eintr_bounded_shift hos1 os2 m (by rw [hm2])
    exact ih (by rw [← (pre_keeps hpre).2] at hname; exact hname) hos2
  · intro os th wi retries os1 th1 ev1 r os2 ev2 _ _ _ _ _ _ _
    rfl
  · intro os th wi retries os1 th1 ev1 r os2 ev2 _ _ _ _ _ _
    rfl

/-! ## Successful sends -/

theorem is_success_of_is_send_false {e : Event} (h : e.is_send = false) :
    e.is_success = false := by
  cases e <;> simp_all [Event.is_send, Event.is_success]

theorem success_is_last_append_of_no_send {ev : List Event}
    (h : ∀ e ∈ ev, e.is_send = false) (rest : List Event) :
    success_is_last (ev ++ rest) = success_is_last rest := by
  induction ev with
  | nil => rfl
  | cons e ev ih =>
    have he := is_success_of_is_send_false (h e (by simp))
    have ih' := ih (fun x hx => h x (List.mem_cons_of_mem _ hx))
    simp [success_is_last, he, ih']

theorem send_loop_success_is_last (fd : Int) (buf : Option (List Nat)) (n : Int) :
    ∀ (fuel : Nat) (os : OS) (rest : List Event),
      success_is_last ((send_loop fd buf n fuel os).2.2 ++ rest) =
        (((send_loop fd buf n fuel os).1.all fun r => decide (r.result < 0) || rest.isEmpty) &&
          success_is_last rest) := by
  intro fuel
  induction fuel with
  | zero =>
    intro os rest
    rw [send_loop_unfold]
    split
    · next h =>
      have hneg : ¬(0 ≤ (os.send_ret 0).result) := by rw [h.1]; decide
      simp [success_is_last, Event.is_success, hneg]
    · simp only [List.singleton_append, success_is_last, Event.is_success, Option.all_some]
      congr 1
      by_cases hr : 0 ≤ (os.send_ret 0).result
      · have : ¬(os.send_ret 0).result < 0 := by omega
        simp [hr, this]
      · have : (os.send_ret 0).result < 0 := by omega
        simp [hr, this]
  | succ f ih =>
    intro os rest
    rw [send_loop_unfold]
    split
    · next h =>
      have hneg : ¬(0 ≤ (os.send_ret 0).result) := by rw [h.1]; decide
      simp only [List.cons_append, success_is_last, Event.is_success, hneg, decide_False,
        Bool.not_false, Bool.true_or, Bool.true_and]
      exact ih os.after_send rest
    · simp only [List.singleton_append, success_is_last, Event.is_success, Option.all_some]
      congr 1
      by_cases hr : 0 ≤ (os.send_ret 0).result
      · have : ¬(os.send_ret 0).result < 0 := by omega
        simp [hr, this]
      · have : (os.send_ret 0).result < 0 := by omega
        simp [hr, this]

theorem send_loop_success_mem (fd : Int) (buf : Option (List Nat)) (n : Int) :
    ∀ (fuel : Nat) (os : OS), ∀ e ∈ (send_loop fd buf n fuel os).2.2, e.is_success = true →
      ∃ r, (send_loop fd buf n fuel os).1 = some r ∧ 0 ≤ r.result := by
  intro fuel
  induction fuel with
  | zero =>
    intro os e he hs
    rw [send_loop_unfold] at he ⊢
    split at he
    · next h =>
      simp only [List.mem_singleton] at he
      subst he
      simp only [Event.is_success, h.1, decide_eq_true_eq] at hs
      exact absurd hs (by decide)
    · next h =>
      simp only [List.mem_singleton] at he
      subst he
      simp only [Event.is_success, decide_eq_true_eq] at hs
      rw [if_neg h]
      exact ⟨_, rfl, hs⟩
  | succ f ih =>
    intro os e he hs
    rw [send_loop_unfold] at he ⊢
    split at he
    · next h =>
      rw [if_pos h]
      simp only [List.mem_cons] at he
      rcases he with rfl | he
      · simp only [Event.is_success, h.1, decide_eq_true_eq] at hs
        exact absurd hs (by decide)
      · exact ih os.after_send e he hs
    · next h =>
      simp only [List.mem_singleton] at he
      subst he
      simp only [Event.is_success, decide_eq_true_eq] at hs
      rw [if_neg h]
      exact ⟨_, rfl, hs⟩

theorem do_timeout_notification_success_is_last (fuel : Nat) (os : OS)
    (th : rtpp_timeout_handler) (wi : rtpp_notify_wi) (retries : Int) :
    success_is_last (do_timeout_notification fuel os th wi retries).events = true := by
  refine do_timeout_notification_ind fuel
    (motive := fun _ _ _ _ run => success_is_last run.events = true)
    ?_ ?_ ?_ ?_ ?_ ?_ os th wi retries
  · intro os th wi retries _
    rfl
  · intro os th wi retries os1 th1 ev1 hpre _ _
    show success_is_last (ev1 ++ _) = true
    rw [success_is_last_append_of_no_send (pre_no_send hpre)]
    rfl
  · intro os th wi retries os1 th1 ev1 os2 ev2 hpre _ hs
    show success_is_last (ev1 ++ ev2) = true
    have key := send_loop_success_is_last th1.fd wi.notify_buf (wi.len - 1) fuel os1 []
    rw [hs] at key
    rw [success_is_last_append_of_no_send (pre_no_send hpre)]
    simpa [success_is_last] using key
  · intro os th wi retries os1 th1 ev1 r os2 ev2 hpre _ hs hr _ ih
    show success_is_last (ev1 ++ ev2 ++ [Event.log true _] ++ _) = true
    have key := send_loop_success_is_last th1.fd wi.notify_buf (wi.len - 1) fuel os1
      (Event.log true "failed to send timeout notification" ::
        (do_timeout_notification fuel os2 { th1 with connected := 0 } wi (retries - 1)).events)
    rw [hs] at key
    simp only [List.append_assoc, List.singleton_append]
    rw [success_is_last_append_of_no_send (pre_no_send hpre), key]
    simp only [Option.all_some, hr, decide_True, Bool.true_or, Bool.true_and]
    simpa [success_is_last, Event.is_success] using ih
  · intro os th wi retries os1 th1 ev1 r os2 ev2 hpre _ hs hr _
    show success_is_last (ev1 ++ ev2 ++ [Event.log true _]) = true
    have key := send_loop_success_is_last th1.fd wi.notify_buf (wi.len - 1) fuel os1
      [Event.log true "failed to send timeout notification"]
    rw [hs] at key
    simp only [List.append_assoc]
    rw [success_is_last_append_of_no_send (pre_no_send hpre), key]
    simp [hr, success_is_last, Event.is_success]
  · intro os th wi retries os1 th1 ev1 r os2 ev2 hpre _ hs _
    show success_is_last (ev1 ++ ev2) = true
    have key := send_loop_success_is_last th1.fd wi.notify_buf (wi.len - 1) fuel os1 []
    rw [hs] at key
    rw [success_is_last_append_of_no_send (pre_no_send hpre)]
    simpa [success_is_last] using key

theorem do_timeout_notification_success_connected (fuel : Nat) (os : OS)
    (th : rtpp_timeout_handler) (wi : rtpp_notify_wi) (retries : Int) :
    ∀ e ∈ (do_timeout_notification fuel os th wi retries).events, e.is_success = true →
      (do_timeout_notification fuel os th wi retries).exit = .returned ∧
      (do_timeout_notification fuel os th wi retries).th.connected ≠ 0 := by
  refine do_timeout_notification_ind fuel
    (motive := fun _ _ _ _ run =>
      ∀ e ∈ run.events, e.is_success = true → run.exit = .returned ∧ run.th.connected ≠ 0)
    ?_ ?_ ?_ ?_ ?_ ?_ os th wi retries
  · intro os th wi retries _ e he
    simp at he
  · intro os th wi retries os1 th1 ev1 hpre _ _ e he hs
    simp only [List.mem_append, List.mem_singleton] at he
    rcases he with he | rfl
    · rw [is_success_of_is_send_false (pre_no_send hpre e he)] at hs
      exact absurd hs (by simp)
    · exact absurd hs (by simp [Event.is_success])
  · intro os th wi retries os1 th1 ev1 os2 ev2 hpre _ hsl e he hs
    simp only [List.mem_append] at he
    rcases he with he | he
    · rw [is_success_of_is_send_false (pre_no_send hpre e he)] at hs
      exact absurd hs (by simp)
    · have h2 : ev2 = (send_loop th1.fd wi.notify_buf (wi.len - 1) fuel os1).2.2 := by rw [hsl]
      rw [h2] at he
      obtain ⟨r, hr, _⟩ := send_loop_success_mem _ _ _ _ _ e he hs
      rw [hsl] at hr
      exact absurd hr (by simp)
  · intro os th wi retries os1 th1 ev1 r os2 ev2 hpre _ hsl hneg _ ih e he hs
    simp only [List.mem_append, List.mem_singleton] at he
    rcases he with ((he | he) | rfl) | he
    · rw [is_success_of_is_send_false (pre_no_send hpre e he)] at hs
      exact absurd hs (by simp)
    · have h2 : ev2 = (send_loop th1.fd wi.notify_buf (wi.len - 1) fuel os1).2.2 := by rw [hsl]
      rw [h2] at he
      obtain ⟨r', hr, hpos⟩ := send_loop_success_mem _ _ _ _ _ e he hs
      rw [hsl] at hr
      simp only [Option.some.injEq] at hr
      subst hr
      omega
    · exact absurd hs (by simp [Event.is_success])
    · exact ih e he hs
  · intro os th wi retries os1 th1 ev1 r os2 ev2 hpre _ hsl hneg _ e he hs
    simp only [List.mem_append, List.mem_singleton] at he
    rcases he with (he | he) | rfl
    · rw [is_success_of_is_send_false (pre_no_send hpre e he)] at hs
      exact absurd hs (by simp)
    · have h2 : ev2 = (send_loop th1.fd wi.notify_buf (wi.len - 1) fuel os1).2.2 := by rw [hsl]
      rw [h2] at he
      obtain ⟨r', hr, hpos⟩ := send_loop_success_mem _ _ _ _ _ e he hs
      rw [hsl] at hr
      simp only [Option.some.injEq] at hr
      subst hr
      omega
    · exact absurd hs (by simp [Event.is_success])
  · intro os th wi retries os1 th1 ev1 r os2 ev2 _ hc _ _ e _ _
    exact ⟨rfl, hc⟩

/-! ## The handler in memory and by value -/

/-- The handler that `rtpp_th_init` makes from a pointer to a live string is,
by value, the handler made from that string. -/
theorem view_th_init (mem : List StrBlock) (ok : Bool) (p : Nat) (s : List Nat)
    (fd connected : Int) (hp : Mem.read mem p = .ok s) :
    (Mem.rtpp_th_init ok (some p) fd connected).map (Mem.view mem) =
      (rtpp_th_init ok (some s) fd connected).map Except.ok := by
  cases ok with
  | false => rfl
  | true => simp [Mem.rtpp_th_init, rtpp_th_init, Mem.view, hp]

/-- C11, as stated, fails: from `rtpp_th_init(name, -1, 0)` one call of
`reconnect_timeout_handler` in which `socket` gives descriptor 4 and `connect`
fails leaves a handler with `fd == 4` and `connected == 0`, so a descriptor is
present while the state is not connected. -/
theorem handler_invariant_counterexample :
    HandlerReachable (some (cstr "/var/run/notify.sock")) { ex_th_new with fd := 4 } ∧
      ¬(({ ex_th_new with fd := 4 } : rtpp_timeout_handler).fd ≠ -1 ↔
        ({ ex_th_new with fd := 4 } : rtpp_timeout_handler).connected ≠ 0) := by
  refine ⟨?_, by decide⟩
  have h0 : HandlerReachable (some (cstr "/var/run/notify.sock")) ex_th_new :=
    HandlerReachable.init rfl
  have hrec : reconnect_timeout_handler ex_os_down ex_th_new =
      some (ex_os_down.after_socket.after_connect, { ex_th_new with fd := 4 },
        [Event.log false "connecting timeout socket", Event.socket 4,
          Event.connect 4 (cstr "/var/run/notify.sock") (-1),
          Event.log true "can't connect to timeout socket"]) := rfl
  exact HandlerReachable.reconnect h0 hrec

/-- C11, amended: in every handler state reachable from
`rtpp_th_init(name, -1, 0)` through `reconnect_timeout_handler` and
`do_timeout_notification`, with any outcomes of `socket`, `connect` and
`send`, a connected handler holds a descriptor: `connected != 0` implies
`fd != -1`.  The converse is not claimed: a handler that is not connected may
keep a descriptor until the next reconnect closes it. -/
theorem handler_connected_has_fd (name : Option (List Nat)) (th : rtpp_timeout_handler)
    (h : HandlerReachable name th) : th.connected ≠ 0 → th.fd ≠ -1 :=
  handlerReachable_fd_of_connected h

/-- Witness of the amended C11: after a reconnect on a system where `socket`
gives descriptor 4 and `connect` succeeds, the handler is connected and holds
descriptor 4. -/
theorem handler_connected_has_fd_witness :
    HandlerReachable (some (cstr "/var/run/notify.sock"))
        { ex_th_new with fd := 4, connected := 1 } ∧
      ({ ex_th_new with fd := 4, connected := 1 } : rtpp_timeout_handler).fd ≠ -1 :=
  have hrec : reconnect_timeout_handler ex_os_up ex_th_new =
      some (ex_os_up.after_socket.after_connect, { ex_th_new with fd := 4, connected := 1 },
        [Event.log false "connecting timeout socket", Event.socket 4,
          Event.connect 4 (cstr "/var/run/notify.sock") 0]) := rfl
  have hr : HandlerReachable (some (cstr "/var/run/notify.sock"))
      { ex_th_new with fd := 4, connected := 1 } :=
    HandlerReachable.reconnect (HandlerReachable.init rfl) hrec
  ⟨hr, handler_connected_has_fd _ _ hr (by decide)⟩

/-- C12: in every state reachable from `rtpp_notify_init` through returning
calls of `rtpp_notify_schedule`, dequeue steps of the worker and the rest of
its iterations, the free list and the delivery queue are proper linked lists
that end in `NULL`, no item occurs twice within or across the two lists and
the hands of the worker, and every allocated work item is in one of these
three places. -/
theorem exclusive_ownership (s : Sys) (h : SysReachable s) :
    ∃ free pending,
      Chain s.st.heap s.st.rtpp_notify_wi_free free ∧
      Chain s.st.heap s.st.rtpp_notify_wi_queue pending ∧
      (free ++ pending ++ s.inflight.toList).Nodup ∧
      ∀ i, i < s.st.heap.length ↔ i ∈ free ++ pending ++ s.inflight.toList := by
  obtain ⟨free, pending, ho, hnd, hcov⟩ := sysReachable_owns h
  exact ⟨free, pending, ho.1, ho.2.1.1, hnd, hcov⟩

/-- Witness of C12: the session with tag `foo` is scheduled and the worker
takes the item from the queue; the item is then in the hands of the worker
and in neither list. -/
theorem exclusive_ownership_witness :
    SysReachable ⟨ex_foo_taken, some 0⟩ ∧
      ∃ free pending,
        Chain ex_foo_taken.heap ex_foo_taken.rtpp_notify_wi_free free ∧
        Chain ex_foo_taken.heap ex_foo_taken.rtpp_notify_wi_queue pending ∧
        (free ++ pending ++ [0]).Nodup ∧
        ∀ i, i < ex_foo_taken.heap.length ↔ i ∈ free ++ pending ++ [0] :=
  have h0 : SysReachable ⟨rtpp_notify_init ex_empty, none⟩ := SysReachable.init ex_empty rfl
  have h1 : SysReachable ⟨ex_foo_queued, none⟩ :=
    SysReachable.schedule ex_alloc ex_cfg ex_session_foo 0 ex_foo_queued h0 rfl
  have h2 : SysReachable ⟨ex_foo_taken, some 0⟩ :=
    SysReachable.pop 0 ex_foo_taken h1 rfl rfl
  ⟨h2, exclusive_ownership ⟨ex_foo_taken, some 0⟩ h2⟩

/-- C13: from the empty pool set by `rtpp_notify_init`, with successful
allocation, every sequence of `rtpp_notify_queue_get_free_item` and
`rtpp_notify_queue_return_free_item` calls that releases only items held at
that time runs without fault and returns the items that the pool of the
specification returns: the most recently released idle item, and a new item
only when no item is idle.  At the end the free list is the list of idle
items, and the number of items ever allocated is at most the largest number of
items held at the same time. -/
theorem pool_reuse (st0 : State) (al : Alloc) (ops : List POp) (h0 : st0.heap = [])
    (hal : al.wi_ok = true) (hadm : PoolSpec.admissible PoolSpec.empty ops = true) :
    ∃ st1,
      run_pool al (rtpp_notify_init st0) ops =
        some ((PoolSpec.run PoolSpec.empty ops).1, st1) ∧
      Chain st1.heap st1.rtpp_notify_wi_free (PoolSpec.run PoolSpec.empty ops).2.free ∧
      st1.heap.length = (PoolSpec.run PoolSpec.empty ops).2.allocated ∧
      (PoolSpec.run PoolSpec.empty ops).2.allocated ≤
        (PoolSpec.run PoolSpec.empty ops).2.high_water := by
  obtain ⟨st1, hrun, hp⟩ :=
    run_pool_refines al hal ops (rtpp_notify_init st0) PoolSpec.empty (poolIs_init st0 h0) hadm
  exact ⟨st1, hrun, hp.1.1, hp.2.2.2.1, hp.2.2.2.2.2⟩

/-- Witness of C13: two items are allocated, released and acquired again; the
five acquisitions return items 0, 1, 0, 0, 1, two items are allocated and two
are held at the same time. -/
theorem pool_reuse_witness :
    PoolSpec.admissible PoolSpec.empty ex_pool_ops = true ∧
      ∃ st1,
        run_pool ex_alloc (rtpp_notify_init ex_empty) ex_pool_ops = some ([0, 1, 0, 0, 1], st1) ∧
        Chain st1.heap st1.rtpp_notify_wi_free [] ∧
        st1.heap.length = 2 ∧ 2 ≤ 2 :=
  ⟨by decide, pool_reuse ex_empty ex_alloc ex_pool_ops rfl rfl (by decide)⟩

/-- C14, as stated, fails.  When the path given to `rtpp_th_set_sn` is the
name of the handler itself, `rtpp_th_get_sn(th)`, the name is freed at line
307 before `strdup` reads it at line 309; and when the handler holds a name
that is not a block of the allocator, stored as given by `rtpp_th_init`, line
307 frees that pointer.  In both cases no name equal to the path is returned. -/
theorem th_set_sn_counterexample :
    Mem.rtpp_th_set_sn true ex_mem ex_th_mem (Mem.rtpp_th_get_sn ex_th_mem) =
        .error .use_after_free ∧
      (Mem.rtpp_th_init true (some 1) (-1) 0).map
          (fun th => Mem.rtpp_th_set_sn true ex_mem th (some 0)) =
        some (.error .invalid_free) :=
  ⟨rfl, rfl⟩

/-- C14, amended: for every handler whose name is `NULL` or a live block of
the allocator, and every path `p` that is a live string other than the name of
the handler, `rtpp_th_set_sn(th, p)` returns without fault, leaves `fd` and
`connected` unchanged and stores the pointer it returns; with a successful
duplication that pointer is a new block holding a string equal to `p`, which
`rtpp_th_get_sn` then returns, the string at `p` is untouched and the old name
is freed.  `rtpp_th_get_sn` after `rtpp_th_init(name, fd, connected)` returns
the pointer `name` as it was given. -/
theorem th_set_sn_fresh_copy (mem : List StrBlock) (th : Mem.rtpp_timeout_handler) (p : Nat)
    (s : List Nat) (dup_ok : Bool) (name : Option Nat) (fd connected : Int)
    (hold : ∀ a, th.socket_name = some a → ∃ old, mem[a]? = some (.heap old))
    (hp : Mem.read mem p = .ok s) (hne : th.socket_name ≠ some p) :
    (∃ th1 q mem1,
      Mem.rtpp_th_set_sn dup_ok mem th (some p) = .ok (th1, q, mem1) ∧
      th1.fd = th.fd ∧ th1.connected = th.connected ∧
      Mem.rtpp_th_get_sn th1 = q ∧
      Mem.read mem1 p = .ok s ∧
      (∀ a, th.socket_name = some a → mem1[a]? = some .freed) ∧
      (dup_ok = true → ∃ b, q = some b ∧ mem.length ≤ b ∧ Mem.read mem1 b = .ok s)) ∧
    (Mem.rtpp_th_init true name fd connected).map Mem.rtpp_th_get_sn = some name ∧
    (Mem.rtpp_th_init true name fd connected).map (fun h => (h.fd, h.connected)) =
      some (fd, connected) := by
  refine ⟨?_, rfl, rfl⟩
  have hplt : p < mem.length := by
    by_contra hge
    simp [Mem.read, List.getElem?_eq_none (Nat.le_of_not_lt hge)] at hp
  -- the string memory after the old name is freed
  obtain ⟨mem0, hfree, hlen0, hp0, hfreed0⟩ : ∃ mem0,
      (match th.socket_name with
        | none => Except.ok mem
        | some a => Mem.free mem a) = .ok mem0 ∧
      mem0.length = mem.length ∧ Mem.read mem0 p = .ok s ∧
      (∀ a, th.socket_name = some a → mem0[a]? = some .freed) := by
    cases hn : th.socket_name with
    | none => exact ⟨mem, rfl, rfl, hp, fun a ha => absurd ha (by simp)⟩
    | some a =>
      obtain ⟨old, hold'⟩ := hold a hn
      have hap : a ≠ p := fun e => hne (by rw [hn, e])
      have halt : a < mem.length := by
        by_contra hge
        rw [List.getElem?_eq_none (Nat.le_of_not_lt hge)] at hold'
        exact absurd hold' (by simp)
      refine ⟨mem.set a .freed, by simp [Mem.free, hold'], by simp, ?_, ?_⟩
      · simp only [Mem.read, List.getElem?_set_ne hap]
        exact hp
      · intro b hb
        simp only [Option.some.injEq] at hb
        subst hb
        exact List.getElem?_set_self halt
  have hp0lt : p < mem0.length := by omega
  cases dup_ok with
  | false =>
    refine ⟨{ th with socket_name := none }, none, mem0, ?_, rfl, rfl, rfl, hp0, hfreed0,
      fun h => absurd h (by simp)⟩
    simp only [Mem.rtpp_th_set_sn, hfree, Mem.strdup, hp0]
    rfl
  | true =>
    have hread : ∀ b, b < mem0.length →
        Mem.read (mem0 ++ [StrBlock.heap s]) b = Mem.read mem0 b := by
      intro b hb
      simp only [Mem.read, List.getElem?_append_left hb]
    refine ⟨{ th with socket_name := some mem0.length }, some mem0.length,
      mem0 ++ [StrBlock.heap s], ?_, rfl, rfl, rfl, ?_, ?_, ?_⟩
    · simp only [Mem.rtpp_th_set_sn, hfree, Mem.strdup, hp0]
      rfl
    · rw [hread p hp0lt]; exact hp0
    · intro a ha
      have h1 := hfreed0 a ha
      have halt : a < mem0.length := by
        by_contra hge
        rw [List.getElem?_eq_none (Nat.le_of_not_lt hge)] at h1
        exact absurd h1 (by simp)
      rw [List.getElem?_append_left halt]
      exact h1
    · intro _
      refine ⟨mem0.length, rfl, by omega, ?_⟩
      simp [Mem.read]

/-- Witness of the amended C14: the handler of `ex_th_mem` gets the path in
block 1 of `ex_mem`; its name becomes a new block, block 2, holding that path,
and block 0 is freed. -/
theorem th_set_sn_fresh_copy_witness :
    (∃ th1 q mem1,
      Mem.rtpp_th_set_sn true ex_mem ex_th_mem (some 1) = .ok (th1, q, mem1) ∧
      th1.fd = ex_th_mem.fd ∧ th1.connected = ex_th_mem.connected ∧
      Mem.rtpp_th_get_sn th1 = q ∧
      Mem.read mem1 1 = .ok (cstr "/var/run/notify.sock") ∧
      (∀ a, ex_th_mem.socket_name = some a → mem1[a]? = some .freed) ∧
      (true = true → ∃ b, q = some b ∧ ex_mem.length ≤ b ∧
        Mem.read mem1 b = .ok (cstr "/var/run/notify.sock"))) ∧
    Mem.rtpp_th_set_sn true ex_mem ex_th_mem (some 1) =
      .ok ({ ex_th_mem with socket_name := some 2 }, some 2,
        [.freed, .foreign (cstr "/var/run/notify.sock"),
          .heap (cstr "/var/run/notify.sock")]) :=
  ⟨(th_set_sn_fresh_copy ex_mem ex_th_mem 1 (cstr "/var/run/notify.sock") true (some 1) (-1) 0
      (fun a ha => ⟨cstr "/tmp/old.sock", by
        simp only [ex_th_mem, Option.some.injEq] at ha
        subst ha; rfl⟩)
      rfl (by decide)).1, rfl⟩

/-- C15, as stated, fails: after one item is put and dequeued the queue is
empty (`rtpp_notify_wi_queue` is `NULL`) while `rtpp_notify_wi_queue_tail`
still points to the item, so the tail pointer is not `NULL` exactly when the
queue is empty. -/
theorem queue_tail_counterexample :
    run_queue (rtpp_notify_init ex_three) [.put 0, .pop] =
        some ([0], { rtpp_notify_init ex_three with rtpp_notify_wi_queue_tail := some 0 }) ∧
      ¬(({ rtpp_notify_init ex_three with rtpp_notify_wi_queue_tail := some 0 } :
            State).rtpp_notify_wi_queue_tail = none ↔
        ({ rtpp_notify_init ex_three with rtpp_notify_wi_queue_tail := some 0 } :
            State).rtpp_notify_wi_queue = none) := by
  constructor
  · rfl
  · decide

/-- C15, amended: in every state reached from `rtpp_notify_init` through
`rtpp_notify_queue_put_item` and the dequeue step of the worker (under the
calling discipline of C1), `rtpp_notify_wi_queue_tail` points to the last
item put, whether the queue is empty or not, and it is `NULL` only when no
item was ever put; the queue is the list of the items put and not yet
dequeued, so a non-empty queue has the tail pointer on its last item, and a
`NULL` tail pointer means an empty queue.  The dequeue step never resets the
tail pointer. -/
theorem queue_tail_last_put (st : State) (ops : List QOp)
    (hadm : admissible st.heap.length [] ops = true) :
    ∃ out st1, run_queue (rtpp_notify_init st) ops = some (out, st1) ∧
      st1.rtpp_notify_wi_queue_tail = (QOp.puts ops).getLast? ∧
      QueueIs st1 ((QOp.puts ops).drop (QOp.pops ops)) ∧
      (st1.rtpp_notify_wi_queue = none ↔ (QOp.puts ops).length ≤ QOp.pops ops) ∧
      (st1.rtpp_notify_wi_queue_tail = none → st1.rtpp_notify_wi_queue = none) := by
  obtain ⟨st1, hrun, hq, _, htail⟩ :=
    run_queue_final ops (rtpp_notify_init st) [] (queueIs_init st) hadm
  simp only [List.nil_append] at hrun hq
  have ht : st1.rtpp_notify_wi_queue_tail = (QOp.puts ops).getLast? := by
    rw [htail]
    show (QOp.puts ops).getLast?.or none = _
    cases (QOp.puts ops).getLast? <;> rfl
  have hempty : st1.rtpp_notify_wi_queue = none ↔ (QOp.puts ops).length ≤ QOp.pops ops := by
    rw [← List.drop_eq_nil_iff]
    constructor
    · intro h
      have hc := hq.1
      rw [h] at hc
      exact chain_head_none hc
    · intro h
      have hc := hq.1
      rw [h] at hc
      exact hc
  refine ⟨_, st1, hrun, ht, hq, hempty, ?_⟩
  intro hnone
  rw [ht, List.getLast?_eq_none_iff] at hnone
  rw [hempty, hnone]
  exact Nat.zero_le _

/-- Witness of the amended C15: with the operations of the witness of C1 the
tail pointer ends on item 2, the last item put, and the queue holds the one
item not yet dequeued. -/
theorem queue_tail_last_put_witness :
    admissible ex_three.heap.length [] ex_ops = true ∧
      ∃ out st1, run_queue (rtpp_notify_init ex_three) ex_ops = some (out, st1) ∧
        st1.rtpp_notify_wi_queue_tail = some 2 ∧
        QueueIs st1 [2] ∧
        (st1.rtpp_notify_wi_queue = none ↔ 4 ≤ 3) ∧
        (st1.rtpp_notify_wi_queue_tail = none → st1.rtpp_notify_wi_queue = none) :=
  ⟨by decide, queue_tail_last_put ex_three ex_ops (by decide)⟩

/-- C16, as stated, fails: an item is filled for a tag of 20 bytes (buffer of
22 bytes), delivered and returned to the free list; the next call of
`rtpp_notify_schedule`, for a session without tag, reuses the item and
`realloc` gives its buffer 13 bytes, fewer than before. -/
theorem buffer_shrinks_counterexample :
    rtpp_notify_schedule (rtpp_notify_init ex_empty) ex_alloc ex_cfg ex_session_long =
        .ok (0, ex_long_queued) ∧
      rtpp_notify_queue_run_pop ex_long_queued = some (.ok (0, ex_long_taken)) ∧
      rtpp_notify_queue_return_free_item ex_long_taken (some 0) = .ok ex_long_pooled ∧
      (ex_long_pooled.heap[0]?.bind fun w => w.notify_buf.map List.length) = some 22 ∧
      ∃ st1, rtpp_notify_schedule ex_long_pooled ex_alloc ex_cfg ex_session_ports = .ok (0, st1) ∧
        (st1.heap[0]?.bind fun w => w.notify_buf.map List.length) = some 13 ∧
        ¬(22 ≤ 13) :=
  ⟨rfl, rfl, rfl, rfl, _, rfl, rfl, by decide⟩

/-- C16, amended: when `rtpp_notify_schedule` fills a pooled work item that
already owns a payload buffer (the head of the free list), with successful
reallocation, the buffer is the result of `realloc` of the old buffer to the
new `len`, and its capacity after the call is exactly that `len`, 13 without
a tag and `strlen(tag) + 2` with a tag, whatever the capacity was before: the
buffer grows or shrinks to the new size. -/
theorem buffer_resized_exactly (st : State) (al : Alloc) (cf : cfg) (sp : rtpp_session)
    (th a : Nat) (fs pending : List Nat) (w : rtpp_notify_wi) (old : List Nat)
    (ho : Owns st (a :: fs) pending) (hw : st.heap[a]? = some w)
    (hold : w.notify_buf = some old) (hth : sp.timeout_data.handler = some th)
    (hbuf : al.buf_ok = true) :
    ∃ st1 w1 buf,
      rtpp_notify_schedule st al cf sp = .ok (0, st1) ∧
      st1.rtpp_notify_wi_queue_tail = some a ∧
      st1.heap[a]? = some w1 ∧ w1.notify_buf = some buf ∧
      (buf.length : Int) = w1.len ∧
      (sp.timeout_data.notify_tag = none → buf.length = 13) ∧
      (∀ t, sp.timeout_data.notify_tag = some t → buf.length = strlen t + 2) ∧
      ∃ buf0, realloc_buf al old w1.len.toNat = some buf0 ∧
        buf = (snprintf buf0 w1.len.toNat (notify_text sp)).1 := by
  obtain ⟨w0, hw0, hok, _⟩ := schedule_full al cf sp ho hth (fun h => absurd h (by simp)) rfl
  obtain ⟨st1, buf0, hnb, hlen, hs, _, htail, hitem, _⟩ := hok hbuf
  simp only [List.head?_cons, Option.getD_some] at htail hitem hw0
  have hlt : a < st.heap.length := by
    by_contra hge
    rw [List.getElem?_eq_none (by omega)] at hw
    exact absurd hw (by simp)
  rw [List.getElem?_append_left hlt, hw] at hw0
  have hww : w = w0 := Option.some.inj hw0
  subst hww
  have hre : realloc_buf al old (notify_len sp.timeout_data.notify_tag).toNat = some buf0 := by
    rw [hold] at hnb
    exact hnb
  have hcap : ∀ n : Nat, (notify_len sp.timeout_data.notify_tag).toNat = n →
      2 ≤ n →
      ((snprintf buf0 (notify_len sp.timeout_data.notify_tag).toNat (notify_text sp)).1).length
        = n := by
    intro n hn h2
    rw [hn] at hlen ⊢
    simp only [snprintf]
    have hne : n ≠ 0 := by omega
    simp only [hne, if_false, List.length_append, List.length_take, List.length_singleton,
      List.length_drop]
    omega
  have hcases : ∃ n : Nat, (notify_len sp.timeout_data.notify_tag).toNat = n ∧ 2 ≤ n ∧
      notify_len sp.timeout_data.notify_tag = (n : Int) ∧
      (sp.timeout_data.notify_tag = none → n = 13) ∧
      (∀ t, sp.timeout_data.notify_tag = some t → n = strlen t + 2) := by
    cases htag : sp.timeout_data.notify_tag with
    | none => exact ⟨13, rfl, by omega, rfl, fun _ => rfl, fun t ht => absurd ht (by simp)⟩
    | some t =>
      refine ⟨strlen t + 2, ?_, by omega, ?_, fun h => absurd h (by simp), ?_⟩
      · simp only [notify_len]; omega
      · simp only [notify_len]; push_cast; rfl
      · intro t' ht'
        simp only [Option.some.injEq] at ht'
        rw [ht']
  obtain ⟨n, hn, h2, hlenInt, hnone, hsome⟩ := hcases
  have hc := hcap n hn h2
  refine ⟨st1, _, _, hs, htail, hitem, rfl, ?_, ?_, ?_, buf0, hre, rfl⟩
  · show ((_ : List Nat).length : Int) = notify_len sp.timeout_data.notify_tag
    rw [hc, hlenInt]
  · intro h; rw [hc]; exact hnone h
  · intro t h; rw [hc]; exact hsome t h

/-- Witness of the amended C16: the item with a buffer of 22 bytes is reused
for a session without tag and its buffer then has 13 bytes. -/
theorem buffer_resized_exactly_witness :
    ∃ st1 w1 buf,
      rtpp_notify_schedule ex_long_pooled ex_alloc ex_cfg ex_session_ports = .ok (0, st1) ∧
      st1.rtpp_notify_wi_queue_tail = some 0 ∧
      st1.heap[0]? = some w1 ∧ w1.notify_buf = some buf ∧
      (buf.length : Int) = w1.len ∧
      (ex_session_ports.timeout_data.notify_tag = none → buf.length = 13) ∧
      (∀ t, ex_session_ports.timeout_data.notify_tag = some t → buf.length = strlen t + 2) ∧
      ∃ buf0, realloc_buf ex_alloc (cstr "call-0123456789-abcd\n" ++ [0]) w1.len.toNat =
          some buf0 ∧
        buf = (snprintf buf0 w1.len.toNat (notify_text ex_session_ports)).1 :=
  buffer_resized_exactly ex_long_pooled ex_alloc ex_cfg ex_session_ports 0 0 [] [] ex_wi_long
    (cstr "call-0123456789-abcd\n" ++ [0])
    ⟨⟨rfl, ex_wi_long, rfl, rfl⟩, ⟨rfl, List.nodup_nil, fun t ht => by simp at ht⟩,
      by decide⟩
    rfl rfl rfl rfl

/-- C17: on a state whose queue starts with item `p`, filled for the handler
`th`, the call `do_timeout_notification(wi, 1)` of the worker returns whenever
the handler has an address and no `send` is interrupted more than `fuel` times
in a row; and whenever it returns, whatever the outcomes of `socket`,
`connect` and `send` were, the iteration of the loop of
`rtpp_notify_queue_run` completes with the calls of that delivery and ends
with `p` at the head of the free list, out of the delivery queue, with its
payload buffer and `len` as they were. -/
theorem worker_returns_item (fuel : Nat) (os : OS) (st : State) (free ps : List Nat)
    (p t : Nat) (w : rtpp_notify_wi) (th : rtpp_timeout_handler)
    (ho : Owns st free (p :: ps)) (hw : st.heap[p]? = some w) (ht : w.th = some t)
    (hh : st.handlers[t]? = some th) :
    (th.socket_name ≠ none → os.eintr_bounded fuel →
      (do_timeout_notification fuel os th w 1).exit = .returned) ∧
    ((do_timeout_notification fuel os th w 1).exit = .returned →
      ∃ st2 os2,
        rtpp_notify_queue_run_iter fuel os st =
          .done st2 os2 (do_timeout_notification fuel os th w 1).events ∧
        st2.rtpp_notify_wi_free = some p ∧
        Owns st2 (p :: free) ps ∧ p ∉ ps ∧
        st2.heap[p]? = some { w with next := st.rtpp_notify_wi_free } ∧
        (st2.heap[p]?.bind fun x => x.notify_buf) = w.notify_buf) := by
  refine ⟨do_timeout_notification_returns fuel os th w 1, ?_⟩
  intro hexit
  obtain ⟨st1, hpop, _, _⟩ := run_pop_queueIs ho.2.1
  obtain ⟨ps', hps, ho1, hheap, hhand, hfp, _⟩ := run_pop_owns ho hpop
  have hps' : ps' = ps := by
    simp only [List.cons.injEq, true_and] at hps
    exact hps.symm
  subst hps'
  have hperm : (free ++ p :: ps').Perm (p :: (free ++ ps')) := List.perm_middle
  have hnd : (p :: (free ++ ps')).Nodup := hperm.nodup_iff.mp ho.2.2
  have hnm := (List.nodup_cons.mp hnd).1
  have hnf : p ∉ free := fun h => hnm (List.mem_append_left _ h)
  have hnp : p ∉ ps' := fun h => hnm (List.mem_append_right _ h)
  have hw1 : st1.heap[p]? = some w := by rw [hheap]; exact hw
  have hh1 : st1.handlers[t]? = some th := by rw [hhand]; exact hh
  obtain ⟨st2, hret, ho2, hitem, hfree2, _⟩ :=
    return_free_item_owns
      (owns_set_handlers (st1.handlers.set t (do_timeout_notification fuel os th w 1).th) ho1)
      hw1 hnf hnp
  refine ⟨st2, (do_timeout_notification fuel os th w 1).os, ?_, hfree2, ho2, hnp, ?_, ?_⟩
  · rw [run_iter_eq, hpop]
    simp only [rtpp_notify_queue_run_finish, hw1, ht, hh1, hexit, hret]
  · rw [hitem]
    show some { w with next := st1.rtpp_notify_wi_free } = _
    rw [hfp]
  · rw [hitem]
    rfl

/-- Witness of C17: the item filled for the tag `foo` is delivered to a
handler whose `connect` fails; the delivery returns, the iteration completes
and the item is at the head of the free list with its buffer. -/
theorem worker_returns_item_witness :
    (do_timeout_notification 0 ex_os_down ex_th_new ex_wi_foo 1).exit = .returned ∧
    ∃ st2 os2,
      rtpp_notify_queue_run_iter 0 ex_os_down ex_foo_queued =
        .done st2 os2 (do_timeout_notification 0 ex_os_down ex_th_new ex_wi_foo 1).events ∧
      st2.rtpp_notify_wi_free = some 0 ∧
      Owns st2 [0] [] ∧ 0 ∉ ([] : List Nat) ∧
      st2.heap[0]? = some { ex_wi_foo with next := ex_foo_queued.rtpp_notify_wi_free } ∧
      (st2.heap[0]?.bind fun x => x.notify_buf) = ex_wi_foo.notify_buf :=
  have h := worker_returns_item 0 ex_os_down ex_foo_queued [] [] 0 0 ex_wi_foo ex_th_new
    ⟨rfl, ⟨⟨rfl, ex_wi_foo, rfl, rfl⟩, List.nodup_singleton 0,
      fun t ht => by simp at ht; subst ht; rfl⟩, List.nodup_singleton 0⟩
    rfl rfl rfl
  have hret := h.1 (by decide) (fun _ => ⟨0, Nat.le_refl 0, rfl⟩)
  ⟨hret, h.2 hret⟩

/-- C18: for a session with a handler and no tag, whatever the ports, on a
well-formed state and with successful allocation, the enqueued item has `len`
13 and every call of `send` for it passes 12 bytes, the first 12 bytes of its
buffer.  These 12 bytes are the formatted text exactly when the text is 12
bytes long; when the text is shorter they are the text, the NUL and bytes of
the block as `malloc` or `realloc` handed it out, which this call did not
write.  For ports 5004 and 5006 the text has 10 bytes and one such byte is
sent after the NUL. -/
theorem untagged_sends_twelve (st : State) (al : Alloc) (cf : cfg) (sp : rtpp_session)
    (th : Nat) (hwf : WellFormed st) (hth : sp.timeout_data.handler = some th)
    (htag : sp.timeout_data.notify_tag = none)
    (hwi : al.wi_ok = true) (hbuf : al.buf_ok = true) :
    ∃ wi st1 w w0 buf0 buf,
      (st.heap ++ [wi_zero])[wi]? = some w0 ∧
      alloc_buf al w0.notify_buf 13 = some buf0 ∧
      rtpp_notify_schedule st al cf sp = .ok (0, st1) ∧
      st1.rtpp_notify_wi_queue_tail = some wi ∧
      st1.heap[wi]? = some w ∧ w.len = 13 ∧ w.notify_buf = some buf ∧
      (∀ (fuel : Nat) (os : OS) (h : rtpp_timeout_handler) (retries : Int),
        ∀ e ∈ (do_timeout_notification fuel os h w retries).events, e.is_send = true →
          ∃ fd r, e = Event.send fd (buf.take 12) 12 r) ∧
      (buf.take 12).length = 12 ∧
      (buf.take 12 = fmt_d sp.ports0 ++ cstr " " ++ fmt_d sp.ports1 ++ cstr "\n" ↔
        (fmt_d sp.ports0 ++ cstr " " ++ fmt_d sp.ports1 ++ cstr "\n").length = 12) ∧
      ((fmt_d sp.ports0 ++ cstr " " ++ fmt_d sp.ports1 ++ cstr "\n").length < 12 →
        buf.take 12 = fmt_d sp.ports0 ++ cstr " " ++ fmt_d sp.ports1 ++ cstr "\n" ++ [0] ++
          (buf0.drop ((fmt_d sp.ports0 ++ cstr " " ++ fmt_d sp.ports1 ++ cstr "\n").length + 1)).take
            (11 - (fmt_d sp.ports0 ++ cstr " " ++ fmt_d sp.ports1 ++ cstr "\n").length)) ∧
      (sp.ports0 = 5004 → sp.ports1 = 5006 →
        buf.take 12 = cstr "5004 5006\n" ++ [0] ++ (buf0.drop 11).take 1) := by
  obtain ⟨free, pending, ho⟩ := hwf
  obtain ⟨w0, hw0, hok, _⟩ := schedule_full al cf sp ho hth (fun _ => hwi) rfl
  obtain ⟨st1, buf0, hnb, hlen, hs, _, htail, hitem, _⟩ := hok hbuf
  have hl : (notify_len sp.timeout_data.notify_tag).toNat = 13 := by rw [htag]; rfl
  have hli : notify_len sp.timeout_data.notify_tag = 13 := by rw [htag]; rfl
  have htext : notify_text sp = fmt_d sp.ports0 ++ cstr " " ++ fmt_d sp.ports1 ++ cstr "\n" := by
    simp only [notify_text, htag]
  rw [hl] at hnb hlen hitem
  rw [hli, htext] at hitem
  have hports : sp.ports0 = 5004 → sp.ports1 = 5006 →
      fmt_d sp.ports0 ++ cstr " " ++ fmt_d sp.ports1 ++ cstr "\n" = cstr "5004 5006\n" := by
    intro e0 e1
    rw [e0, e1]
    decide
  generalize fmt_d sp.ports0 ++ cstr " " ++ fmt_d sp.ports1 ++ cstr "\n" = text at hitem hports ⊢
  have hcap : ((snprintf buf0 13 text).1).length = 13 := by
    simp only [snprintf]
    simp only [show (13 : Nat) ≠ 0 by omega, if_false, List.length_append, List.length_take,
      List.length_singleton, List.length_drop]
    omega
  have hshort : text.length < 12 →
      ((snprintf buf0 13 text).1).take 12 =
        text ++ [0] ++ (buf0.drop (text.length + 1)).take (11 - text.length) := by
    intro hlt
    rw [snprintf_fits (by omega), List.take_append_eq_append_take]
    have h1 : (text ++ [0]).length = text.length + 1 := by simp
    rw [List.take_of_length_le (by omega), h1]
    congr 2
    omega
  refine ⟨_, st1, _, w0, buf0, _, hw0, hnb, hs, htail, hitem, rfl, rfl, ?_, ?_, ?_, hshort, ?_⟩
  · intro fuel os h retries e he hsend
    exact do_timeout_notification_sends fuel os h _ retries e he hsend
  · rw [List.length_take, hcap]; rfl
  · constructor
    · intro h
      have := congrArg List.length h
      rw [List.length_take, hcap] at this
      omega
    · intro h12
      rw [snprintf_fits (by omega), List.append_assoc,
        List.take_append_of_le_length (by omega)]
      exact List.take_of_length_le (by omega)
  · intro e0 e1
    have ht := hports e0 e1
    have h10 : text.length < 12 := by rw [ht]; decide
    have key := hshort h10
    rw [ht] at key ⊢
    exact key

/-- Witness of C18: the session with ports 5004 and 5006 scheduled on the
state before any allocation; the 12 bytes sent are the text, the NUL and one
byte of the block as `malloc` handed it out. -/
theorem untagged_sends_twelve_witness :
    ∃ wi st1 w w0 buf0 buf,
      ((rtpp_notify_init ex_empty).heap ++ [wi_zero])[wi]? = some w0 ∧
      alloc_buf ex_alloc w0.notify_buf 13 = some buf0 ∧
      rtpp_notify_schedule (rtpp_notify_init ex_empty) ex_alloc ex_cfg ex_session_ports =
        .ok (0, st1) ∧
      st1.rtpp_notify_wi_queue_tail = some wi ∧
      st1.heap[wi]? = some w ∧ w.len = 13 ∧ w.notify_buf = some buf ∧
      (∀ (fuel : Nat) (os : OS) (h : rtpp_timeout_handler) (retries : Int),
        ∀ e ∈ (do_timeout_notification fuel os h w retries).events, e.is_send = true →
          ∃ fd r, e = Event.send fd (buf.take 12) 12 r) ∧
      (buf.take 12).length = 12 ∧
      (buf.take 12 = fmt_d 5004 ++ cstr " " ++ fmt_d 5006 ++ cstr "\n" ↔
        (fmt_d 5004 ++ cstr " " ++ fmt_d 5006 ++ cstr "\n").length = 12) ∧
      ((fmt_d 5004 ++ cstr " " ++ fmt_d 5006 ++ cstr "\n").length < 12 →
        buf.take 12 = fmt_d 5004 ++ cstr " " ++ fmt_d 5006 ++ cstr "\n" ++ [0] ++
          (buf0.drop ((fmt_d 5004 ++ cstr " " ++ fmt_d 5006 ++ cstr "\n").length + 1)).take
            (11 - (fmt_d 5004 ++ cstr " " ++ fmt_d 5006 ++ cstr "\n").length)) ∧
      ((5004 : Int) = 5004 → (5006 : Int) = 5006 →
        buf.take 12 = cstr "5004 5006\n" ++ [0] ++ (buf0.drop 11).take 1) :=
  untagged_sends_twelve (rtpp_notify_init ex_empty) ex_alloc ex_cfg ex_session_ports 0
    (wellFormed_init ex_empty) rfl rfl rfl rfl

/-- C19: in every call of `do_timeout_notification`, a call of `send` that
returns a non-negative count, also one smaller than `len - 1`, is the last
call made: no further `send`, no reconnect and no log line follows it, so
whatever follows a `send` follows a negative return.  The call then returns
with the handler connected.  In particular, when the send attempt of a
connected handler ends with a non-negative count, the call returns right
after it with the handler as it was. -/
theorem short_write_is_success (fuel : Nat) (os : OS) (th : rtpp_timeout_handler)
    (wi : rtpp_notify_wi) (retries : Int) :
    success_is_last (do_timeout_notification fuel os th wi retries).events = true ∧
    (∀ e ∈ (do_timeout_notification fuel os th wi retries).events, e.is_success = true →
      (do_timeout_notification fuel os th wi retries).exit = .returned ∧
      (do_timeout_notification fuel os th wi retries).th.connected ≠ 0) ∧
    (∀ (r : SendRet) (os2 : OS) (ev2 : List Event), th.connected ≠ 0 →
      send_loop th.fd wi.notify_buf (wi.len - 1) fuel os = (some r, os2, ev2) →
      0 ≤ r.result →
      do_timeout_notification fuel os th wi retries = Run.mk .returned os2 th ev2) := by
  refine ⟨do_timeout_notification_success_is_last fuel os th wi retries,
    do_timeout_notification_success_connected fuel os th wi retries, ?_⟩
  intro r os2 ev2 hc hs hr
  have hneg : ¬r.result < 0 := by omega
  rw [do_timeout_notification]
  simp [hc, hs, hneg]

/-- Witness of C19: on a connected handler `send` writes 2 of the 4 bytes;
the call makes this one call of `send` and returns with the handler connected. -/
theorem short_write_is_success_witness :
    (do_timeout_notification 0 ex_os_short ex_th_connected ex_wi_foo 1).events =
        [Event.send 3 (cstr "foo\n") 4 ⟨2, 0⟩] ∧
      (2 : Int) < ex_wi_foo.len - 1 ∧
      (do_timeout_notification 0 ex_os_short ex_th_connected ex_wi_foo 1).exit = .returned ∧
      (do_timeout_notification 0 ex_os_short ex_th_connected ex_wi_foo 1).th.connected ≠ 0 :=
  have h := short_write_is_success 0 ex_os_short ex_th_connected ex_wi_foo 1
  have hrun := h.2.2 ⟨2, 0⟩ ex_os_short.after_send [Event.send 3 (cstr "foo\n") 4 ⟨2, 0⟩]
    (by decide) rfl (by decide)
  have hmem : Event.send 3 (cstr "foo\n") 4 ⟨2, 0⟩ ∈
      (do_timeout_notification 0 ex_os_short ex_th_connected ex_wi_foo 1).events := by
    rw [hrun]; exact List.mem_singleton.mpr rfl
  ⟨congrArg Run.events hrun, by decide, (h.2.1 _ hmem rfl).1, (h.2.1 _ hmem rfl).2⟩

end RtppNotify
